import Mathlib

/-!
# Verification of the KDE-Scripted-Install proof-of-concept scripts

Shallow embedding of the three Python source files of the repository
(`config_simple.py`, `config_poc.py`, `hardware_poc.py`) together with
theorems settling the specification claims about them.

Conventions of the embedding:
* Python strings are embedded as Lean `String` / `List Char`; the character
  classes of the Python regexes (`\d`, `[a-z]`, `\s`, ...) are modelled over
  their ASCII meaning, which is the only range exercised by this program.
* Python dictionaries are embedded as association lists with
  insert-or-replace update and first-match lookup.
* Fallible code is embedded with `Option` / `Except`; uncaught Python
  exceptions surface as `Except.error`.
* External processes and the sysfs file tree are embedded as explicit
  oracle parameters; functions that may shell out additionally return the
  list of external invocations they performed.
-/

namespace KdeInstall

/-! ## Small Python-semantics utilities -/

/-- The quote characters stripped by `value.strip('"\x27')` in
`_parse_shell_config`: the double quote and the single quote. -/
def isQuoteChar (c : Char) : Bool := c = '"' || c = Char.ofNat 39

/-- ASCII whitespace as matched by Python `str.strip()` and the regex
class `\s` (space, tab, newline, carriage return, vertical tab, form feed). -/
def pyIsSpace (c : Char) : Bool :=
  c = ' ' || c = '\t' || c = '\n' || c = '\r' || c = '\x0b' || c = '\x0c'

/-- Python `str.strip()` on a list of characters: drop whitespace from
both ends. -/
def pyStrip (l : List Char) : List Char :=
  ((l.dropWhile pyIsSpace).reverse.dropWhile pyIsSpace).reverse

/-- Python `value.strip('"\x27')`: drop quote characters from both ends. -/
def stripQuotes (l : List Char) : List Char :=
  ((l.dropWhile isQuoteChar).reverse.dropWhile isQuoteChar).reverse

/-- Numeric value of a list of ASCII digits (most significant first). -/
def digitsToNat (l : List Char) : Nat :=
  l.foldl (fun acc c => 10 * acc + (c.toNat - '0'.toNat)) 0

/-- Python `re`'s `$` (without `re.MULTILINE`) matches at the end of the
string or just before one trailing newline.  `chopNl` removes that one
trailing newline; since every `$`-anchored pattern below ends in a
character other than `\n`, such a pattern matches a string exactly when
its end-of-string core matches the `chopNl` of it. -/
def chopNl (l : List Char) : List Char :=
  if l.getLast? = some '\n' then l.dropLast else l

/-- A list with a known last element decomposes off that element. -/
theorem eq_dropLast_append_of_getLast? :
    ∀ (l : List Char) (c : Char), l.getLast? = some c → l = l.dropLast ++ [c]
  | [], _, h => absurd h (by simp)
  | [a], c, h => by
    simp at h
    subst h
    simp
  | a :: b :: t, c, h => by
    have h2 : (b :: t).getLast? = some c := by
      rw [← h]
      rfl
    have ih := eq_dropLast_append_of_getLast? (b :: t) c h2
    calc a :: b :: t = a :: (b :: t) := rfl
      _ = a :: ((b :: t).dropLast ++ [c]) := by rw [← ih]
      _ = (a :: b :: t).dropLast ++ [c] := rfl

/-- Every list is its chopped core, or that core plus one newline. -/
theorem chopNl_cases (l : List Char) : l = chopNl l ∨ l = chopNl l ++ ['\n'] := by
  unfold chopNl
  by_cases h : l.getLast? = some '\n'
  · rw [if_pos h]
    exact Or.inr (eq_dropLast_append_of_getLast? l '\n' h)
  · rw [if_neg h]
    exact Or.inl rfl

/-- `chopNl` is the identity off a trailing newline. -/
theorem chopNl_of_getLast_ne {l : List Char} (h : ¬ l.getLast? = some '\n') :
    chopNl l = l := by
  unfold chopNl
  rw [if_neg h]

/-- `chopNl` removes exactly one trailing newline. -/
theorem chopNl_append_nl (w : List Char) : chopNl (w ++ ['\n']) = w := by
  unfold chopNl
  rw [if_pos (by simp)]
  simp

/-- `chopNl` never lengthens a list. -/
theorem chopNl_length_le (l : List Char) : (chopNl l).length ≤ l.length := by
  unfold chopNl
  split
  · simp [List.length_dropLast]
  · exact Nat.le_refl _

/-! ## Embedding of `config_simple.py` -/

/-- `ValidationError` dataclass of `config_simple.py`: a field name and a
human-readable message. -/
structure ValidationError where
  field : String
  message : String
deriving Repr, DecidableEq

/-- A configuration mapping (`Dict[str, str]`): an association list of
key/value pairs with first-match lookup, as produced by a Python `dict`. -/
abbrev Cfg := List (String × String)

/-- Python `config.get(k)`: first value stored under `k`, if any. -/
def cfgGet (c : Cfg) (k : String) : Option String :=
  match c with
  | [] => none
  | (k1, v) :: t => if k1 = k then some v else cfgGet t k

/-- Python truthiness of `config.get(k)`: `some v` exactly when key `k` is
present with a non-empty value (`None` and `''` are both falsy). -/
def truthyGet (c : Cfg) (k : String) : Option String :=
  match cfgGet c k with
  | some v => if v = "" then none else some v
  | none => none

/-- Character class `[a-z0-9_-]` of the username regex. -/
def usernameChar (c : Char) : Bool :=
  c.isLower || c.isDigit || c = '_' || c = '-'

/-- The anchored regex `/dev/nvme\d+n\d+$` of
`ConfigValidator.validate_drive_path`, matched from the start of the
string (`re.match`): the literal prefix `/dev/nvme`, one or more digits,
the letter `n`, and one or more digits reaching the `$` anchor, which
also accepts one trailing newline (hence `chopNl`).  Greedy `\d+` needs
no backtracking here because the characters that follow each digit run
(`n`, the anchor) are not digits. -/
def drivePathOkL (l : List Char) : Bool :=
  match chopNl l with
  | '/' :: 'd' :: 'e' :: 'v' :: '/' :: 'n' :: 'v' :: 'm' :: 'e' :: rest =>
    let d1 := rest.takeWhile Char.isDigit
    let r1 := rest.dropWhile Char.isDigit
    match r1 with
    | 'n' :: r2 => (!d1.isEmpty) && (!r2.isEmpty) && r2.all Char.isDigit
    | _ => false
  | _ => false

/-- String wrapper for `drivePathOkL`. -/
def driveOk (s : String) : Bool := drivePathOkL s.data

/-- One dotted-quad octet as accepted by `ipaddress.IPv4Address` on a
string: one to three ASCII digits, value at most 255, and no leading zero
(a multi-digit octet must not start with `0`). -/
def octetOk (p : List Char) : Bool :=
  !p.isEmpty && p.all Char.isDigit && decide (p.length ≤ 3) &&
    (decide (p.length = 1) || decide (p.head? ≠ some '0')) &&
    decide (digitsToNat p ≤ 255)

/-- Python `s.split('.')`: the maximal dot-free segments, with empty
segments kept (`''.split('.') == ['']`, `'a..b'.split('.') == ['a','','b']`). -/
def splitDots : List Char → List (List Char)
  | [] => [[]]
  | c :: rest =>
    if c = '.' then [] :: splitDots rest
    else
      match splitDots rest with
      | p :: ps => (c :: p) :: ps
      | [] => [[c]]

/-- `ipaddress.IPv4Address` string acceptance: exactly four dot-separated
octets, each valid per `octetOk`. -/
def ipv4Ok (s : String) : Bool :=
  let parts := splitDots s.data
  decide (parts.length = 4) && parts.all octetOk

/-- `ConfigValidator.validate_drive_path`. -/
def validate_drive_path (drive : String) : Option ValidationError :=
  if drivePathOkL drive.data then none
  else some ⟨"target_drive", "Invalid NVMe drive path format"⟩

/-- `ConfigValidator.validate_ip_address`: `None` on a valid IPv4 string,
otherwise an error recorded against the field name `ip_address`. -/
def validate_ip_address (ip : String) : Option ValidationError :=
  if ipv4Ok ip then none
  else some ⟨"ip_address", "Invalid IP address format"⟩

/-- The anchored regex `^[a-z][a-z0-9_-]*$` of
`ConfigValidator.validate_username`; `$` accepts one trailing newline. -/
def usernamePatternOk (s : String) : Bool :=
  match chopNl s.data with
  | [] => false
  | c :: rest => c.isLower && rest.all usernameChar

/-- `ConfigValidator.validate_username`: pattern check first, then the
32-character length cap. -/
def validate_username (username : String) : Option ValidationError :=
  if !usernamePatternOk username then
    some ⟨"username",
      "Username must start with letter, contain only lowercase letters, numbers, underscore, dash"⟩
  else if username.data.length > 32 then
    some ⟨"username", "Username too long (max 32 characters)"⟩
  else none

/-- The regex `[a-z]{2}_[A-Z]{2}\.UTF-8$` of
`ConfigValidator.validate_locale`, matched from the start of the string:
exactly two lowercase letters, an underscore, two uppercase letters and
the literal `.UTF-8` reaching the `$` anchor, which also accepts one
trailing newline. -/
def localeOk (s : String) : Bool :=
  match chopNl s.data with
  | [a, b, '_', c, d, '.', 'U', 'T', 'F', '-', '8'] =>
    a.isLower && b.isLower && c.isUpper && d.isUpper
  | _ => false

/-- `ConfigValidator.validate_locale`. -/
def validate_locale (locale : String) : Option ValidationError :=
  if localeOk locale then none
  else some ⟨"locale", "Locale must be in format: en_US.UTF-8"⟩

/-- The `required_fields` loop of `validate_network_config`: one error per
static field whose value is absent or empty, appended in list order. -/
def staticRequiredErrors (c : Cfg) : List ValidationError :=
  ["static_ip", "static_gateway", "static_iface"].foldl
    (fun es f =>
      if (truthyGet c f).isSome then es
      else es ++ [⟨f, f ++ " required for static configuration"⟩]) []

/-- `ConfigValidator.validate_network_config`: network-type membership
check, then (for `static`) the required-field loop, the `static_ip` format
check (whose error keeps the field name `ip_address` produced by
`validate_ip_address`), and the `static_gateway` format check (whose error
field is reassigned to `static_gateway`). -/
def validate_network_config (c : Cfg) : List ValidationError :=
  let network_type := (cfgGet c "network_config").getD ""
  let errors : List ValidationError :=
    if network_type = "dhcp" || network_type = "static" || network_type = "manual" then []
    else [⟨"network_config", "Must be dhcp, static, or manual"⟩]
  if network_type = "static" then
    let errors := errors ++ staticRequiredErrors c
    let errors := errors ++
      (match truthyGet c "static_ip" with
       | some v => (validate_ip_address v).toList
       | none => [])
    errors ++
      (match truthyGet c "static_gateway" with
       | some v =>
         match validate_ip_address v with
         | some e => [{ e with field := "static_gateway" }]
         | none => []
       | none => [])
  else errors

/-- The network-type membership check of `validate_network_config`. -/
def networkTypeErrors (c : Cfg) : List ValidationError :=
  if (cfgGet c "network_config").getD "" = "dhcp" ||
      (cfgGet c "network_config").getD "" = "static" ||
      (cfgGet c "network_config").getD "" = "manual" then []
  else [⟨"network_config", "Must be dhcp, static, or manual"⟩]

/-- The guarded `static_ip` format check of `validate_network_config`. -/
def staticIpErrors (c : Cfg) : List ValidationError :=
  match truthyGet c "static_ip" with
  | some v => (validate_ip_address v).toList
  | none => []

/-- The guarded `static_gateway` format check of
`validate_network_config`, with the field reassignment. -/
def staticGatewayErrors (c : Cfg) : List ValidationError :=
  match truthyGet c "static_gateway" with
  | some v =>
    match validate_ip_address v with
    | some e => [{ e with field := "static_gateway" }]
    | none => []
  | none => []

/-- `validate_network_config` is the concatenation of the network-type
check and, for `static`, the required-field loop and the two guarded IP
format checks. -/
theorem validate_network_config_decomp (c : Cfg) :
    validate_network_config c
      = networkTypeErrors c ++
        (if (cfgGet c "network_config").getD "" = "static" then
          staticRequiredErrors c ++ staticIpErrors c ++ staticGatewayErrors c
        else []) := by
  unfold validate_network_config networkTypeErrors staticIpErrors staticGatewayErrors
  by_cases h : (cfgGet c "network_config").getD "" = "static" <;>
    simp [h, List.append_assoc]

/-- The required-field loop of `validate_config_file`. -/
def requiredFieldErrors (c : Cfg) : List ValidationError :=
  ["target_drive", "username", "hostname"].foldl
    (fun es f =>
      if (truthyGet c f).isSome then es
      else es ++ [⟨f, f ++ " is required"⟩]) []

/-- The three guarded per-field format checks of `validate_config_file`
(each runs only when the field is present and non-empty). -/
def fieldFormatErrors (c : Cfg) : List ValidationError :=
  (match truthyGet c "target_drive" with
   | some v => (validate_drive_path v).toList
   | none => []) ++
  (match truthyGet c "username" with
   | some v => (validate_username v).toList
   | none => []) ++
  (match truthyGet c "locale" with
   | some v => (validate_locale v).toList
   | none => [])

/-- `validate_config_file` of `config_simple.py`: required-field loop,
guarded per-field format checks, then the network-configuration errors,
accumulated in that order. -/
def validate_config_file (c : Cfg) : List ValidationError :=
  let errors := requiredFieldErrors c
  let errors := errors ++
    (match truthyGet c "target_drive" with
     | some v => (validate_drive_path v).toList
     | none => [])
  let errors := errors ++
    (match truthyGet c "username" with
     | some v => (validate_username v).toList
     | none => [])
  let errors := errors ++
    (match truthyGet c "locale" with
     | some v => (validate_locale v).toList
     | none => [])
  errors ++ validate_network_config c

/-! ### Structural lemmas about the error accumulation of `config_simple.py` -/

/-- The error-accumulating `for` loops over required-field lists are
equivalent to a `filterMap` appended to the incoming accumulator. -/
theorem foldl_req_eq (mk : String → ValidationError) (c : Cfg) :
    ∀ (fields : List String) (es : List ValidationError),
      fields.foldl
        (fun es f => if (truthyGet c f).isSome then es else es ++ [mk f]) es
      = es ++ fields.filterMap
          (fun f => if (truthyGet c f).isSome then none else some (mk f)) := by
  intro fields
  induction fields with
  | nil => intro es; simp
  | cons f t ih =>
    intro es
    by_cases h : (truthyGet c f).isSome <;>
      simp [h, ih, List.filterMap_cons, List.append_assoc]

/-- `validate_config_file` is exactly the concatenation of the
required-field errors, the guarded per-field format errors and the
network-configuration errors: the loop never short-circuits. -/
theorem validate_config_file_decomp (c : Cfg) :
    validate_config_file c
      = requiredFieldErrors c ++ fieldFormatErrors c ++ validate_network_config c := by
  simp [validate_config_file, fieldFormatErrors, List.append_assoc]

/-- The drive-path validator only ever produces its fixed error. -/
theorem validate_drive_path_eq {v : String} {e : ValidationError}
    (h : validate_drive_path v = some e) :
    e = ⟨"target_drive", "Invalid NVMe drive path format"⟩ := by
  unfold validate_drive_path at h
  split at h <;> simp_all

/-- The username validator only ever produces its two fixed errors. -/
theorem validate_username_eq {v : String} {e : ValidationError}
    (h : validate_username v = some e) :
    e = ⟨"username",
      "Username must start with letter, contain only lowercase letters, numbers, underscore, dash"⟩
    ∨ e = ⟨"username", "Username too long (max 32 characters)"⟩ := by
  unfold validate_username at h
  split at h
  · simp_all
  · split at h <;> simp_all

/-- The locale validator only ever produces its fixed error. -/
theorem validate_locale_eq {v : String} {e : ValidationError}
    (h : validate_locale v = some e) :
    e = ⟨"locale", "Locale must be in format: en_US.UTF-8"⟩ := by
  unfold validate_locale at h
  split at h <;> simp_all

/-- The IP-address validator only ever produces its fixed error. -/
theorem validate_ip_address_eq {v : String} {e : ValidationError}
    (h : validate_ip_address v = some e) :
    e = ⟨"ip_address", "Invalid IP address format"⟩ := by
  unfold validate_ip_address at h
  split at h <;> simp_all

/-- Every error of the static required-field loop is one of its three
fixed errors. -/
theorem mem_staticRequiredErrors {c : Cfg} {e : ValidationError}
    (h : e ∈ staticRequiredErrors c) :
    e = ⟨"static_ip", "static_ip required for static configuration"⟩
    ∨ e = ⟨"static_gateway", "static_gateway required for static configuration"⟩
    ∨ e = ⟨"static_iface", "static_iface required for static configuration"⟩ := by
  unfold staticRequiredErrors at h
  rw [foldl_req_eq (fun f => ⟨f, f ++ " required for static configuration"⟩)] at h
  simp only [List.nil_append, List.mem_filterMap] at h
  obtain ⟨f, hf, hfx⟩ := h
  by_cases hs : (truthyGet c f).isSome <;> simp [hs] at hfx
  fin_cases hf <;> simp_all

/-- Every per-field format error carries one of four fixed
field/message pairs. -/
theorem mem_fieldFormatErrors {c : Cfg} {e : ValidationError}
    (h : e ∈ fieldFormatErrors c) :
    e = ⟨"target_drive", "Invalid NVMe drive path format"⟩
    ∨ e = ⟨"username",
        "Username must start with letter, contain only lowercase letters, numbers, underscore, dash"⟩
    ∨ e = ⟨"username", "Username too long (max 32 characters)"⟩
    ∨ e = ⟨"locale", "Locale must be in format: en_US.UTF-8"⟩ := by
  unfold fieldFormatErrors at h
  rcases List.mem_append.1 h with h1 | h1
  · rcases List.mem_append.1 h1 with h2 | h2
    · rcases h3 : truthyGet c "target_drive" with _ | v <;> rw [h3] at h2
      · simp at h2
      · simp only [Option.mem_toList, Option.mem_def] at h2
        exact Or.inl (validate_drive_path_eq h2)
    · rcases h3 : truthyGet c "username" with _ | v <;> rw [h3] at h2
      · simp at h2
      · simp only [Option.mem_toList, Option.mem_def] at h2
        rcases validate_username_eq h2 with h4 | h4 <;> simp [h4]
  · rcases h3 : truthyGet c "locale" with _ | v <;> rw [h3] at h1
    · simp at h1
    · simp only [Option.mem_toList, Option.mem_def] at h1
      simp [validate_locale_eq h1]

/-- Every network-configuration error is one of six fixed errors. -/
theorem mem_validate_network_config {c : Cfg} {e : ValidationError}
    (h : e ∈ validate_network_config c) :
    e = ⟨"network_config", "Must be dhcp, static, or manual"⟩
    ∨ e = ⟨"static_ip", "static_ip required for static configuration"⟩
    ∨ e = ⟨"static_gateway", "static_gateway required for static configuration"⟩
    ∨ e = ⟨"static_iface", "static_iface required for static configuration"⟩
    ∨ e = ⟨"ip_address", "Invalid IP address format"⟩
    ∨ e = ⟨"static_gateway", "Invalid IP address format"⟩ := by
  have htype : ∀ x : ValidationError, x ∈ networkTypeErrors c →
      x = ⟨"network_config", "Must be dhcp, static, or manual"⟩ := by
    intro x hx
    unfold networkTypeErrors at hx
    split at hx <;> simp_all
  rw [validate_network_config_decomp] at h
  rcases List.mem_append.1 h with h1 | h1
  · exact Or.inl (htype e h1)
  · split at h1
    · rcases List.mem_append.1 h1 with h2 | h2
      · rcases List.mem_append.1 h2 with h3 | h3
        · rcases mem_staticRequiredErrors h3 with h4 | h4 | h4 <;> simp [h4]
        · unfold staticIpErrors at h3
          rcases h5 : truthyGet c "static_ip" with _ | v <;> rw [h5] at h3
          · simp at h3
          · simp only [Option.mem_toList, Option.mem_def] at h3
            simp [validate_ip_address_eq h3]
      · unfold staticGatewayErrors at h2
        rcases h5 : truthyGet c "static_gateway" with _ | v <;> simp only [h5] at h2
        · simp at h2
        · rcases h4 : validate_ip_address v with _ | e1 <;> simp only [h4] at h2
          · simp at h2
          · rw [validate_ip_address_eq h4] at h2
            simp at h2
            simp [h2]
    · simp at h1

/-- Errors of the guarded `static_ip` check all equal the fixed
`ip_address` error. -/
theorem mem_staticIpErrors {c : Cfg} {e : ValidationError}
    (h : e ∈ staticIpErrors c) :
    e = ⟨"ip_address", "Invalid IP address format"⟩ := by
  unfold staticIpErrors at h
  rcases h5 : truthyGet c "static_ip" with _ | v <;> simp only [h5] at h
  · simp at h
  · simp only [Option.mem_toList, Option.mem_def] at h
    exact validate_ip_address_eq h

/-- Errors of the guarded `static_gateway` check all equal the fixed
reassigned error. -/
theorem mem_staticGatewayErrors {c : Cfg} {e : ValidationError}
    (h : e ∈ staticGatewayErrors c) :
    e = ⟨"static_gateway", "Invalid IP address format"⟩ := by
  unfold staticGatewayErrors at h
  rcases h5 : truthyGet c "static_gateway" with _ | v <;> simp only [h5] at h
  · simp at h
  · rcases h4 : validate_ip_address v with _ | e1 <;> simp only [h4] at h
    · simp at h
    · rw [validate_ip_address_eq h4] at h
      simpa using h

/-- A field that is absent or empty has a `none` truthy lookup. -/
theorem truthyGet_eq_none_of {c : Cfg} {k : String}
    (h : cfgGet c k = none ∨ cfgGet c k = some "") : truthyGet c k = none := by
  rcases h with h | h <;> simp [truthyGet, h]

/-- A missing required field contributes exactly one error to the
required-field loop of `validate_config_file`. -/
theorem count_requiredFieldErrors_one {c : Cfg} {f : String}
    (hf : f ∈ (["target_drive", "username", "hostname"] : List String))
    (hnone : truthyGet c f = none) :
    List.count (⟨f, f ++ " is required"⟩ : ValidationError)
      (requiredFieldErrors c) = 1 := by
  unfold requiredFieldErrors
  rw [foldl_req_eq (fun f => ⟨f, f ++ " is required"⟩)]
  fin_cases hf <;>
    rcases h1 : truthyGet c "target_drive" with _ | v1 <;>
    rcases h2 : truthyGet c "username" with _ | v2 <;>
    rcases h3 : truthyGet c "hostname" with _ | v3 <;>
    simp_all [List.filterMap_cons]

/-- No required-field message ever appears among the per-field format
errors. -/
theorem count_fieldFormatErrors_req_zero {c : Cfg} {f : String}
    (hf : f ∈ (["target_drive", "username", "hostname"] : List String)) :
    List.count (⟨f, f ++ " is required"⟩ : ValidationError)
      (fieldFormatErrors c) = 0 := by
  rw [List.count_eq_zero]
  intro hmem
  rcases mem_fieldFormatErrors hmem with h | h | h | h <;>
    fin_cases hf <;> exact absurd h (by decide)

/-- No required-field message ever appears among the
network-configuration errors. -/
theorem count_networkErrors_req_zero {c : Cfg} {f : String}
    (hf : f ∈ (["target_drive", "username", "hostname"] : List String)) :
    List.count (⟨f, f ++ " is required"⟩ : ValidationError)
      (validate_network_config c) = 0 := by
  rw [List.count_eq_zero]
  intro hmem
  rcases mem_validate_network_config hmem with h | h | h | h | h | h <;>
    fin_cases hf <;> exact absurd h (by decide)

/-- C1. For every configuration mapping, each of `target_drive`,
`username`, `hostname` that is absent or empty contributes exactly one
error with message `<field> is required` to the result of
`validate_config_file`, and validation does not short-circuit: the result
is always the full concatenation of the required-field errors, the
per-field format errors and the network-configuration errors. -/
theorem c1_required_field_errors (c : Cfg) :
    validate_config_file c
      = requiredFieldErrors c ++ fieldFormatErrors c ++ validate_network_config c
    ∧ ∀ f ∈ (["target_drive", "username", "hostname"] : List String),
        truthyGet c f = none →
          List.count (⟨f, f ++ " is required"⟩ : ValidationError)
            (validate_config_file c) = 1 := by
  refine ⟨validate_config_file_decomp c, ?_⟩
  intro f hf hnone
  rw [validate_config_file_decomp, List.count_append, List.count_append,
    count_requiredFieldErrors_one hf hnone,
    count_fieldFormatErrors_req_zero hf, count_networkErrors_req_zero hf]

/-- Witness for C1 at the invalid demo configuration of
`config_simple.py`: `hostname` is empty there, and exactly one
`hostname is required` error is produced while the other violations
still appear. -/
theorem c1_required_field_errors_witness :
    List.count
      (⟨"hostname", "hostname" ++ " is required"⟩ : ValidationError)
      (validate_config_file
        [("target_drive", "/dev/invalid"), ("username", "123user"),
         ("hostname", ""), ("locale", "invalid_locale"),
         ("network_config", "static"), ("static_ip", "999.999.999.999")]) = 1 :=
  (c1_required_field_errors
    [("target_drive", "/dev/invalid"), ("username", "123user"),
     ("hostname", ""), ("locale", "invalid_locale"),
     ("network_config", "static"), ("static_ip", "999.999.999.999")]).2
    "hostname" (by decide) (by decide)

/-- Counterexample for C2 as stated: with `network_config = static` and a
present but malformed `static_ip` (and valid gateway and interface), the
single resulting error is attributed to the field `ip_address`, not to
`static_ip` — no error of the result is attributed to `static_ip`. -/
theorem c2_counterexample :
    ipv4Ok "999.999.999.999" = false
    ∧ truthyGet
        [("network_config", "static"), ("static_ip", "999.999.999.999"),
         ("static_gateway", "192.168.1.1"), ("static_iface", "eth0")]
        "static_ip" = some "999.999.999.999"
    ∧ validate_network_config
        [("network_config", "static"), ("static_ip", "999.999.999.999"),
         ("static_gateway", "192.168.1.1"), ("static_iface", "eth0")]
      = [⟨"ip_address", "Invalid IP address format"⟩]
    ∧ ∀ e ∈ validate_network_config
        [("network_config", "static"), ("static_ip", "999.999.999.999"),
         ("static_gateway", "192.168.1.1"), ("static_iface", "eth0")],
        e.field ≠ "static_ip" := by decide

/-- A missing static field contributes exactly one error to the static
required-field loop of `validate_network_config`. -/
theorem count_staticRequiredErrors_one {c : Cfg} {f : String}
    (hf : f ∈ (["static_ip", "static_gateway", "static_iface"] : List String))
    (hnone : truthyGet c f = none) :
    List.count (⟨f, f ++ " required for static configuration"⟩ : ValidationError)
      (staticRequiredErrors c) = 1 := by
  unfold staticRequiredErrors
  rw [foldl_req_eq (fun f => ⟨f, f ++ " required for static configuration"⟩)]
  fin_cases hf <;>
    rcases h1 : truthyGet c "static_ip" with _ | v1 <;>
    rcases h2 : truthyGet c "static_gateway" with _ | v2 <;>
    rcases h3 : truthyGet c "static_iface" with _ | v3 <;>
    simp_all [List.filterMap_cons]

/-- Under `network_config = static` the network-type membership check
passes. -/
theorem networkTypeErrors_static {c : Cfg}
    (hstatic : (cfgGet c "network_config").getD "" = "static") :
    networkTypeErrors c = [] := by
  simp [networkTypeErrors, hstatic]

/-- C2 (amended).  For every configuration mapping with
`network_config = static`: each of `static_ip`, `static_gateway`,
`static_iface` that is absent or empty contributes exactly one
required-field error; a present but malformed `static_gateway` contributes
one additional distinct error attributed to `static_gateway`; a present
but malformed `static_ip` contributes one additional distinct error which
is attributed to the field name `ip_address` (not `static_ip`, per the
counterexample). -/
theorem c2_static_field_errors (c : Cfg)
    (hstatic : (cfgGet c "network_config").getD "" = "static") :
    (∀ f ∈ (["static_ip", "static_gateway", "static_iface"] : List String),
        truthyGet c f = none →
          List.count (⟨f, f ++ " required for static configuration"⟩ : ValidationError)
            (validate_network_config c) = 1)
    ∧ (∀ v, truthyGet c "static_ip" = some v → ipv4Ok v = false →
        List.count (⟨"ip_address", "Invalid IP address format"⟩ : ValidationError)
          (validate_network_config c) = 1)
    ∧ (∀ v, truthyGet c "static_gateway" = some v → ipv4Ok v = false →
        List.count (⟨"static_gateway", "Invalid IP address format"⟩ : ValidationError)
          (validate_network_config c) = 1) := by
  have hd : validate_network_config c
      = networkTypeErrors c ++
        (staticRequiredErrors c ++ staticIpErrors c ++ staticGatewayErrors c) := by
    rw [validate_network_config_decomp, hstatic]
    simp
  refine ⟨?_, ?_, ?_⟩
  · intro f hf hnone
    rw [hd, networkTypeErrors_static hstatic, List.nil_append,
      List.count_append, List.count_append,
      count_staticRequiredErrors_one hf hnone]
    have hip : List.count
        (⟨f, f ++ " required for static configuration"⟩ : ValidationError)
        (staticIpErrors c) = 0 := by
      rw [List.count_eq_zero]
      intro hmem
      have := mem_staticIpErrors hmem
      fin_cases hf <;> exact absurd this (by decide)
    have hgw : List.count
        (⟨f, f ++ " required for static configuration"⟩ : ValidationError)
        (staticGatewayErrors c) = 0 := by
      rw [List.count_eq_zero]
      intro hmem
      have := mem_staticGatewayErrors hmem
      fin_cases hf <;> exact absurd this (by decide)
    rw [hip, hgw]
  · intro v hv hbad
    rw [hd, networkTypeErrors_static hstatic, List.nil_append,
      List.count_append, List.count_append]
    have h1 : List.count
        (⟨"ip_address", "Invalid IP address format"⟩ : ValidationError)
        (staticRequiredErrors c) = 0 := by
      rw [List.count_eq_zero]
      intro hmem
      rcases mem_staticRequiredErrors hmem with h | h | h <;>
        exact absurd h (by decide)
    have h2 : staticIpErrors c = [⟨"ip_address", "Invalid IP address format"⟩] := by
      unfold staticIpErrors
      simp [hv, validate_ip_address, hbad]
    have h3 : List.count
        (⟨"ip_address", "Invalid IP address format"⟩ : ValidationError)
        (staticGatewayErrors c) = 0 := by
      rw [List.count_eq_zero]
      intro hmem
      exact absurd (mem_staticGatewayErrors hmem) (by decide)
    rw [h1, h2, h3]
    decide
  · intro v hv hbad
    rw [hd, networkTypeErrors_static hstatic, List.nil_append,
      List.count_append, List.count_append]
    have h1 : List.count
        (⟨"static_gateway", "Invalid IP address format"⟩ : ValidationError)
        (staticRequiredErrors c) = 0 := by
      rw [List.count_eq_zero]
      intro hmem
      rcases mem_staticRequiredErrors hmem with h | h | h <;>
        exact absurd h (by decide)
    have h2 : List.count
        (⟨"static_gateway", "Invalid IP address format"⟩ : ValidationError)
        (staticIpErrors c) = 0 := by
      rw [List.count_eq_zero]
      intro hmem
      exact absurd (mem_staticIpErrors hmem) (by decide)
    have h3 : staticGatewayErrors c
        = [⟨"static_gateway", "Invalid IP address format"⟩] := by
      unfold staticGatewayErrors
      simp [hv, validate_ip_address, hbad]
    rw [h1, h2, h3]
    decide

/-- Witness for C2 (amended): with `network_config = static` and all three
static fields absent, each static field yields exactly one required error;
with a present malformed gateway the reassigned error appears once. -/
theorem c2_static_field_errors_witness :
    List.count
      (⟨"static_iface", "static_iface" ++ " required for static configuration"⟩ : ValidationError)
      (validate_network_config [("network_config", "static")]) = 1
    ∧ List.count
      (⟨"static_gateway", "Invalid IP address format"⟩ : ValidationError)
      (validate_network_config
        [("network_config", "static"), ("static_gateway", "10.0.0.256")]) = 1 :=
  ⟨(c2_static_field_errors [("network_config", "static")] (by decide)).1
      "static_iface" (by decide) (by decide),
    (c2_static_field_errors
      [("network_config", "static"), ("static_gateway", "10.0.0.256")]
      (by decide)).2.2 "10.0.0.256" (by decide) (by decide)⟩

/-- With a non-truthy `target_drive`, the required-field loop keeps
exactly its `target_drive` entry under the `target_drive` field filter. -/
theorem filter_requiredFieldErrors_field {c : Cfg} {f : String}
    (hf : f ∈ (["target_drive", "username", "hostname"] : List String))
    (hnone : truthyGet c f = none) :
    (requiredFieldErrors c).filter (fun e => e.field == f)
      = [⟨f, f ++ " is required"⟩] := by
  unfold requiredFieldErrors
  rw [foldl_req_eq (fun f => ⟨f, f ++ " is required"⟩)]
  fin_cases hf <;>
    rcases h1 : truthyGet c "target_drive" with _ | v1 <;>
    rcases h2 : truthyGet c "username" with _ | v2 <;>
    rcases h3 : truthyGet c "hostname" with _ | v3 <;>
    simp_all [List.filterMap_cons]

/-- C10.  `validate_config_file` treats an empty-string value exactly like
an absent key: a mapping whose `target_drive` (resp. `username`) is absent
or empty yields only the required-field error under that field and no
format error; a mapping whose `locale` is absent or empty yields no
`locale` error at all; and inserting an explicit empty value for any
otherwise-absent key leaves the validation result unchanged. -/
theorem c10_empty_equals_absent (c : Cfg) :
    ((cfgGet c "target_drive" = none ∨ cfgGet c "target_drive" = some "") →
      (validate_config_file c).filter (fun e => e.field == "target_drive")
        = [⟨"target_drive", "target_drive is required"⟩])
    ∧ ((cfgGet c "username" = none ∨ cfgGet c "username" = some "") →
      (validate_config_file c).filter (fun e => e.field == "username")
        = [⟨"username", "username is required"⟩])
    ∧ ((cfgGet c "locale" = none ∨ cfgGet c "locale" = some "") →
      (validate_config_file c).filter (fun e => e.field == "locale") = [])
    ∧ (∀ k, cfgGet c k = none →
        validate_config_file ((k, "") :: c) = validate_config_file c) := by
  have fmt_filter : ∀ (f : String), truthyGet c f = none →
      (f = "target_drive" ∨ f = "username" ∨ f = "locale") →
      (fieldFormatErrors c).filter (fun e => e.field == f) = [] := by
    intro f hnone hcase
    rw [List.filter_eq_nil_iff]
    intro a ha
    unfold fieldFormatErrors at ha
    rcases List.mem_append.1 ha with h1 | h1
    · rcases List.mem_append.1 h1 with h2 | h2
      · rcases h3 : truthyGet c "target_drive" with _ | v <;> rw [h3] at h2
        · simp at h2
        · simp only [Option.mem_toList, Option.mem_def] at h2
          rw [validate_drive_path_eq h2]
          rcases hcase with h | h | h <;> subst h <;> simp_all
      · rcases h3 : truthyGet c "username" with _ | v <;> rw [h3] at h2
        · simp at h2
        · simp only [Option.mem_toList, Option.mem_def] at h2
          rcases validate_username_eq h2 with h4 | h4 <;> rw [h4] <;>
            rcases hcase with h | h | h <;> subst h <;> simp_all
    · rcases h3 : truthyGet c "locale" with _ | v <;> rw [h3] at h1
      · simp at h1
      · simp only [Option.mem_toList, Option.mem_def] at h1
        rw [validate_locale_eq h1]
        rcases hcase with h | h | h <;> subst h <;> simp_all
  have net_filter : ∀ (f : String),
      (f = "target_drive" ∨ f = "username" ∨ f = "locale") →
      (validate_network_config c).filter (fun e => e.field == f) = [] := by
    intro f hcase
    rw [List.filter_eq_nil_iff]
    intro a ha
    rcases mem_validate_network_config ha with h | h | h | h | h | h <;>
      rw [h] <;> rcases hcase with h1 | h1 | h1 <;> subst h1 <;> decide
  refine ⟨?_, ?_, ?_, ?_⟩
  · intro h
    have hnone := truthyGet_eq_none_of h
    rw [validate_config_file_decomp, List.filter_append, List.filter_append,
      filter_requiredFieldErrors_field (by decide) hnone,
      fmt_filter "target_drive" hnone (by simp),
      net_filter "target_drive" (by simp)]
    simp
  · intro h
    have hnone := truthyGet_eq_none_of h
    rw [validate_config_file_decomp, List.filter_append, List.filter_append,
      filter_requiredFieldErrors_field (by decide) hnone,
      fmt_filter "username" hnone (by simp),
      net_filter "username" (by simp)]
    simp
  · intro h
    have hnone := truthyGet_eq_none_of h
    have req_filter : (requiredFieldErrors c).filter (fun e => e.field == "locale") = [] := by
      rw [List.filter_eq_nil_iff]
      intro a ha
      unfold requiredFieldErrors at ha
      rw [foldl_req_eq (fun f => ⟨f, f ++ " is required"⟩)] at ha
      simp only [List.nil_append, List.mem_filterMap] at ha
      obtain ⟨g, hg, hgx⟩ := ha
      by_cases hs : (truthyGet c g).isSome <;> simp [hs] at hgx
      fin_cases hg <;> subst hgx <;> decide
    rw [validate_config_file_decomp, List.filter_append, List.filter_append,
      req_filter, fmt_filter "locale" hnone (by simp),
      net_filter "locale" (by simp)]
    simp
  · intro k hk
    have ht : ∀ q, truthyGet ((k, "") :: c) q = truthyGet c q := by
      intro q
      by_cases h : k = q
      · subst h; simp [truthyGet, cfgGet, hk]
      · simp [truthyGet, cfgGet, h]
    have hnt : (cfgGet ((k, "") :: c) "network_config").getD ""
        = (cfgGet c "network_config").getD "" := by
      by_cases h : k = "network_config"
      · subst h; simp [cfgGet, hk]
      · simp [cfgGet, h]
    simp only [validate_config_file, requiredFieldErrors, fieldFormatErrors,
      validate_network_config, staticRequiredErrors, ht, hnt]

/-- Witness for C10 at concrete mappings: an empty `target_drive` yields
only its required error, an empty `locale` yields no locale error, and
inserting `locale = ""` into a mapping without `locale` changes nothing. -/
theorem c10_empty_equals_absent_witness :
    (validate_config_file [("target_drive", ""), ("username", "u"),
        ("hostname", "h"), ("network_config", "dhcp")]).filter
      (fun e => e.field == "target_drive")
      = [⟨"target_drive", "target_drive is required"⟩]
    ∧ (validate_config_file [("target_drive", "/dev/nvme0n1"), ("username", "u"),
        ("hostname", "h"), ("locale", ""), ("network_config", "dhcp")]).filter
      (fun e => e.field == "locale") = []
    ∧ validate_config_file (("locale", "") ::
        [("target_drive", "/dev/nvme0n1"), ("username", "u"),
         ("hostname", "h"), ("network_config", "dhcp")])
      = validate_config_file [("target_drive", "/dev/nvme0n1"), ("username", "u"),
         ("hostname", "h"), ("network_config", "dhcp")] :=
  ⟨(c10_empty_equals_absent [("target_drive", ""), ("username", "u"),
      ("hostname", "h"), ("network_config", "dhcp")]).1 (by decide),
   (c10_empty_equals_absent [("target_drive", "/dev/nvme0n1"), ("username", "u"),
      ("hostname", "h"), ("locale", ""), ("network_config", "dhcp")]).2.2.1 (by decide),
   (c10_empty_equals_absent [("target_drive", "/dev/nvme0n1"), ("username", "u"),
      ("hostname", "h"), ("network_config", "dhcp")]).2.2.2 "locale" (by decide)⟩

/-! ## Embedding of `hardware_poc.py`: drive enumeration -/

/-- Result of a Python file read (`Path.read_text`): contents, or one of
the two exception types that `enumerate_nvme_drives` catches. -/
inductive ReadRes where
  | ok (s : List Char)
  | fileNotFound
  | permissionDenied
deriving Repr, DecidableEq

/-- Uncaught Python exceptions that can escape `enumerate_nvme_drives`:
a `NameError` from reading the local `is_removable` before any assignment,
and a `PermissionError` from the size read (whose `except` clause only
catches `FileNotFoundError` and `ValueError`). -/
inductive PyExc where
  | nameError
  | permissionError
deriving Repr, DecidableEq

/-- `Drive` dataclass of `hardware_poc.py`. -/
structure Drive where
  path : String
  size_gb : Int
  model : String
  is_removable : Bool
  has_windows : Bool := false
deriving Repr, DecidableEq

/-- The per-device view of the system state consumed by one iteration of
the `enumerate_nvme_drives` loop: the device path (in glob iteration
order), the block-device test, the existence of `/sys/block/<name>`, the
three sysfs attribute reads, and the value `self.detect_windows` returns
for this path. -/
structure DevInfo where
  path : String
  isBlockDevice : Bool
  sysPathExists : Bool
  removableAttr : ReadRes
  sizeAttr : ReadRes
  modelAttr : ReadRes
  hasWindows : Bool
deriving Repr, DecidableEq

/-- Python `int()` applied to an already-stripped string: an optional
sign followed by one or more ASCII digits; anything else raises
`ValueError` (`none`). -/
def pyParseInt (l : List Char) : Option Int :=
  match l with
  | '-' :: ds =>
    if !ds.isEmpty && ds.all Char.isDigit then some (-(digitsToNat ds : Int)) else none
  | '+' :: ds =>
    if !ds.isEmpty && ds.all Char.isDigit then some (digitsToNat ds) else none
  | ds =>
    if !ds.isEmpty && ds.all Char.isDigit then some (digitsToNat ds) else none

/-- One iteration of the `enumerate_nvme_drives` loop body.  `st` is the
current binding of the Python local variable `is_removable` (`none` while
it has never been assigned; a `NameError` is raised if it is used
unbound).  Returns the updated binding together with the drive appended
by this iteration, if any. -/
def processDevice (st : Option Bool) (d : DevInfo) :
    Except PyExc (Option Bool × Option Drive) :=
  if !d.isBlockDevice then .ok (st, none)
  else if !drivePathOkL d.path.data then .ok (st, none)
  else if !d.sysPathExists then .ok (st, none)
  else
    -- try: is_removable = read_text().strip() == '1'; if is_removable: continue
    -- except (FileNotFoundError, PermissionError): pass
    let removableStep : Option Bool × Bool :=
      match d.removableAttr with
      | .ok s => (some (pyStrip s = ['1']), pyStrip s = ['1'])
      | _ => (st, false)
    let st1 := removableStep.1
    if removableStep.2 then .ok (st1, none)
    else
      let sizeStep : Except PyExc Int :=
        match d.sizeAttr with
        | .ok s =>
          match pyParseInt (pyStrip s) with
          | some n => .ok (Int.fdiv (n * 512) 1000000000)
          | none => .ok 0            -- ValueError caught
        | .fileNotFound => .ok 0     -- FileNotFoundError caught
        | .permissionDenied => .error .permissionError
      match sizeStep with
      | .error e => .error e
      | .ok size_gb =>
        let model : String :=
          match d.modelAttr with
          | .ok s => ((pyStrip s).filter (fun c => c ≠ Char.ofNat 0)).asString
          | _ => "Unknown"
        match st1 with
        | none => .error .nameError  -- is_removable referenced before assignment
        | some b => .ok (st1, some ⟨d.path, size_gb, model, b, d.hasWindows⟩)

/-- The `enumerate_nvme_drives` loop over the candidate devices, threading
the `is_removable` binding and the accumulated drive list. -/
def enumerateGo (st : Option Bool) (acc : List Drive) :
    List DevInfo → Except PyExc (List Drive)
  | [] => .ok acc
  | d :: rest =>
    match processDevice st d with
    | .error e => .error e
    | .ok (st1, none) => enumerateGo st1 acc rest
    | .ok (st1, some dr) => enumerateGo st1 (acc ++ [dr]) rest

/-- `HardwareDetector.enumerate_nvme_drives`, as a function of the devices
the `/dev` glob yields (in iteration order) and their per-device system
state. -/
def enumerate_nvme_drives (devs : List DevInfo) : Except PyExc (List Drive) :=
  enumerateGo none [] devs

/-- `HardwareDetector.categorize_drives`: the loop separating safe drives
from Windows drives (its `target_drive` parameter is unused by the loop). -/
def categorize_drives (target_drive : String) (drives : List Drive) :
    List Drive × List Drive :=
  drives.foldl
    (fun p d => if d.has_windows then (p.1, p.2 ++ [d]) else (p.1 ++ [d], p.2))
    ([], [])

/-- The categorize loop with an arbitrary starting accumulator computes
the two `has_windows` filters. -/
theorem categorize_go_eq (drives : List Drive) :
    ∀ a b : List Drive,
      drives.foldl
        (fun p d => if d.has_windows then (p.1, p.2 ++ [d]) else (p.1 ++ [d], p.2))
        (a, b)
      = (a ++ drives.filter (fun d => !d.has_windows),
         b ++ drives.filter (fun d => d.has_windows)) := by
  induction drives with
  | nil => intro a b; simp
  | cons d t ih =>
    intro a b
    by_cases h : d.has_windows <;> simp [h, ih, List.append_assoc]

/-- The two complementary filters of a list partition its length. -/
theorem filter_length_partition (drives : List Drive) :
    (drives.filter (fun d => !d.has_windows)).length
      + (drives.filter (fun d => d.has_windows)).length = drives.length := by
  induction drives with
  | nil => simp
  | cons d t ih =>
    by_cases h : d.has_windows <;> simp [h] <;> omega

/-- C9.  `categorize_drives` partitions the drive list purely on the
already-computed `has_windows` flag: the safe list and the Windows list
are exactly the two order-preserving filters of the input, their lengths
sum to the input length (every drive lands in exactly one list), every
input drive record appears unchanged in the list matching its flag, and
the result does not depend on the `target_drive` argument (no system
state is consulted). -/
theorem c9_categorize_partitions (t : String) (drives : List Drive) :
    categorize_drives t drives
      = (drives.filter (fun d => !d.has_windows),
         drives.filter (fun d => d.has_windows))
    ∧ (categorize_drives t drives).1.length
        + (categorize_drives t drives).2.length = drives.length
    ∧ (∀ d ∈ drives,
        (d.has_windows = false → d ∈ (categorize_drives t drives).1)
        ∧ (d.has_windows = true → d ∈ (categorize_drives t drives).2))
    ∧ ∀ t2, categorize_drives t2 drives = categorize_drives t drives := by
  have hmain : categorize_drives t drives
      = (drives.filter (fun d => !d.has_windows),
         drives.filter (fun d => d.has_windows)) := by
    unfold categorize_drives
    simpa using categorize_go_eq drives [] []
  refine ⟨hmain, ?_, ?_, ?_⟩
  · rw [hmain]; exact filter_length_partition drives
  · intro d hd
    constructor
    · intro hw
      rw [hmain]
      simp [List.mem_filter, hd, hw]
    · intro hw
      rw [hmain]
      simp [List.mem_filter, hd, hw]
  · intro t2
    unfold categorize_drives
    rfl

/-- Witness for C9 at a concrete two-drive list. -/
theorem c9_categorize_partitions_witness :
    (⟨"/dev/nvme0n1", 500, "A", false, true⟩ : Drive)
      ∈ (categorize_drives "/dev/nvme0n1"
          [⟨"/dev/nvme0n1", 500, "A", false, true⟩,
           ⟨"/dev/nvme1n1", 1000, "B", false, false⟩]).2 :=
  ((c9_categorize_partitions "/dev/nvme0n1"
      [⟨"/dev/nvme0n1", 500, "A", false, true⟩,
       ⟨"/dev/nvme1n1", 1000, "B", false, false⟩]).2.2.1
    ⟨"/dev/nvme0n1", 500, "A", false, true⟩ (by decide)).2 rfl

/-- Counterexample for C3 as stated: a device reporting sector count
2,000,409,776 yields `size_gb = 1024` (2,000,409,776 × 512 = 1,024,209,805,312
bytes, and ⌊1,024,209,805,312 / 10^9⌋ = 1024), not 1000 as the claim
asserts. -/
theorem c3_counterexample :
    enumerate_nvme_drives
      [⟨"/dev/nvme0n1", true, true, .ok ['0'], .ok "2000409776".data,
        .ok "ModelX".data, false⟩]
      = .ok [⟨"/dev/nvme0n1", 1024, "ModelX", false, false⟩]
    ∧ (1024 : Int) ≠ 1000 := ⟨rfl, by decide⟩

/-- C3 (amended).  `enumerate_nvme_drives` computes a drive's `size_gb`
as its sector count times 512 bytes, floor-divided by 10^9 (decimal
gigabytes, truncated); in particular a device reporting sector count
2,000,409,776 yields `size_gb = 1024`. -/
theorem c3_size_computation (s : List Char) (n : Int)
    (hn : pyParseInt (pyStrip s) = some n) :
    enumerate_nvme_drives
      [⟨"/dev/nvme0n1", true, true, .ok ['0'], .ok s, .ok "ModelX".data, false⟩]
      = .ok [⟨"/dev/nvme0n1", Int.fdiv (n * 512) 1000000000, "ModelX", false, false⟩] := by
  simp +decide [enumerate_nvme_drives, enumerateGo, processDevice, hn]

/-- Witness for C3 (amended) at the sector count named by the spec:
2,000,409,776 sectors give ⌊2,000,409,776 × 512 / 10^9⌋ = 1024 decimal
gigabytes. -/
theorem c3_size_computation_witness :
    enumerate_nvme_drives
      [⟨"/dev/nvme0n1", true, true, .ok ['0'], .ok "2000409776".data,
        .ok "ModelX".data, false⟩]
      = .ok [⟨"/dev/nvme0n1", Int.fdiv (2000409776 * 512) 1000000000,
              "ModelX", false, false⟩]
    ∧ Int.fdiv (2000409776 * 512) 1000000000 = 1024 :=
  ⟨c3_size_computation "2000409776".data 2000409776 (by decide), by decide⟩

/-- C5 (code bug).  If the first enumerated device's `removable` sysfs
attribute is unreadable, `enumerate_nvme_drives` raises `NameError`
(the local `is_removable` is only assigned inside the `try` block, so the
`except ... pass` leaves it unbound at the `Drive(...)` construction),
instead of treating the device as non-removable as the code comment
announces.  With a preceding removable device the stale binding `True` is
reused, so the unreadable device is included but flagged removable. -/
theorem c5_unreadable_removable_fails :
    enumerate_nvme_drives
      [⟨"/dev/nvme0n1", true, true, .permissionDenied, .ok "1000".data,
        .ok "ModelX".data, false⟩]
      = .error .nameError
    ∧ enumerate_nvme_drives
      [⟨"/dev/nvme0n1", true, true, .ok ['1'], .ok "1000".data,
        .ok "ModelA".data, false⟩,
       ⟨"/dev/nvme1n1", true, true, .permissionDenied, .ok "1000".data,
        .ok "ModelB".data, false⟩]
      = .ok [⟨"/dev/nvme1n1", 0, "ModelB", true, false⟩] := ⟨rfl, rfl⟩

/-! ## Embedding of `hardware_poc.py`: EFI entry parsing

The regex `Boot([0-9A-F]+)\*?\s+(.+?)\s+(HD\(.+)` of
`EfiEntry.parse_from_efibootmgr` is embedded as an explicit backtracking
matcher that follows the Python engine's search order.  The hex run, the
optional `*` and the greedy-maximal extents of the two `\s+` groups leave
only two genuine choice points: the length of the first whitespace run
(greedy: longest first, `w1Search`) and the length of the lazy name
(shortest first, `nameSearch`).  `.` matches any character except `\n`. -/

/-- The regex `.` character class: anything but a newline. -/
def notNl (c : Char) : Bool := c ≠ '\n'

/-- The character class `[0-9A-F]` of the boot-id group. -/
def isHexUp (c : Char) : Bool :=
  ('0' ≤ c && c ≤ '9') || ('A' ≤ c && c ≤ 'F')

/-- `EfiEntry` dataclass of `hardware_poc.py`. -/
structure EfiEntry where
  boot_id : List Char
  name : List Char
  device_path : List Char
  drive : Option (List Char) := none
deriving Repr, DecidableEq

/-- After a candidate name, the rest of the pattern: `\s+` (greedy, and
forced maximal because `HD(` starts with a non-space), the literal `HD(`
and the greedy `.+` device-path tail, which must be non-empty. -/
def finishAfterName (cs : List Char) : Option (List Char) :=
  let w2 := cs.takeWhile pyIsSpace
  let after := cs.dropWhile pyIsSpace
  if w2.isEmpty then none
  else
    match after with
    | 'H' :: 'D' :: '(' :: d =>
      let dev := d.takeWhile notNl
      if dev.isEmpty then none else some ('H' :: 'D' :: '(' :: dev)
    | _ => none

/-- The lazy `(.+?)` group: try name lengths shortest-first, extending one
character at a time (never across a newline), finishing the pattern after
each candidate. Returns the captured name and device path. -/
def nameSearch (acc : List Char) : List Char → Option (List Char × List Char)
  | [] => none
  | c :: rest =>
    if notNl c then
      match finishAfterName rest with
      | some d => some (acc ++ [c], d)
      | none => nameSearch (acc ++ [c]) rest
    else none

/-- The greedy first `\s+` group: try whitespace-run lengths longest
first, from the maximal run down to one character. -/
def w1Search (cs : List Char) : Nat → Option (List Char × List Char)
  | 0 => none
  | k + 1 =>
    match nameSearch [] (cs.drop (k + 1)) with
    | some nd => some nd
    | none => w1Search cs k

/-- The `\*?` group: consume one leading `*` if present (forced: when a
`*` is present, skipping it would make `\s+` fail on it, and when absent
the group matches empty). -/
def stripStar (l : List Char) : List Char :=
  match l with
  | '*' :: r => r
  | _ => l

/-- `EfiEntry.parse_from_efibootmgr`: anchored match of the literal
`Boot`, the greedy hex run (forced maximal: the following `\*?\s+` can
never start with a hex digit), the optional `*`, then the
whitespace/name/whitespace/device-path search.  On success the name is
stripped of surrounding whitespace and the `*` is not retained. -/
def parse_from_efibootmgr (line : List Char) : Option EfiEntry :=
  match line with
  | 'B' :: 'o' :: 'o' :: 't' :: rest =>
    let hex := rest.takeWhile isHexUp
    let rest1 := rest.dropWhile isHexUp
    if hex.isEmpty then none
    else
      let rest2 := stripStar rest1
      match w1Search rest2 (rest2.takeWhile pyIsSpace).length with
      | some (n, d) => some ⟨hex, pyStrip n, d, none⟩
      | none => none
  | _ => none

/-- Python substring containment (`sub in s`): `sub` occurs contiguously
somewhere in the list. -/
def containsSub (sub : List Char) : List Char → Bool
  | [] => sub.isEmpty
  | c :: rest => sub.isPrefixOf (c :: rest) || containsSub sub rest

/-- The `KDE` filter of `get_efi_entries`: `'KDE' in line.upper()`. -/
def containsKde (line : List Char) : Bool :=
  containsSub ['K', 'D', 'E'] (line.map Char.toUpper)

/-- The line-processing loop of `get_efi_entries`: keep the lines
containing `KDE` (case-insensitively), parse each kept line, and append
the successfully parsed entries in order. -/
def processEfiLines (lines : List (List Char)) : List EfiEntry :=
  lines.foldl
    (fun entries line =>
      if containsKde line then
        match parse_from_efibootmgr line with
        | some e => entries ++ [e]
        | none => entries
      else entries) []

/-- The EFI line grammar of the specification: the literal `Boot`, a
non-empty run of hex digits, an optional `*`, non-empty whitespace, a
non-empty name free of newlines, non-empty whitespace, and a device path
starting with `HD(` followed by at least one non-newline character
(arbitrary trailing content is allowed, as `re.match` does not anchor the
end). -/
def GrammarMatch (line : List Char) : Prop :=
  ∃ h s w1 n w2 c r,
    line = ['B', 'o', 'o', 't'] ++ h ++ s ++ w1 ++ n ++ w2
              ++ ['H', 'D', '('] ++ c :: r
    ∧ h ≠ [] ∧ (∀ x ∈ h, isHexUp x = true)
    ∧ (s = [] ∨ s = ['*'])
    ∧ w1 ≠ [] ∧ (∀ x ∈ w1, pyIsSpace x = true)
    ∧ n ≠ [] ∧ (∀ x ∈ n, notNl x = true)
    ∧ w2 ≠ [] ∧ (∀ x ∈ w2, pyIsSpace x = true)
    ∧ notNl c = true

/-! ### List helpers for the matcher proofs -/

/-- `takeWhile`/`dropWhile` pass over a fully satisfying prefix. -/
theorem takeWhile_append_all {p : Char → Bool} (a b : List Char)
    (ha : ∀ x ∈ a, p x = true) :
    (a ++ b).takeWhile p = a ++ b.takeWhile p
    ∧ (a ++ b).dropWhile p = b.dropWhile p := by
  induction a with
  | nil => simp
  | cons x t ih =>
    have hx : p x = true := ha x (by simp)
    have ih2 := ih (fun y hy => ha y (by simp [hy]))
    simp [hx, ih2.1, ih2.2]

/-- `takeWhile`/`dropWhile` split exactly at a failing head. -/
theorem takeWhile_append_stop {p : Char → Bool} (a b : List Char)
    (ha : ∀ x ∈ a, p x = true)
    (hb : ∀ y, b.head? = some y → p y = false) :
    (a ++ b).takeWhile p = a ∧ (a ++ b).dropWhile p = b := by
  have h1 := takeWhile_append_all a b ha
  have hbt : b.takeWhile p = [] := by
    cases b with
    | nil => simp
    | cons y t => have := hb y rfl; simp [this]
  have hbd : b.dropWhile p = b := by
    cases b with
    | nil => simp
    | cons y t => have := hb y rfl; simp [this]
  rw [h1.1, h1.2, hbt, hbd]
  simp

/-- The head of a `dropWhile` residue fails the predicate. -/
theorem head?_dropWhile_false {p : Char → Bool} (l : List Char) :
    ∀ y, (l.dropWhile p).head? = some y → p y = false := by
  induction l with
  | nil => intro y h; simp at h
  | cons c t ih =>
    intro y h
    by_cases hc : p c = true
    · rw [List.dropWhile_cons_of_pos hc] at h
      exact ih y h
    · rw [List.dropWhile_cons_of_neg hc] at h
      simp at h
      subst h
      simpa using hc

/-- `dropWhile` is the identity when the head already fails. -/
theorem dropWhile_eq_self_of_head {p : Char → Bool} (l : List Char)
    (h : ∀ y, l.head? = some y → p y = false) : l.dropWhile p = l := by
  cases l with
  | nil => simp
  | cons c t => have := h c rfl; simp [this]

/-- A stripped list does not end in whitespace. -/
theorem pyStrip_getLast (l : List Char) :
    ∀ y, (pyStrip l).getLast? = some y → pyIsSpace y = false := by
  intro y h
  unfold pyStrip at h
  rw [List.getLast?_reverse] at h
  exact head?_dropWhile_false _ y h

/-- A stripped list does not start with whitespace. -/
theorem pyStrip_head (l : List Char) :
    ∀ y, (pyStrip l).head? = some y → pyIsSpace y = false := by
  intro y h
  unfold pyStrip at h
  rw [List.head?_reverse] at h
  obtain ⟨t, ht⟩ :=
    List.dropWhile_suffix (l := (l.dropWhile pyIsSpace).reverse) pyIsSpace
  have h2 : (l.dropWhile pyIsSpace).reverse.getLast? = some y := by
    rw [← ht, List.getLast?_append, h]
    rfl
  rw [List.getLast?_reverse] at h2
  exact head?_dropWhile_false _ y h2

/-- Stripping a list whose two ends are not whitespace is the identity. -/
theorem pyStrip_eq_self {l : List Char}
    (h1 : ∀ y, l.head? = some y → pyIsSpace y = false)
    (h2 : ∀ y, l.getLast? = some y → pyIsSpace y = false) :
    pyStrip l = l := by
  unfold pyStrip
  rw [dropWhile_eq_self_of_head l h1]
  rw [dropWhile_eq_self_of_head l.reverse
    (by intro y hy; exact h2 y (by rwa [List.head?_reverse] at hy))]
  exact List.reverse_reverse l

/-- `str.strip()` is idempotent. -/
theorem pyStrip_idem (l : List Char) : pyStrip (pyStrip l) = pyStrip l :=
  pyStrip_eq_self (pyStrip_head l) (pyStrip_getLast l)

/-- Soundness of the pattern tail matcher: success exposes the
whitespace run, the `HD(` literal, and a non-newline device head. -/
theorem finishAfterName_sound {cs d : List Char}
    (h : finishAfterName cs = some d) :
    ∃ w2 c r, cs = w2 ++ ['H', 'D', '('] ++ c :: r
      ∧ w2 ≠ [] ∧ (∀ x ∈ w2, pyIsSpace x = true) ∧ notNl c = true
      ∧ d = 'H' :: 'D' :: '(' :: ((c :: r).takeWhile notNl) := by
  simp only [finishAfterName] at h
  split at h
  · exact absurd h (by simp)
  · rename_i hw
    split at h
    · rename_i d1 heq
      split at h
      · exact absurd h (by simp)
      · rename_i hdev
        cases hd1 : d1 with
        | nil => rw [hd1] at hdev; simp at hdev
        | cons c r =>
          rw [hd1] at heq hdev
          have hc : notNl c = true := by
            by_cases hcc : notNl c = true
            · exact hcc
            · rw [List.takeWhile_cons_of_neg hcc] at hdev
              simp at hdev
          refine ⟨cs.takeWhile pyIsSpace, c, r, ?_, ?_, ?_, hc, ?_⟩
          · conv_lhs => rw [← List.takeWhile_append_dropWhile pyIsSpace cs]
            rw [heq]
            simp
          · simpa using hw
          · intro x hx; exact List.mem_takeWhile_imp hx
          · rw [hd1] at h
            injection h with h1
            rw [← h1]
    · exact absurd h (by simp)

/-- Completeness of the pattern tail matcher. -/
theorem finishAfterName_complete (w2 : List Char) (c : Char) (r : List Char)
    (hw2 : w2 ≠ []) (hsp : ∀ x ∈ w2, pyIsSpace x = true) (hc : notNl c = true) :
    (finishAfterName (w2 ++ ['H', 'D', '('] ++ c :: r)).isSome := by
  have hsplit := takeWhile_append_stop (p := pyIsSpace) w2 (['H', 'D', '('] ++ c :: r)
    hsp (by intro y hy; simp at hy; subst hy; decide)
  rw [← List.append_assoc] at hsplit
  simp only [finishAfterName, hsplit.1, hsplit.2]
  have hne : w2.isEmpty = false := by
    cases w2 with
    | nil => exact absurd rfl hw2
    | cons a b => rfl
  rw [hne]
  simp only [List.cons_append, List.nil_append, Bool.false_eq_true, if_false]
  rw [List.takeWhile_cons_of_pos hc]
  simp

/-- Soundness of the lazy-name search. -/
theorem nameSearch_sound :
    ∀ (cs acc nm d : List Char), nameSearch acc cs = some (nm, d) →
      ∃ n rest, cs = n ++ rest ∧ n ≠ [] ∧ (∀ x ∈ n, notNl x = true)
        ∧ nm = acc ++ n ∧ finishAfterName rest = some d := by
  intro cs
  induction cs with
  | nil => intro acc nm d h; simp [nameSearch] at h
  | cons c rest ih =>
    intro acc nm d h
    simp only [nameSearch] at h
    by_cases hc : notNl c = true
    · rw [if_pos hc] at h
      rcases hf : finishAfterName rest with _ | d1 <;> rw [hf] at h
      · obtain ⟨n1, rest1, he, hn1, hnl, hnm, hfin⟩ := ih (acc ++ [c]) nm d h
        refine ⟨c :: n1, rest1, by simp [he], by simp, ?_, by simp [hnm], hfin⟩
        intro x hx
        rcases List.mem_cons.1 hx with hx | hx
        · subst hx; exact hc
        · exact hnl x hx
      · simp only [Option.some.injEq, Prod.mk.injEq] at h
        refine ⟨[c], rest, rfl, by simp, ?_, by simp [← h.1], ?_⟩
        · intro x hx; simp at hx; subst hx; exact hc
        · rw [hf, h.2]
    · rw [if_neg hc] at h
      exact absurd h (by simp)

/-- Completeness of the lazy-name search. -/
theorem nameSearch_complete :
    ∀ (n rest acc : List Char), n ≠ [] → (∀ x ∈ n, notNl x = true) →
      (finishAfterName rest).isSome →
      (nameSearch acc (n ++ rest)).isSome := by
  intro n
  induction n with
  | nil => intro rest acc h; exact absurd rfl h
  | cons c n1 ih =>
    intro rest acc _ hnl hfin
    have hc : notNl c = true := hnl c (by simp)
    rw [List.cons_append]
    simp only [nameSearch]
    rw [if_pos hc]
    rcases hf : finishAfterName (n1 ++ rest) with _ | d1
    · cases hn1 : n1 with
      | nil =>
        rw [hn1] at hf
        simp only [List.nil_append] at hf
        rw [hf] at hfin
        simp at hfin
      | cons c2 t2 =>
        rw [← hn1]
        exact ih rest (acc ++ [c]) (by simp [hn1])
          (fun x hx => hnl x (by simp [hx])) hfin
    · simp

/-- Soundness of the greedy first-whitespace search. -/
theorem w1Search_sound :
    ∀ (k : Nat) (cs : List Char) (nd : List Char × List Char),
      w1Search cs k = some nd →
      ∃ j, 1 ≤ j ∧ j ≤ k ∧ nameSearch [] (cs.drop j) = some nd := by
  intro k
  induction k with
  | zero => intro cs nd h; simp [w1Search] at h
  | succ k ih =>
    intro cs nd h
    simp only [w1Search] at h
    rcases hn : nameSearch [] (cs.drop (k + 1)) with _ | nd1 <;> rw [hn] at h
    · obtain ⟨j, h1, h2, h3⟩ := ih cs nd h
      exact ⟨j, h1, by omega, h3⟩
    · simp at h
      subst h
      exact ⟨k + 1, by omega, Nat.le_refl _, hn⟩

/-- Completeness of the greedy first-whitespace search. -/
theorem w1Search_complete :
    ∀ (k j : Nat) (cs : List Char), 1 ≤ j → j ≤ k →
      (nameSearch [] (cs.drop j)).isSome → (w1Search cs k).isSome := by
  intro k
  induction k with
  | zero => intro j cs h1 h2 h3; omega
  | succ k ih =>
    intro j cs h1 h2 h3
    simp only [w1Search]
    rcases hn : nameSearch [] (cs.drop (k + 1)) with _ | nd1
    · by_cases hj : j = k + 1
      · subst hj
        rw [hn] at h3
        simp at h3
      · exact ih j cs h1 (by omega) h3
    · simp

/-- Whitespace characters are not uppercase hex digits. -/
theorem space_not_hex {x : Char} (h : pyIsSpace x = true) : isHexUp x = false := by
  simp [pyIsSpace] at h
  rcases h with ((((h | h) | h) | h) | h) | h <;> subst h <;> decide

/-- Whitespace characters are not the star marker. -/
theorem space_ne_star {x : Char} (h : pyIsSpace x = true) : x ≠ '*' := by
  simp [pyIsSpace] at h
  rcases h with ((((h | h) | h) | h) | h) | h <;> subst h <;> decide

/-- A non-empty list has a `false` `isEmpty` flag. -/
theorem isEmpty_false_of_ne_nil {l : List Char} (h : l ≠ []) :
    l.isEmpty = false := by
  cases l with
  | nil => exact absurd rfl h
  | cons a t => rfl

/-- Characters taken from within the maximal `takeWhile` run satisfy the
predicate. -/
theorem mem_take_takeWhile {p : Char → Bool} :
    ∀ (l : List Char) (j : Nat), j ≤ (l.takeWhile p).length →
      ∀ x ∈ l.take j, p x = true := by
  intro l
  induction l with
  | nil => intro j hj x hx; simp at hx
  | cons c t ih =>
    intro j hj x hx
    by_cases hc : p c = true
    · rw [List.takeWhile_cons_of_pos hc] at hj
      cases j with
      | zero => simp at hx
      | succ j1 =>
        simp only [List.take_succ_cons] at hx
        rcases List.mem_cons.1 hx with hx | hx
        · subst hx; exact hc
        · exact ih j1 (by simpa using hj) x hx
    · rw [List.takeWhile_cons_of_neg hc] at hj
      simp at hj
      subst hj
      simp at hx

/-- Assembled completeness: the nested whitespace/name search succeeds on
any grammar-shaped tail (written in right-associated form). -/
theorem w1Search_complete_assembled (w1 n w2 : List Char) (c : Char) (r : List Char)
    (hw1ne : w1 ≠ []) (hw1sp : ∀ x ∈ w1, pyIsSpace x = true)
    (hnne : n ≠ []) (hnl : ∀ x ∈ n, notNl x = true)
    (hw2ne : w2 ≠ []) (hw2sp : ∀ x ∈ w2, pyIsSpace x = true) (hc : notNl c = true) :
    (w1Search (w1 ++ (n ++ (w2 ++ ('H' :: 'D' :: '(' :: c :: r))))
      ((w1 ++ (n ++ (w2 ++ ('H' :: 'D' :: '(' :: c :: r)))).takeWhile
        pyIsSpace).length).isSome := by
  have hm : w1.length ≤
      ((w1 ++ (n ++ (w2 ++ ('H' :: 'D' :: '(' :: c :: r)))).takeWhile
        pyIsSpace).length := by
    rw [(takeWhile_append_all (p := pyIsSpace) w1
      (n ++ (w2 ++ ('H' :: 'D' :: '(' :: c :: r))) hw1sp).1]
    simp
  have hdrop : (w1 ++ (n ++ (w2 ++ ('H' :: 'D' :: '(' :: c :: r)))).drop w1.length
      = n ++ (w2 ++ ('H' :: 'D' :: '(' :: c :: r)) :=
    List.drop_left w1 _
  apply w1Search_complete _ w1.length _ (by
    have := List.length_pos.2 hw1ne
    omega) hm
  rw [hdrop]
  have hfin : (finishAfterName (w2 ++ ('H' :: 'D' :: '(' :: c :: r))).isSome := by
    have := finishAfterName_complete w2 c r hw2ne hw2sp hc
    simpa [List.append_assoc] using this
  exact nameSearch_complete n _ [] hnne hnl hfin

/-- `stripStar` on the empty list. -/
theorem stripStar_nil : stripStar [] = [] := rfl

/-- `stripStar` consumes a leading star. -/
theorem stripStar_star (l : List Char) : stripStar ('*' :: l) = l := rfl

/-- `stripStar` keeps a list whose head is not a star. -/
theorem stripStar_of_ne {a : Char} (l : List Char) (h : a ≠ '*') :
    stripStar (a :: l) = a :: l := by
  unfold stripStar
  split
  · rename_i heq
    injection heq with h1 h2
    exact absurd h1 h
  · rfl

/-- Backward assembly: any grammar-shaped line is accepted by the
matcher (line written in right-associated form). -/
theorem parse_isSome_of_parts (hx s w1 n w2 : List Char) (c : Char) (r : List Char)
    (hhne : hx ≠ []) (hhex : ∀ x ∈ hx, isHexUp x = true)
    (hs : s = [] ∨ s = ['*'])
    (hw1ne : w1 ≠ []) (hw1sp : ∀ x ∈ w1, pyIsSpace x = true)
    (hnne : n ≠ []) (hnl : ∀ x ∈ n, notNl x = true)
    (hw2ne : w2 ≠ []) (hw2sp : ∀ x ∈ w2, pyIsSpace x = true) (hc : notNl c = true) :
    (parse_from_efibootmgr ('B' :: 'o' :: 'o' :: 't' ::
      (hx ++ (s ++ (w1 ++ (n ++ (w2 ++ ('H' :: 'D' :: '(' :: c :: r)))))))).isSome := by
  obtain ⟨x0, w1t, hw1c⟩ : ∃ x0 w1t, w1 = x0 :: w1t := by
    cases w1 with
    | nil => exact absurd rfl hw1ne
    | cons a b => exact ⟨a, b, rfl⟩
  have hx0 : pyIsSpace x0 = true := hw1sp x0 (by rw [hw1c]; simp)
  have hb : ∀ y,
      (s ++ (w1 ++ (n ++ (w2 ++ ('H' :: 'D' :: '(' :: c :: r))))).head? = some y →
      isHexUp y = false := by
    intro y hy
    rcases hs with hs1 | hs1 <;> subst hs1
    · rw [List.nil_append, hw1c, List.cons_append] at hy
      simp at hy
      subst hy
      exact space_not_hex hx0
    · simp at hy
      subst hy
      decide
  have hsp := takeWhile_append_stop (p := isHexUp) hx
    (s ++ (w1 ++ (n ++ (w2 ++ ('H' :: 'D' :: '(' :: c :: r))))) hhex hb
  simp only [parse_from_efibootmgr]
  rw [hsp.1, hsp.2, isEmpty_false_of_ne_nil hhne]
  simp only [Bool.false_eq_true, if_false]
  rcases hs with hs1 | hs1 <;> subst hs1
  · -- no star marker: stripStar leaves the tail unchanged
    rw [List.nil_append]
    have hss : stripStar (w1 ++ (n ++ (w2 ++ ('H' :: 'D' :: '(' :: c :: r))))
        = w1 ++ (n ++ (w2 ++ ('H' :: 'D' :: '(' :: c :: r))) := by
      rw [hw1c, List.cons_append, stripStar_of_ne _ (space_ne_star hx0)]
    rw [hss]
    rcases hws : w1Search (w1 ++ (n ++ (w2 ++ ('H' :: 'D' :: '(' :: c :: r))))
        ((w1 ++ (n ++ (w2 ++ ('H' :: 'D' :: '(' :: c :: r)))).takeWhile
          pyIsSpace).length with _ | nd
    · have hass := w1Search_complete_assembled w1 n w2 c r hw1ne hw1sp
        hnne hnl hw2ne hw2sp hc
      rw [hws] at hass
      simp at hass
    · simp
  · -- star marker present: stripStar consumes it
    have hss : stripStar (['*'] ++ (w1 ++ (n ++ (w2 ++ ('H' :: 'D' :: '(' :: c :: r)))))
        = w1 ++ (n ++ (w2 ++ ('H' :: 'D' :: '(' :: c :: r))) := by
      simp only [List.cons_append, List.nil_append, stripStar_star]
    rw [hss]
    rcases hws : w1Search (w1 ++ (n ++ (w2 ++ ('H' :: 'D' :: '(' :: c :: r))))
        ((w1 ++ (n ++ (w2 ++ ('H' :: 'D' :: '(' :: c :: r)))).takeWhile
          pyIsSpace).length with _ | nd
    · have hass := w1Search_complete_assembled w1 n w2 c r hw1ne hw1sp
        hnne hnl hw2ne hw2sp hc
      rw [hws] at hass
      simp at hass
    · simp

/-- The backtracking matcher succeeds exactly on the lines matched by the
EFI line grammar. -/
theorem parse_isSome_iff (line : List Char) :
    (parse_from_efibootmgr line).isSome ↔ GrammarMatch line := by
  constructor
  · intro h
    rw [Option.isSome_iff_exists] at h
    obtain ⟨e, he⟩ := h
    simp only [parse_from_efibootmgr] at he
    split at he
    · rename_i rest
      split at he
      · exact absurd he (by simp)
      · rename_i hhex
        split at he
        · rename_i n d heqw
          clear he
          -- reduce the optional-star step inside heqw
          rcases hr1 : rest.dropWhile isHexUp with _ | ⟨c1, r1⟩
          · rw [hr1] at heqw
            simp [stripStar, w1Search] at heqw
          · by_cases hc1 : c1 = '*'
            · -- star marker present
              subst hc1
              rw [hr1, stripStar_star] at heqw
              obtain ⟨j, hj1, hj2, hns⟩ := w1Search_sound _ _ _ heqw
              obtain ⟨n1, rest3, hsplit3, hn1, hnl1, _, hfin⟩ :=
                nameSearch_sound _ _ _ _ hns
              obtain ⟨w2, c, r, hsplit4, hw2, hw2sp, hc, _⟩ :=
                finishAfterName_sound hfin
              have hjlen : j ≤ r1.length :=
                Nat.le_trans hj2 (List.takeWhile_sublist pyIsSpace).length_le
              refine ⟨rest.takeWhile isHexUp, ['*'], r1.take j, n1, w2, c, r,
                ?_, by simpa using hhex,
                (fun x hx => List.mem_takeWhile_imp hx), Or.inr rfl,
                ?_, mem_take_takeWhile r1 j hj2, hn1, hnl1, hw2, hw2sp, hc⟩
              · have hrest : rest = rest.takeWhile isHexUp ++ ('*' :: r1) := by
                  conv_lhs => rw [← List.takeWhile_append_dropWhile isHexUp rest]
                  rw [hr1]
                have hr1eq : r1 = r1.take j ++ (n1 ++ rest3) := by
                  conv_lhs => rw [← List.take_append_drop j r1]
                  rw [hsplit3]
                rw [hsplit4] at hr1eq
                conv_lhs => rw [hrest, hr1eq]
                simp [List.append_assoc]
              · intro hcontra
                rw [List.take_eq_nil_iff] at hcontra
                rcases hcontra with hcontra | hcontra
                · omega
                · subst hcontra
                  simp at hjlen
                  omega
            · -- no star marker
              rw [hr1, stripStar_of_ne _ hc1, ← hr1] at heqw
              obtain ⟨j, hj1, hj2, hns⟩ := w1Search_sound _ _ _ heqw
              obtain ⟨n1, rest3, hsplit3, hn1, hnl1, _, hfin⟩ :=
                nameSearch_sound _ _ _ _ hns
              obtain ⟨w2, c, r, hsplit4, hw2, hw2sp, hc, _⟩ :=
                finishAfterName_sound hfin
              have hjlen : j ≤ (rest.dropWhile isHexUp).length :=
                Nat.le_trans hj2 (List.takeWhile_sublist pyIsSpace).length_le
              refine ⟨rest.takeWhile isHexUp, [], (rest.dropWhile isHexUp).take j,
                n1, w2, c, r,
                ?_, by simpa using hhex,
                (fun x hx => List.mem_takeWhile_imp hx), Or.inl rfl,
                ?_, mem_take_takeWhile _ j hj2, hn1, hnl1, hw2, hw2sp, hc⟩
              · have hrest : rest
                    = rest.takeWhile isHexUp ++ rest.dropWhile isHexUp := by
                  rw [List.takeWhile_append_dropWhile]
                have hreq : rest.dropWhile isHexUp
                    = (rest.dropWhile isHexUp).take j ++ (n1 ++ rest3) := by
                  conv_lhs => rw [← List.take_append_drop j (rest.dropWhile isHexUp)]
                  rw [hsplit3]
                rw [hsplit4] at hreq
                conv_lhs => rw [hrest, hreq]
                simp [List.append_assoc]
              · intro hcontra
                rw [List.take_eq_nil_iff] at hcontra
                rcases hcontra with hcontra | hcontra
                · omega
                · rw [hcontra] at hjlen
                  simp at hjlen
                  omega
        · exact absurd he (by simp)
    · exact absurd he (by simp)
  · rintro ⟨hx, s, w1, n, w2, c, r, hline, hhne, hhex, hs, hw1ne, hw1sp,
      hnne, hnl, hw2ne, hw2sp, hc⟩
    subst hline
    have heq : (['B', 'o', 'o', 't'] ++ hx ++ s ++ w1 ++ n ++ w2
          ++ ['H', 'D', '('] ++ c :: r : List Char)
        = 'B' :: 'o' :: 'o' :: 't' ::
            (hx ++ (s ++ (w1 ++ (n ++ (w2 ++ ('H' :: 'D' :: '(' :: c :: r)))))) := by
      simp [List.append_assoc]
    rw [heq]
    exact parse_isSome_of_parts hx s w1 n w2 c r hhne hhex hs hw1ne hw1sp
      hnne hnl hw2ne hw2sp hc

/-- Facts about every successfully parsed entry: the name is already
stripped (stripping is idempotent), the boot id consists of hex digits
only (so the `*` marker is never retained in it), the device path starts
with `HD(`, and the `drive` field keeps its `None` default. -/
theorem parse_result_facts {line : List Char} {e : EfiEntry}
    (h : parse_from_efibootmgr line = some e) :
    pyStrip e.name = e.name
    ∧ (∀ x ∈ e.boot_id, isHexUp x = true)
    ∧ e.device_path.take 3 = ['H', 'D', '(']
    ∧ e.drive = none := by
  simp only [parse_from_efibootmgr] at h
  split at h
  · rename_i rest
    split at h
    · exact absurd h (by simp)
    · split at h
      · rename_i n d heqw
        obtain ⟨j, _, _, hns⟩ := w1Search_sound _ _ _ heqw
        obtain ⟨n1, rest3, _, _, _, _, hfin⟩ := nameSearch_sound _ _ _ _ hns
        obtain ⟨w2, c, r, _, _, _, _, hd⟩ := finishAfterName_sound hfin
        simp only [Option.some.injEq] at h
        subst h
        refine ⟨pyStrip_idem n, ?_, ?_, rfl⟩
        · intro x hx
          exact List.mem_takeWhile_imp hx
        · rw [hd]
          rfl
      · exact absurd h (by simp)
  · exact absurd h (by simp)

/-- The `get_efi_entries` loop keeps exactly the `KDE` lines and collects
the successfully parsed entries, in order. -/
theorem processEfiLines_eq (lines : List (List Char)) :
    processEfiLines lines
      = (lines.filter containsKde).filterMap parse_from_efibootmgr := by
  have hgo : ∀ (ls : List (List Char)) (acc : List EfiEntry),
      ls.foldl
        (fun entries line =>
          if containsKde line then
            match parse_from_efibootmgr line with
            | some e => entries ++ [e]
            | none => entries
          else entries) acc
      = acc ++ (ls.filter containsKde).filterMap parse_from_efibootmgr := by
    intro ls
    induction ls with
    | nil => intro acc; simp
    | cons l t ih =>
      intro acc
      by_cases hk : containsKde l
      · rcases hp : parse_from_efibootmgr l with _ | e <;>
          simp [hk, hp, ih, List.filterMap_cons, List.append_assoc]
      · simp [hk, ih]
  simpa using hgo lines []

/-- C6.  The EFI-entry processing of `get_efi_entries` keeps exactly the
output lines containing `KDE` case-insensitively and parses each kept
line with `parse_from_efibootmgr`, which succeeds exactly on lines of the
grammar `Boot <hex-id> [*] <whitespace> <lazy name> <whitespace>
HD( <non-empty device tail>`; parsed names are trimmed of surrounding
whitespace, boot ids never retain the `*` marker, and device paths start
with `HD(`. -/
theorem c6_kde_filter_and_grammar :
    (∀ lines : List (List Char),
      processEfiLines lines
        = (lines.filter containsKde).filterMap parse_from_efibootmgr)
    ∧ (∀ line : List Char,
        (parse_from_efibootmgr line).isSome ↔ GrammarMatch line)
    ∧ (∀ (line : List Char) (e : EfiEntry),
        parse_from_efibootmgr line = some e →
          pyStrip e.name = e.name
          ∧ (∀ x ∈ e.boot_id, isHexUp x = true)
          ∧ e.device_path.take 3 = ['H', 'D', '(']) :=
  ⟨processEfiLines_eq, parse_isSome_iff,
    fun _ _ h => ⟨(parse_result_facts h).1, (parse_result_facts h).2.1,
      (parse_result_facts h).2.2.1⟩⟩

/-- Witness for C6 at the example line of the source comment: the line is
grammar-shaped, and a two-line output is filtered and parsed as claimed. -/
theorem c6_kde_filter_and_grammar_witness :
    GrammarMatch ("Boot0006* KDE neon HD(1,GPT)".data)
    ∧ processEfiLines
        ["Boot0006* KDE neon HD(1,GPT)".data, "Boot0001 Windows HD(2)".data]
      = (["Boot0006* KDE neon HD(1,GPT)".data,
          "Boot0001 Windows HD(2)".data].filter containsKde).filterMap
          parse_from_efibootmgr :=
  ⟨(c6_kde_filter_and_grammar.2.1 "Boot0006* KDE neon HD(1,GPT)".data).mp
      (by decide),
    c6_kde_filter_and_grammar.1
      ["Boot0006* KDE neon HD(1,GPT)".data, "Boot0001 Windows HD(2)".data]⟩

/-! ## Embedding of `hardware_poc.py`: subprocess-calling methods -/

/-- Line-boundary characters of Python `str.splitlines`. -/
def isLineBreak (c : Char) : Bool :=
  c = '\n' || c = '\r' || c = '\x0b' || c = '\x0c' ||
  c = '\x1c' || c = '\x1d' || c = '\x1e' || c = '\x85' ||
  c = '\u2028' || c = '\u2029'

/-- Worker for `pySplitlines`, carrying a flag recording whether the
previous character was a lone-closing `\r` (so that a following `\n` is
consumed silently, making `\r\n` one boundary) and the current
(reversed) line; a line boundary closes the current line. -/
def splitlinesAux : List Char → Bool → List Char → List (List Char)
  | [], _, acc => if acc.isEmpty then [] else [acc.reverse]
  | c :: rest, prevCR, acc =>
    if c == '\n' && prevCR then splitlinesAux rest false []
    else if isLineBreak c then
      acc.reverse :: splitlinesAux rest (c == '\r') []
    else splitlinesAux rest false (c :: acc)

/-- Python `str.splitlines()`: split at line boundaries (`\r\n` counts as
one boundary); a trailing boundary produces no extra empty line. -/
def pySplitlines (l : List Char) : List (List Char) :=
  splitlinesAux l false []

/-- An external process invocation made by `HardwareDetector`. -/
inductive SysCall where
  | blkid (arg : String)
  | efibootmgr
deriving Repr, DecidableEq

/-- The outcomes the operating system would give to the two external
probes: `none` models a raised `SubprocessError`/`FileNotFoundError`
(missing tool, non-zero exit with `check=True`). -/
structure SysState where
  blkidOut : String → Option String
  efibootmgrOut : Option String

/-- `HardwareDetector.detect_windows`: in dry-run mode, log and return
`False` without any external call; otherwise probe the label of the first
partition and report whether the raw output contains `EFI` or `SYSTEM`;
a probe failure yields `False`.  The second component records the
external invocations performed. -/
def detect_windows (dry_run : Bool) (sys : SysState) (drive_path : String) :
    Bool × List SysCall :=
  if dry_run then (false, [])
  else
    match sys.blkidOut (drive_path ++ "p1") with
    | some out =>
      (containsSub "EFI".data out.data || containsSub "SYSTEM".data out.data,
        [SysCall.blkid (drive_path ++ "p1")])
    | none => (false, [SysCall.blkid (drive_path ++ "p1")])

/-- `HardwareDetector.get_efi_entries`: in dry-run mode, log and return
the empty list without any external call; otherwise run `efibootmgr` and
process its output lines; a failure yields the empty list. -/
def get_efi_entries (dry_run : Bool) (sys : SysState) :
    List EfiEntry × List SysCall :=
  if dry_run then ([], [])
  else
    match sys.efibootmgrOut with
    | some out => (processEfiLines (pySplitlines out.data), [SysCall.efibootmgr])
    | none => ([], [SysCall.efibootmgr])

/-- C4.  With dry-run enabled, `detect_windows` always returns `False`
and `get_efi_entries` always returns the empty list, whatever the system
state, and neither performs any external invocation. -/
theorem c4_dry_run_guarantee :
    (∀ (sys : SysState) (drive_path : String),
      detect_windows true sys drive_path = (false, []))
    ∧ (∀ sys : SysState, get_efi_entries true sys = ([], [])) :=
  ⟨fun _ _ => rfl, fun _ => rfl⟩

/-! ## Embedding of `config_poc.py`

The Pydantic models become plain structures; each `@validator` becomes a
function returning `none` on success or `some message` on the first
failing check of that field; a model validates cleanly when every field
validator returns `none`.  Validators that read `values.get(...)` receive
the already-validated value of the earlier field, or `none` when that
field's validator failed (Pydantic omits failed fields from `values`). -/

/-- `NetworkConfig` model of `config_poc.py`. -/
structure NetworkConfig where
  network_type : String
  interface : Option String := none
  ip_address : Option String := none
  netmask : Option String := none
  gateway : Option String := none
  dns_servers : Option String := none
  domain_search : Option String := none
  dns_suffix : Option String := none
deriving Repr, DecidableEq

/-- `SystemConfig` model of `config_poc.py` (with its field defaults). -/
structure SystemConfig where
  target_drive : String
  locale : String := "en_US.UTF-8"
  timezone : String := "America/New_York"
  username : String
  hostname : String
  swap_size : String := "auto"
  filesystem : String := "ext4"
  network : NetworkConfig
deriving Repr, DecidableEq

/-- Python truthiness of an optional string (`None` and `''` are falsy). -/
def truthyOpt : Option String → Bool
  | none => false
  | some s => !(s = "")

namespace NetworkConfig

/-- `@validator('network_type')`. -/
def validate_network_type (v : String) : Option String :=
  if v = "dhcp" || v = "static" || v = "manual" then none
  else some "network_type must be dhcp, static, or manual"

/-- `@validator('ip_address')` (receives the validated `network_type`). -/
def validate_ip (network_type : Option String) (v : Option String) : Option String :=
  if network_type = some "static" && !truthyOpt v then
    some "IP address required for static configuration"
  else if truthyOpt v && !ipv4Ok (v.getD "") then
    some "Invalid IP address format"
  else none

/-- `@validator('gateway')`. -/
def validate_gateway (network_type : Option String) (v : Option String) : Option String :=
  if network_type = some "static" && !truthyOpt v then
    some "Gateway required for static configuration"
  else if truthyOpt v && !ipv4Ok (v.getD "") then
    some "Invalid gateway IP address"
  else none

/-- `@validator('interface')`. -/
def validate_interface (network_type : Option String) (v : Option String) : Option String :=
  if network_type = some "static" && !truthyOpt v then
    some "Interface required for static configuration"
  else none

end NetworkConfig

/-- All validation errors of a `NetworkConfig`, in field declaration
order (`network_type`, `interface`, `ip_address`, `gateway`). -/
def networkConfigErrors (nc : NetworkConfig) : List String :=
  let ntErr := NetworkConfig.validate_network_type nc.network_type
  let ntVal : Option String := if ntErr.isSome then none else some nc.network_type
  ntErr.toList
    ++ (NetworkConfig.validate_interface ntVal nc.interface).toList
    ++ (NetworkConfig.validate_ip ntVal nc.ip_address).toList
    ++ (NetworkConfig.validate_gateway ntVal nc.gateway).toList

/-- Character class `[a-z_]` of the timezone regex segments. -/
def tzChar (c : Char) : Bool := c.isLower || c = '_'

/-- The regex `[A-Z][a-z_]+/[A-Z][a-z_]+$` of
`SystemConfig.validate_timezone`, matched from the start of the string:
an uppercase letter, a non-empty lowercase/underscore run (forced maximal
since `/` is outside the class), a slash, an uppercase letter and a
non-empty lowercase/underscore run reaching the `$` anchor, which also
accepts one trailing newline. -/
def timezoneOk (s : List Char) : Bool :=
  match chopNl s with
  | c :: rest =>
    c.isUpper &&
      (let seg1 := rest.takeWhile tzChar
       let r1 := rest.dropWhile tzChar
       !seg1.isEmpty &&
         match r1 with
         | '/' :: c2 :: rest2 => c2.isUpper && !rest2.isEmpty && rest2.all tzChar
         | _ => false)
  | [] => false

/-- Character class `[a-zA-Z0-9-]` of the hostname regex. -/
def hostChar (c : Char) : Bool := c.isAlpha || c.isDigit || c = '-'

/-- The anchored regex `^[a-zA-Z0-9-]+$` of
`SystemConfig.validate_hostname`; `$` accepts one trailing newline. -/
def hostnameOk (s : List Char) : Bool :=
  !(chopNl s).isEmpty && (chopNl s).all hostChar

namespace SystemConfig

/-- `@validator('target_drive')`: the NVMe path grammar, then the
existence check, which consults the injected filesystem oracle. -/
def validate_drive (exists_check : String → Bool) (v : String) : Option String :=
  if !drivePathOkL v.data then some "Invalid NVMe drive path format"
  else if !exists_check v then some ("Drive " ++ v ++ " does not exist")
  else none

/-- `@validator('locale')` (same grammar as `config_simple.py`). -/
def validate_locale (v : String) : Option String :=
  if localeOk v then none else some "Locale must be in format: en_US.UTF-8"

/-- `@validator('timezone')`. -/
def validate_timezone (v : String) : Option String :=
  if timezoneOk v.data then none
  else some "Timezone must be in format: America/New_York"

/-- `@validator('username')` (same checks as `config_simple.py`). -/
def validate_username (v : String) : Option String :=
  if !usernamePatternOk v then
    some "Username must start with letter, contain only lowercase letters, numbers, underscore, dash"
  else if v.data.length > 32 then some "Username too long (max 32 characters)"
  else none

/-- `@validator('hostname')`: character-class check, then the 63-character
length cap. -/
def validate_hostname (v : String) : Option String :=
  if !hostnameOk v.data then
    some "Hostname can only contain letters, numbers, and hyphens"
  else if v.data.length > 63 then some "Hostname too long (max 63 characters)"
  else none

end SystemConfig

/-- All validation errors of a `SystemConfig`, in field declaration order,
with the nested `NetworkConfig` errors last. -/
def systemConfigErrors (exists_check : String → Bool) (sc : SystemConfig) : List String :=
  (SystemConfig.validate_drive exists_check sc.target_drive).toList
    ++ (SystemConfig.validate_locale sc.locale).toList
    ++ (SystemConfig.validate_timezone sc.timezone).toList
    ++ (SystemConfig.validate_username sc.username).toList
    ++ (SystemConfig.validate_hostname sc.hostname).toList
    ++ networkConfigErrors sc.network

/-! ### `_parse_shell_config` and `save_config` -/

/-- Python `line.startswith('#')`. -/
def startsWithHash (l : List Char) : Bool := l.head? == some '#'

/-- Python `dict` insert-or-replace update. -/
def pyDictSet (d : List (String × String)) (k v : String) : List (String × String) :=
  match d with
  | [] => [(k, v)]
  | (k1, v1) :: t => if k1 = k then (k, v) :: t else (k1, v1) :: pyDictSet t k v

/-- One iteration of the `_parse_shell_config` line loop: strip the line,
skip it unless it contains `=` and does not start with `#`, split at the
first `=`, strip quotes off the value and store the pair. -/
def parseLine (d : List (String × String)) (line : List Char) : List (String × String) :=
  if (pyStrip line).contains '=' && !startsWithHash (pyStrip line) then
    pyDictSet d ((pyStrip line).takeWhile (fun c => c != '=')).asString
      (stripQuotes (((pyStrip line).dropWhile (fun c => c != '=')).drop 1)).asString
  else d

/-- The raw key/value mapping `_parse_shell_config` builds from the
file's lines. -/
def parseShellLines (lines : List (List Char)) : List (String × String) :=
  lines.foldl parseLine []

/-- `ConfigManager._parse_shell_config`: parse the raw mapping from the
file content and structure it with the documented defaults. -/
def parse_shell_config (content : List Char) : SystemConfig :=
  let cd := parseShellLines (pySplitlines content)
  { target_drive := (cfgGet cd "target_drive").getD ""
    locale := (cfgGet cd "locale").getD "en_US.UTF-8"
    timezone := (cfgGet cd "timezone").getD "America/New_York"
    username := (cfgGet cd "username").getD ""
    hostname := (cfgGet cd "hostname").getD ""
    swap_size := (cfgGet cd "swap_size").getD "auto"
    filesystem := (cfgGet cd "filesystem").getD "ext4"
    network := {
      network_type := (cfgGet cd "network_config").getD "dhcp"
      interface := cfgGet cd "static_iface"
      ip_address := cfgGet cd "static_ip"
      netmask := cfgGet cd "static_netmask"
      gateway := cfgGet cd "static_gateway"
      dns_servers := cfgGet cd "static_dns"
      domain_search := cfgGet cd "static_domain_search"
      dns_suffix := cfgGet cd "static_dns_suffix" } }

/-- One `key="value"` line of `save_config`. -/
def kvLine (k v : String) : List Char :=
  k.data ++ '=' :: '"' :: v.data ++ ['"']

/-- Python `f-string` interpolation of an optional string (`None` prints
as the four characters `None`). -/
def pyStr (o : Option String) : String :=
  match o with
  | some s => s
  | none => "None"

/-- The lines `save_config` writes, in order: the header comment, the
seven base fields, a blank line, the network comment, the network type,
then the five `static_*` lines only when `network_type` is `static`, and
the `domain_search` / `dns_suffix` lines only when those values are
truthy. -/
def saveLines (c : SystemConfig) : List (List Char) :=
  ["# KDE Neon Installation Configuration".data,
   kvLine "target_drive" c.target_drive,
   kvLine "locale" c.locale,
   kvLine "timezone" c.timezone,
   kvLine "username" c.username,
   kvLine "hostname" c.hostname,
   kvLine "swap_size" c.swap_size,
   kvLine "filesystem" c.filesystem,
   [],
   "# Network Configuration".data,
   kvLine "network_config" c.network.network_type]
  ++ (if c.network.network_type = "static" then
      [kvLine "static_iface" (pyStr c.network.interface),
       kvLine "static_ip" (pyStr c.network.ip_address),
       kvLine "static_netmask" (pyStr c.network.netmask),
       kvLine "static_gateway" (pyStr c.network.gateway),
       kvLine "static_dns" (pyStr c.network.dns_servers)]
    else [])
  ++ (if truthyOpt c.network.domain_search then
      [kvLine "static_domain_search" (pyStr c.network.domain_search)] else [])
  ++ (if truthyOpt c.network.dns_suffix then
      [kvLine "static_dns_suffix" (pyStr c.network.dns_suffix)] else [])

/-- `ConfigManager.save_config`: the file content, each line terminated
with a newline. -/
def save_config (c : SystemConfig) : List Char :=
  (saveLines c).foldr (fun l acc => l ++ '\n' :: acc) []

/-! ### Round-trip infrastructure: tame characters -/

/-- The characters that can disturb the `key="value"` round trip: line
boundaries and quotes. -/
def badChars : List Char :=
  ['\n', '\r', '\x0b', '\x0c', '\x1c', '\x1d', '\x1e', '\x85',
   '\u2028', '\u2029', '"', Char.ofNat 39]

/-- A character that is neither a line boundary nor a quote. -/
def charTame (c : Char) : Bool := !(badChars.contains c)

/-- Tame characters are not line boundaries. -/
theorem charTame_break {x : Char} (h : charTame x = true) : isLineBreak x = false := by
  unfold charTame at h
  rw [Bool.not_eq_true'] at h
  by_contra hc
  rw [Bool.not_eq_false] at hc
  simp only [isLineBreak, Bool.or_eq_true, decide_eq_true_eq] at hc
  have hmem : x ∈ badChars := by
    unfold badChars
    rcases hc with ((((((((hc | hc) | hc) | hc) | hc) | hc) | hc) | hc) | hc) | hc <;>
      subst hc <;> simp
  exact absurd hmem (by simpa using h)

/-- Tame characters are not quotes. -/
theorem charTame_quote {x : Char} (h : charTame x = true) : isQuoteChar x = false := by
  unfold charTame at h
  rw [Bool.not_eq_true'] at h
  by_contra hc
  rw [Bool.not_eq_false] at hc
  simp only [isQuoteChar, Bool.or_eq_true, decide_eq_true_eq] at hc
  have hmem : x ∈ badChars := by
    unfold badChars
    rcases hc with hc | hc <;> subst hc <;> simp
  exact absurd hmem (by simpa using h)

/-- Any character class disjoint from `badChars` yields tame characters. -/
theorem charTame_of_class {x : Char} {p : Char → Bool}
    (hp : ∀ b ∈ badChars, p b = false) (h : p x = true) : charTame x = true := by
  unfold charTame
  rw [Bool.not_eq_true']
  by_contra hc
  rw [Bool.not_eq_false] at hc
  have hmem : x ∈ badChars := by simpa using hc
  rw [hp x hmem] at h
  exact absurd h (by simp)

/-! ### Round-trip infrastructure: splitlines inverts line concatenation -/

/-- `splitlinesAux` shifts a non-boundary character into the current
line accumulator. -/
theorem splitlinesAux_cons_nonbreak (c : Char) (rest acc : List Char)
    (hc : isLineBreak c = false) :
    splitlinesAux (c :: rest) false acc
      = splitlinesAux rest false (c :: acc) := by
  have hne : (c == '\n') = false := by
    cases he : c == '\n' with
    | false => rfl
    | true =>
      rw [show c = '\n' from by simpa using he] at hc
      exact Bool.noConfusion hc
  conv_lhs => rw [splitlinesAux.eq_2]
  rw [if_neg (by simp [hne]), if_neg (by simp [hc])]

/-- `splitlinesAux` closes the current line at a newline. -/
theorem splitlinesAux_newline (rest acc : List Char) :
    splitlinesAux ('\n' :: rest) false acc
      = acc.reverse :: splitlinesAux rest false [] := rfl

/-- `splitlinesAux` consumes one boundary-free line up to its newline. -/
theorem splitlinesAux_line :
    ∀ (l R acc : List Char), (∀ x ∈ l, isLineBreak x = false) →
      splitlinesAux (l ++ '\n' :: R) false acc
        = (acc.reverse ++ l) :: splitlinesAux R false [] := by
  intro l
  induction l with
  | nil =>
    intro R acc h
    rw [List.nil_append, splitlinesAux_newline]
    simp
  | cons c t ih =>
    intro R acc h
    rw [List.cons_append, splitlinesAux_cons_nonbreak c _ _ (h c (by simp))]
    rw [ih R (c :: acc) (fun x hx => h x (by simp [hx]))]
    simp

/-- `splitlines` inverts newline-terminated concatenation of
boundary-free lines — the key round-trip fact for `save_config`. -/
theorem pySplitlines_concat (lines : List (List Char))
    (h : ∀ l ∈ lines, ∀ x ∈ l, isLineBreak x = false) :
    pySplitlines (lines.foldr (fun l acc => l ++ '\n' :: acc) []) = lines := by
  induction lines with
  | nil => simp [pySplitlines, splitlinesAux]
  | cons l t ih =>
    rw [List.foldr_cons]
    unfold pySplitlines
    rw [splitlinesAux_line l _ [] (h l (by simp))]
    rw [List.reverse_nil, List.nil_append]
    have ih2 := ih (fun l2 h2 x hx => h l2 (by simp [h2]) x hx)
    unfold pySplitlines at ih2
    rw [ih2]

/-! ### Round-trip infrastructure: quote stripping and line parsing -/

/-- `dropWhile` distributes over append when it stops inside the prefix. -/
theorem dropWhile_append_ne_nil {p : Char → Bool} :
    ∀ (a b : List Char), a.dropWhile p ≠ [] →
      (a ++ b).dropWhile p = a.dropWhile p ++ b := by
  intro a
  induction a with
  | nil => intro b h; exact absurd rfl h
  | cons x t ih =>
    intro b h
    by_cases hx : p x = true
    · have h2 : t.dropWhile p ≠ [] := by
        rwa [List.dropWhile_cons_of_pos hx] at h
      rw [List.cons_append, List.dropWhile_cons_of_pos hx,
        List.dropWhile_cons_of_pos hx]
      exact ih b h2
    · rw [List.cons_append, List.dropWhile_cons_of_neg hx,
        List.dropWhile_cons_of_neg hx, List.cons_append]

/-- A trailing quote never changes a strip result. -/
theorem stripQuotes_append_quote (A : List Char) :
    stripQuotes (A ++ ['"']) = stripQuotes A := by
  by_cases h : A.dropWhile isQuoteChar = []
  · have hall : ∀ x ∈ A, isQuoteChar x = true := by
      rw [← List.dropWhile_eq_nil_iff]
      exact h
    have h1 : (A ++ ['"']).dropWhile isQuoteChar = [] := by
      rw [(takeWhile_append_all A ['"'] hall).2]
      rfl
    unfold stripQuotes
    rw [h, h1]
  · unfold stripQuotes
    rw [dropWhile_append_ne_nil A ['"'] h, List.reverse_append]
    rw [show (['"'] : List Char).reverse = ['"'] from rfl, List.singleton_append,
      List.dropWhile_cons_of_pos (show isQuoteChar '"' = true by decide)]

/-- A leading quote never changes a strip result. -/
theorem stripQuotes_cons_quote (A : List Char) :
    stripQuotes ('"' :: A) = stripQuotes A := by
  unfold stripQuotes
  rw [List.dropWhile_cons_of_pos (show isQuoteChar '"' = true by decide)]

/-- Stripping an explicitly quoted value equals stripping the raw value. -/
theorem stripQuotes_wrapped (v : List Char) :
    stripQuotes ('"' :: v ++ ['"']) = stripQuotes v := by
  calc stripQuotes ('"' :: v ++ ['"'])
      = stripQuotes ('"' :: (v ++ ['"'])) := by rw [List.cons_append]
    _ = stripQuotes (v ++ ['"']) := stripQuotes_cons_quote _
    _ = stripQuotes v := stripQuotes_append_quote v

/-- Quote stripping is the identity on values without quotes at either
end. -/
theorem stripQuotes_eq_self {l : List Char}
    (h1 : ∀ y, l.head? = some y → isQuoteChar y = false)
    (h2 : ∀ y, l.getLast? = some y → isQuoteChar y = false) :
    stripQuotes l = l := by
  unfold stripQuotes
  rw [dropWhile_eq_self_of_head l h1]
  rw [dropWhile_eq_self_of_head l.reverse
    (by intro y hy; exact h2 y (by rwa [List.head?_reverse] at hy))]
  exact List.reverse_reverse l

/-- `String.data` and `List.asString` are inverse. -/
theorem dataAsString (s : String) : s.data.asString = s := rfl

/-- The last element of a list ending in an explicit singleton. -/
theorem getLast?_append_singleton (l : List Char) (c : Char) :
    (l ++ [c]).getLast? = some c := by
  simp

/-- Lookup after insert at the inserted key. -/
theorem cfgGet_set_self (d : List (String × String)) (k v : String) :
    cfgGet (pyDictSet d k v) k = some v := by
  induction d with
  | nil => simp [pyDictSet, cfgGet]
  | cons p t ih =>
    obtain ⟨k1, v1⟩ := p
    by_cases h : k1 = k
    · subst h
      simp [pyDictSet, cfgGet]
    · simp [pyDictSet, cfgGet, h, ih]

/-- Lookup after insert at a different key. -/
theorem cfgGet_set_ne (d : List (String × String)) (k v k2 : String)
    (h : ¬ k2 = k) :
    cfgGet (pyDictSet d k v) k2 = cfgGet d k2 := by
  induction d with
  | nil =>
    simp [pyDictSet, cfgGet]
    intro heq
    exact absurd heq.symm h
  | cons p t ih =>
    obtain ⟨k1, v1⟩ := p
    by_cases h1 : k1 = k
    · subst h1
      have hne : ¬ k1 = k2 := fun he => h he.symm
      simp [pyDictSet, cfgGet, hne]
    · by_cases h2 : k1 = k2
      · subst h2
        simp [pyDictSet, cfgGet, h1]
      · simp [pyDictSet, cfgGet, h1, h2, ih]

/-- Inserting a fresh key appends it to the key list. -/
theorem keys_set_fresh (d : List (String × String)) (k v : String)
    (h : cfgGet d k = none) :
    (pyDictSet d k v).map Prod.fst = d.map Prod.fst ++ [k] := by
  induction d with
  | nil => simp [pyDictSet]
  | cons p t ih =>
    obtain ⟨k1, v1⟩ := p
    by_cases h1 : k1 = k
    · rw [show cfgGet ((k1, v1) :: t) k = some v1 from by simp [cfgGet, h1]] at h
      exact absurd h (by simp)
    · have h2 : cfgGet t k = none := by
        rwa [show cfgGet ((k1, v1) :: t) k = cfgGet t k from by
          simp [cfgGet, h1]] at h
      simp [pyDictSet, h1, ih h2]

/-- The line loop on a `key="value"` line with a well-formed key stores
the quote-stripped value under the key. -/
theorem parseLine_kv (d : List (String × String)) (k v : String)
    (hkne : k.data ≠ [])
    (hknoeq : ∀ x ∈ k.data, (x != '=') = true)
    (hkhead : ∀ y, k.data.head? = some y → y ≠ '#' ∧ pyIsSpace y = false) :
    parseLine d (kvLine k v) = pyDictSet d k (stripQuotes v.data).asString := by
  obtain ⟨c0, k1, hk⟩ : ∃ c0 k1, k.data = c0 :: k1 := by
    cases hkd : k.data with
    | nil => exact absurd hkd hkne
    | cons a b => exact ⟨a, b, rfl⟩
  have hc0 := hkhead c0 (by rw [hk]; rfl)
  have hhead : (kvLine k v).head? = some c0 := by
    unfold kvLine
    rw [hk, List.cons_append]
    rfl
  have hlast : (kvLine k v).getLast? = some '"' := by
    unfold kvLine
    rw [show k.data ++ '=' :: '"' :: v.data ++ ['"']
        = (k.data ++ '=' :: '"' :: v.data) ++ ['"'] by simp]
    exact getLast?_append_singleton _ _
  have hstrip : pyStrip (kvLine k v) = kvLine k v := by
    apply pyStrip_eq_self
    · intro y hy
      rw [hhead] at hy
      injection hy with hy
      rw [← hy]
      exact hc0.2
    · intro y hy
      rw [hlast] at hy
      injection hy with hy
      rw [← hy]
      decide
  have hcontains : (kvLine k v).contains '=' = true := by
    unfold kvLine
    simp
  have hhash : startsWithHash (kvLine k v) = false := by
    unfold startsWithHash
    rw [hhead]
    simp [hc0.1]
  have hsplit := takeWhile_append_stop (p := fun c => c != '=') k.data
    ('=' :: '"' :: v.data ++ ['"']) hknoeq
    (by intro y hy; injection hy with hy; rw [← hy]; simp)
  unfold parseLine
  rw [hstrip, if_pos (by rw [hcontains, hhash]; rfl)]
  unfold kvLine
  simp only [List.append_assoc, List.cons_append]
  simp only [List.cons_append] at hsplit
  rw [hsplit.1, hsplit.2]
  rw [show List.drop 1 ('=' :: '"' :: (v.data ++ ['"'])) = '"' :: (v.data ++ ['"'])
    from rfl]
  rw [show stripQuotes ('"' :: (v.data ++ ['"'])) = stripQuotes v.data from by
    rw [← List.cons_append]
    exact stripQuotes_wrapped v.data]
  rw [dataAsString]

/-! ### Round-trip infrastructure: tame values of validated fields -/

/-- A list free of line-boundary characters. -/
def lineFree (l : List Char) : Bool := l.all (fun c => !isLineBreak c)

/-- Members of a `lineFree` list are not line boundaries. -/
theorem lineFree_mem {l : List Char} (h : lineFree l = true) :
    ∀ x ∈ l, isLineBreak x = false := by
  intro x hx
  unfold lineFree at h
  rw [List.all_eq_true] at h
  simpa using h x hx

/-- Members of an all-tame list are not line boundaries. -/
theorem tame_mem_break {l : List Char} (h : l.all charTame = true) :
    ∀ x ∈ l, isLineBreak x = false := fun x hx =>
  charTame_break (List.all_eq_true.mp h x hx)

/-- The head element of a list is a member. -/
theorem mem_of_head? {l : List Char} {y : Char} (h : l.head? = some y) :
    y ∈ l := by
  cases l with
  | nil => exact absurd h (by simp)
  | cons a t =>
    have ha : a = y := by simpa using h
    rw [← ha]
    exact List.mem_cons_self a t

/-- The last element of a list is a member. -/
theorem mem_of_getLast? {l : List Char} {y : Char} (h : l.getLast? = some y) :
    y ∈ l := by
  have h2 : l.reverse.head? = some y := by rw [List.head?_reverse]; exact h
  exact List.mem_reverse.mp (mem_of_head? h2)

/-- Quote stripping is the identity on all-tame lists. -/
theorem stripQuotes_eq_self_of_tame {l : List Char}
    (h : l.all charTame = true) : stripQuotes l = l := by
  apply stripQuotes_eq_self
  · intro y hy
    exact charTame_quote (List.all_eq_true.mp h y (mem_of_head? hy))
  · intro y hy
    exact charTame_quote (List.all_eq_true.mp h y (mem_of_getLast? hy))

/-- `String.data` after `List.asString` is the identity. -/
theorem asString_data (l : List Char) : l.asString.data = l := rfl

/-- Stripping quotes off an all-tame string value gives it back. -/
theorem stripQuotes_asString_of_tame {v : String}
    (h : v.data.all charTame = true) : (stripQuotes v.data).asString = v := by
  rw [stripQuotes_eq_self_of_tame h, dataAsString]

/-- A character that is tame and not whitespace: values made of such
characters survive both the quote stripping and the `str.strip()` of the
parser's line loop. -/
def charGood (c : Char) : Bool := charTame c && !pyIsSpace c

/-- Good characters are tame. -/
theorem charGood_tame {x : Char} (h : charGood x = true) :
    charTame x = true := by
  unfold charGood at h
  simp only [Bool.and_eq_true] at h
  exact h.1

/-- Good characters are not whitespace. -/
theorem charGood_space {x : Char} (h : charGood x = true) :
    pyIsSpace x = false := by
  unfold charGood at h
  simp only [Bool.and_eq_true, Bool.not_eq_true'] at h
  exact h.2

/-- An all-good list is all-tame. -/
theorem all_good_tame {l : List Char} (h : l.all charGood = true) :
    l.all charTame = true := by
  rw [List.all_eq_true] at h ⊢
  exact fun x hx => charGood_tame (h x hx)

/-- Whitespace is not a hostname character. -/
theorem space_not_hostChar {x : Char} (h : pyIsSpace x = true) :
    hostChar x = false := by
  simp [pyIsSpace] at h
  rcases h with ((((h | h) | h) | h) | h) | h <;> subst h <;> decide

/-- Whitespace is not a username character. -/
theorem space_not_usernameChar {x : Char} (h : pyIsSpace x = true) :
    usernameChar x = false := by
  simp [pyIsSpace] at h
  rcases h with ((((h | h) | h) | h) | h) | h <;> subst h <;> decide

/-- Whitespace is not lowercase. -/
theorem space_not_lower {x : Char} (h : pyIsSpace x = true) :
    Char.isLower x = false := by
  simp [pyIsSpace] at h
  rcases h with ((((h | h) | h) | h) | h) | h <;> subst h <;> decide

/-- Whitespace is not uppercase. -/
theorem space_not_upper {x : Char} (h : pyIsSpace x = true) :
    Char.isUpper x = false := by
  simp [pyIsSpace] at h
  rcases h with ((((h | h) | h) | h) | h) | h <;> subst h <;> decide

/-- Whitespace is not a digit. -/
theorem space_not_digit {x : Char} (h : pyIsSpace x = true) :
    Char.isDigit x = false := by
  simp [pyIsSpace] at h
  rcases h with ((((h | h) | h) | h) | h) | h <;> subst h <;> decide

/-- Whitespace is not a timezone-segment character. -/
theorem space_not_tzChar {x : Char} (h : pyIsSpace x = true) :
    tzChar x = false := by
  simp [pyIsSpace] at h
  rcases h with ((((h | h) | h) | h) | h) | h <;> subst h <;> decide

/-- Any character class disjoint from `badChars` and from whitespace
yields good characters. -/
theorem charGood_of_class {x : Char} {p : Char → Bool}
    (hp : ∀ b ∈ badChars, p b = false)
    (hs : ∀ b, pyIsSpace b = true → p b = false)
    (h : p x = true) : charGood x = true := by
  unfold charGood
  rw [charTame_of_class hp h]
  cases hx : pyIsSpace x with
  | false => rfl
  | true =>
    rw [hs x hx] at h
    exact Bool.noConfusion h

/-- A validated hostname is all-good up to its optional trailing
newline. -/
theorem host_tame {l : List Char} (h : hostnameOk l = true) :
    (chopNl l).all charGood = true := by
  unfold hostnameOk at h
  simp only [Bool.and_eq_true, List.all_eq_true] at h
  rw [List.all_eq_true]
  intro x hx
  exact charGood_of_class (p := hostChar) (by decide)
    (fun b hb => space_not_hostChar hb) (h.2 x hx)

/-- A validated username is all-good up to its optional trailing
newline. -/
theorem username_tame {s : String} (h : usernamePatternOk s = true) :
    (chopNl s.data).all charGood = true := by
  unfold usernamePatternOk at h
  split at h
  · exact Bool.noConfusion h
  · rename_i c rest heq
    simp only [Bool.and_eq_true, List.all_eq_true] at h
    rw [heq, List.all_eq_true]
    intro x hx
    rcases List.mem_cons.mp hx with hxc | hxr
    · subst hxc
      exact charGood_of_class (p := Char.isLower) (by decide)
        (fun b hb => space_not_lower hb) h.1
    · exact charGood_of_class (p := usernameChar) (by decide)
        (fun b hb => space_not_usernameChar hb) (h.2 x hxr)

/-- A validated locale is all-good up to its optional trailing newline. -/
theorem locale_tame {s : String} (h : localeOk s = true) :
    (chopNl s.data).all charGood = true := by
  unfold localeOk at h
  split at h
  · rename_i a b c d heq
    simp only [Bool.and_eq_true] at h
    obtain ⟨⟨⟨ha, hb⟩, hc⟩, hd⟩ := h
    rw [heq, List.all_eq_true]
    intro x hx
    simp only [List.mem_cons] at hx
    rcases hx with h1|h1|h1|h1|h1|h1|h1|h1|h1|h1|h1|h1
    · subst h1
      exact charGood_of_class (p := Char.isLower) (by decide)
        (fun b hb => space_not_lower hb) ha
    · subst h1
      exact charGood_of_class (p := Char.isLower) (by decide)
        (fun b hb => space_not_lower hb) hb
    · subst h1; decide
    · subst h1
      exact charGood_of_class (p := Char.isUpper) (by decide)
        (fun b hb => space_not_upper hb) hc
    · subst h1
      exact charGood_of_class (p := Char.isUpper) (by decide)
        (fun b hb => space_not_upper hb) hd
    · subst h1; decide
    · subst h1; decide
    · subst h1; decide
    · subst h1; decide
    · subst h1; decide
    · subst h1; decide
    · exact absurd h1 (by simp)
  · exact Bool.noConfusion h

/-- A validated timezone is all-good up to its optional trailing
newline. -/
theorem timezone_tame {l : List Char} (h : timezoneOk l = true) :
    (chopNl l).all charGood = true := by
  unfold timezoneOk at h
  split at h
  · rename_i c rest heq
    simp only [Bool.and_eq_true] at h
    obtain ⟨hc, hseg, hm⟩ := h
    split at hm
    · rename_i c2 rest2 heq2
      simp only [Bool.and_eq_true, List.all_eq_true] at hm
      obtain ⟨⟨hc2, hne2⟩, hall2⟩ := hm
      rw [heq, List.all_eq_true]
      intro x hx
      rcases List.mem_cons.mp hx with hxc | hxr
      · subst hxc
        exact charGood_of_class (p := Char.isUpper) (by decide)
          (fun b hb => space_not_upper hb) hc
      · rw [← List.takeWhile_append_dropWhile (p := tzChar) (l := rest)]
          at hxr
        rcases List.mem_append.mp hxr with hxt | hxd
        · exact charGood_of_class (p := tzChar) (by decide)
            (fun b hb => space_not_tzChar hb) (List.mem_takeWhile_imp hxt)
        · rw [heq2] at hxd
          rcases List.mem_cons.mp hxd with hxs | hxd2
          · subst hxs; decide
          · rcases List.mem_cons.mp hxd2 with hxc2 | hxr2
            · subst hxc2
              exact charGood_of_class (p := Char.isUpper) (by decide)
                (fun b hb => space_not_upper hb) hc2
            · exact charGood_of_class (p := tzChar) (by decide)
                (fun b hb => space_not_tzChar hb) (hall2 x hxr2)
    · exact Bool.noConfusion hm
  · exact Bool.noConfusion h

/-- A validated NVMe drive path is all-good up to its optional trailing
newline. -/
theorem drive_tame {l : List Char} (h : drivePathOkL l = true) :
    (chopNl l).all charGood = true := by
  unfold drivePathOkL at h
  split at h
  · rename_i rest heq
    have h2 : (match rest.dropWhile Char.isDigit with
        | 'n' :: r2 =>
          !(rest.takeWhile Char.isDigit).isEmpty && !r2.isEmpty &&
            r2.all Char.isDigit
        | _ => false) = true := h
    split at h2
    · rename_i r2 heq2
      simp only [Bool.and_eq_true, List.all_eq_true] at h2
      obtain ⟨⟨hne1, hne2⟩, hall2⟩ := h2
      rw [heq, List.all_eq_true]
      intro x hx
      simp only [List.mem_cons] at hx
      rcases hx with h1|h1|h1|h1|h1|h1|h1|h1|h1|hxr
      · subst h1; decide
      · subst h1; decide
      · subst h1; decide
      · subst h1; decide
      · subst h1; decide
      · subst h1; decide
      · subst h1; decide
      · subst h1; decide
      · subst h1; decide
      · rw [← List.takeWhile_append_dropWhile (p := Char.isDigit) (l := rest)]
          at hxr
        rcases List.mem_append.mp hxr with hxt | hxd
        · exact charGood_of_class (p := Char.isDigit) (by decide)
            (fun b hb => space_not_digit hb) (List.mem_takeWhile_imp hxt)
        · rw [heq2] at hxd
          rcases List.mem_cons.mp hxd with hxn | hxr2
          · subst hxn; decide
          · exact charGood_of_class (p := Char.isDigit) (by decide)
              (fun b hb => space_not_digit hb) (hall2 x hxr2)
    · exact Bool.noConfusion h2
  · exact Bool.noConfusion h

/-- A valid network type is one of three all-good literals. -/
theorem network_type_tame {v : String}
    (h : NetworkConfig.validate_network_type v = none) :
    v.data.all charGood = true := by
  unfold NetworkConfig.validate_network_type at h
  split at h
  · rename_i hc
    simp only [Bool.or_eq_true, decide_eq_true_eq] at hc
    rcases hc with (h1 | h1) | h1 <;> (subst h1; decide)
  · exact Option.noConfusion h

/-- Every character of a string is a dot or belongs to one of its
dot-separated segments. -/
theorem splitDots_chars :
    ∀ (l : List Char) (x : Char), x ∈ l →
      x = '.' ∨ ∃ p ∈ splitDots l, x ∈ p := by
  intro l
  induction l with
  | nil => intro x hx; exact absurd hx (by simp)
  | cons c rest ih =>
    intro x hx
    rcases List.mem_cons.mp hx with hxc | hxr
    · by_cases hc : c = '.'
      · exact Or.inl (hxc.trans hc)
      · right
        rw [hxc]
        simp only [splitDots]
        rw [if_neg hc]
        rcases hsp : splitDots rest with _ | ⟨p, ps⟩
        · exact ⟨[c], by simp, by simp⟩
        · exact ⟨c :: p, by simp, by simp⟩
    · rcases ih x hxr with hdot | ⟨p, hp, hxp⟩
      · exact Or.inl hdot
      · right
        by_cases hc : c = '.'
        · refine ⟨p, ?_, hxp⟩
          simp only [splitDots]
          rw [if_pos hc]
          exact List.mem_cons_of_mem _ hp
        · simp only [splitDots]
          rw [if_neg hc]
          rcases hsp : splitDots rest with _ | ⟨q, qs⟩
          · rw [hsp] at hp
            exact absurd hp (by simp)
          · rw [hsp] at hp
            rcases List.mem_cons.mp hp with hpq | hpqs
            · subst hpq
              exact ⟨c :: p, by simp, List.mem_cons_of_mem _ hxp⟩
            · exact ⟨p, by simp [hpqs], hxp⟩

/-- Dotted-quad characters are tame. -/
theorem ipv4_tame {s : String} (h : ipv4Ok s = true) :
    s.data.all charTame = true := by
  unfold ipv4Ok at h
  simp only [Bool.and_eq_true, List.all_eq_true] at h
  obtain ⟨hlen, hparts⟩ := h
  rw [List.all_eq_true]
  intro x hx
  rcases splitDots_chars s.data x hx with hdot | ⟨p, hp, hxp⟩
  · subst hdot; decide
  · have ho := hparts p hp
    unfold octetOk at ho
    simp only [Bool.and_eq_true, List.all_eq_true] at ho
    exact charTame_of_class (p := Char.isDigit) (by decide) (ho.1.1.1.2 x hxp)

/-- Every character of a `key="value"` line with break-free key and value
is break-free. -/
theorem kvLine_lineFree {k v : String}
    (hk : ∀ x ∈ k.data, isLineBreak x = false)
    (hv : ∀ x ∈ v.data, isLineBreak x = false) :
    ∀ x ∈ kvLine k v, isLineBreak x = false := by
  intro x hx
  unfold kvLine at hx
  rcases List.mem_append.mp hx with h1 | h2
  · rcases List.mem_append.mp h1 with h3 | h4
    · exact hk x h3
    · rcases List.mem_cons.mp h4 with h5 | h6
      · subst h5; decide
      · rcases List.mem_cons.mp h6 with h7 | h8
        · subst h7; decide
        · exact hv x h8
  · have h9 : x = '"' := by simpa using h2
    subst h9; decide

/-- Membership in a conditional block of lines. -/
theorem mem_ite_nil {P : Prop} [Decidable P] {L : List (List Char)}
    {l : List Char} (h : l ∈ (if P then L else [])) : P ∧ l ∈ L := by
  by_cases hp : P
  · rw [if_pos hp] at h
    exact ⟨hp, h⟩
  · rw [if_neg hp] at h
    exact absurd h (by simp)

/-! ### Round-trip infrastructure: consequences of passed validation -/

/-- An `Option` with an empty `toList` is `none`. -/
theorem optToList_nil (o : Option String) : o.toList = [] ↔ o = none := by
  cases o <;> simp

/-- A passed drive validation means the path grammar matched. -/
theorem validate_drive_none {ex : String → Bool} {v : String}
    (h : SystemConfig.validate_drive ex v = none) :
    drivePathOkL v.data = true := by
  unfold SystemConfig.validate_drive at h
  cases hd : drivePathOkL v.data with
  | true => rfl
  | false =>
    rw [hd] at h
    exact Option.noConfusion h

/-- A passed locale validation means the locale grammar matched. -/
theorem validate_locale_none {v : String}
    (h : SystemConfig.validate_locale v = none) : localeOk v = true := by
  unfold SystemConfig.validate_locale at h
  cases hd : localeOk v with
  | true => rfl
  | false =>
    rw [hd] at h
    exact Option.noConfusion h

/-- A passed timezone validation means the timezone grammar matched. -/
theorem validate_timezone_none {v : String}
    (h : SystemConfig.validate_timezone v = none) :
    timezoneOk v.data = true := by
  unfold SystemConfig.validate_timezone at h
  cases hd : timezoneOk v.data with
  | true => rfl
  | false =>
    rw [hd] at h
    exact Option.noConfusion h

/-- A passed username validation means the username pattern matched and
the length cap held. -/
theorem validate_username_none {v : String}
    (h : SystemConfig.validate_username v = none) :
    usernamePatternOk v = true ∧ v.data.length ≤ 32 := by
  unfold SystemConfig.validate_username at h
  cases hd : usernamePatternOk v with
  | true =>
    refine ⟨rfl, ?_⟩
    rw [hd] at h
    by_cases hl : v.data.length > 32
    · rw [if_neg (by simp), if_pos hl] at h
      exact Option.noConfusion h
    · omega
  | false =>
    rw [hd] at h
    exact Option.noConfusion h

/-- A passed hostname validation means the hostname pattern matched and
the length cap held. -/
theorem validate_hostname_none {v : String}
    (h : SystemConfig.validate_hostname v = none) :
    hostnameOk v.data = true ∧ v.data.length ≤ 63 := by
  unfold SystemConfig.validate_hostname at h
  cases hd : hostnameOk v.data with
  | true =>
    refine ⟨rfl, ?_⟩
    rw [hd] at h
    by_cases hl : v.data.length > 63
    · rw [if_neg (by simp), if_pos hl] at h
      exact Option.noConfusion h
    · omega
  | false =>
    rw [hd] at h
    exact Option.noConfusion h

/-- A truthy optional string is a non-empty `some`. -/
theorem truthyOpt_some {o : Option String} (h : truthyOpt o = true) :
    ∃ s, o = some s ∧ s ≠ "" := by
  cases o with
  | none => exact Bool.noConfusion h
  | some s =>
    refine ⟨s, rfl, ?_⟩
    intro he
    subst he
    simp [truthyOpt] at h

/-- Under a static network type, a passed interface validation means a
non-empty interface value. -/
theorem validate_interface_none_static {v : Option String}
    (h : NetworkConfig.validate_interface (some "static") v = none) :
    ∃ s, v = some s ∧ s ≠ "" := by
  unfold NetworkConfig.validate_interface at h
  by_cases ht : truthyOpt v = true
  · exact truthyOpt_some ht
  · exfalso
    have ht2 : truthyOpt v = false := by
      revert ht; cases truthyOpt v <;> simp
    rw [ht2] at h
    simp at h

/-- Under a static network type, a passed IP validation means a
non-empty, syntactically valid IPv4 value. -/
theorem validate_ip_none_static {v : Option String}
    (h : NetworkConfig.validate_ip (some "static") v = none) :
    ∃ s, v = some s ∧ s ≠ "" ∧ ipv4Ok s = true := by
  obtain ⟨s, hv, hs⟩ : ∃ s, v = some s ∧ s ≠ "" := by
    unfold NetworkConfig.validate_ip at h
    by_cases ht : truthyOpt v = true
    · exact truthyOpt_some ht
    · exfalso
      have ht2 : truthyOpt v = false := by
        revert ht; cases truthyOpt v <;> simp
      rw [ht2] at h
      simp at h
  subst hv
  refine ⟨s, rfl, hs, ?_⟩
  by_cases hip : ipv4Ok s = true
  · exact hip
  · exfalso
    have hip2 : ipv4Ok s = false := by
      revert hip; cases ipv4Ok s <;> simp
    unfold NetworkConfig.validate_ip at h
    simp [truthyOpt, hs, hip2] at h

/-- Under a static network type, a passed gateway validation means a
non-empty, syntactically valid IPv4 value. -/
theorem validate_gateway_none_static {v : Option String}
    (h : NetworkConfig.validate_gateway (some "static") v = none) :
    ∃ s, v = some s ∧ s ≠ "" ∧ ipv4Ok s = true := by
  obtain ⟨s, hv, hs⟩ : ∃ s, v = some s ∧ s ≠ "" := by
    unfold NetworkConfig.validate_gateway at h
    by_cases ht : truthyOpt v = true
    · exact truthyOpt_some ht
    · exfalso
      have ht2 : truthyOpt v = false := by
        revert ht; cases truthyOpt v <;> simp
      rw [ht2] at h
      simp at h
  subst hv
  refine ⟨s, rfl, hs, ?_⟩
  by_cases hip : ipv4Ok s = true
  · exact hip
  · exfalso
    have hip2 : ipv4Ok s = false := by
      revert hip; cases ipv4Ok s <;> simp
    unfold NetworkConfig.validate_gateway at h
    simp [truthyOpt, hs, hip2] at h

/-- The interface validator accepts any non-empty value. -/
theorem validate_interface_some {nt : Option String} {s : String}
    (hs : s ≠ "") : NetworkConfig.validate_interface nt (some s) = none := by
  unfold NetworkConfig.validate_interface
  simp [truthyOpt, hs]

/-- The IP validator accepts any non-empty valid IPv4 value. -/
theorem validate_ip_some_ok {nt : Option String} {s : String}
    (hs : s ≠ "") (hip : ipv4Ok s = true) :
    NetworkConfig.validate_ip nt (some s) = none := by
  unfold NetworkConfig.validate_ip
  simp [truthyOpt, hs, hip]

/-- The gateway validator accepts any non-empty valid IPv4 value. -/
theorem validate_gateway_some_ok {nt : Option String} {s : String}
    (hs : s ≠ "") (hip : ipv4Ok s = true) :
    NetworkConfig.validate_gateway nt (some s) = none := by
  unfold NetworkConfig.validate_gateway
  simp [truthyOpt, hs, hip]

/-- The interface validator accepts an absent value off static mode. -/
theorem validate_interface_none_arg {nt : Option String}
    (h : nt ≠ some "static") :
    NetworkConfig.validate_interface nt none = none := by
  unfold NetworkConfig.validate_interface
  simp [truthyOpt, h]

/-- The IP validator accepts an absent value off static mode. -/
theorem validate_ip_none_arg {nt : Option String} (h : nt ≠ some "static") :
    NetworkConfig.validate_ip nt none = none := by
  unfold NetworkConfig.validate_ip
  simp [truthyOpt, h]

/-- The gateway validator accepts an absent value off static mode. -/
theorem validate_gateway_none_arg {nt : Option String}
    (h : nt ≠ some "static") :
    NetworkConfig.validate_gateway nt none = none := by
  unfold NetworkConfig.validate_gateway
  simp [truthyOpt, h]

/-- A fully passed `SystemConfig` validation passes every individual
validator. -/
theorem systemConfigErrors_nil_parts {ex : String → Bool} {c : SystemConfig}
    (h : systemConfigErrors ex c = []) :
    SystemConfig.validate_drive ex c.target_drive = none ∧
    SystemConfig.validate_locale c.locale = none ∧
    SystemConfig.validate_timezone c.timezone = none ∧
    SystemConfig.validate_username c.username = none ∧
    SystemConfig.validate_hostname c.hostname = none ∧
    NetworkConfig.validate_network_type c.network.network_type = none ∧
    NetworkConfig.validate_interface (some c.network.network_type)
      c.network.interface = none ∧
    NetworkConfig.validate_ip (some c.network.network_type)
      c.network.ip_address = none ∧
    NetworkConfig.validate_gateway (some c.network.network_type)
      c.network.gateway = none := by
  unfold systemConfigErrors networkConfigErrors at h
  rcases hnt : NetworkConfig.validate_network_type c.network.network_type
    with _ | e
  · rw [hnt] at h
    simp only [Option.isSome_none, Bool.false_eq_true, if_false,
      Option.toList_none, List.append_nil, List.nil_append,
      List.append_eq_nil, optToList_nil] at h
    obtain ⟨⟨⟨⟨⟨h1, h2⟩, h3⟩, h4⟩, h5⟩, ⟨h7, h8⟩, h9⟩ := h
    exact ⟨h1, h2, h3, h4, h5, rfl, h7, h8, h9⟩
  · rw [hnt] at h
    simp at h

/-! ### Round-trip infrastructure: the line loop on concrete keys -/

/-- The line loop skips a line whose condition fails. -/
theorem parseLine_skip (d : List (String × String)) (line : List Char)
    (h : ((pyStrip line).contains '=' && !startsWithHash (pyStrip line))
      = false) : parseLine d line = d := by
  unfold parseLine
  rw [h]
  rfl

/-- The line loop skips the file's header comment. -/
theorem parseLine_header1 (d : List (String × String)) :
    parseLine d ("# KDE Neon Installation Configuration".data) = d :=
  parseLine_skip d _ (by decide)

/-- The line loop skips the network-section comment. -/
theorem parseLine_header2 (d : List (String × String)) :
    parseLine d ("# Network Configuration".data) = d :=
  parseLine_skip d _ (by decide)

/-- The line loop skips a blank line. -/
theorem parseLine_blank (d : List (String × String)) :
    parseLine d [] = d :=
  parseLine_skip d _ (by decide)

/-- Decidable form of the key-head side condition of `parseLine_kv`. -/
theorem keyHeadOk {k : String}
    (hk : (match k.data.head? with
           | some y => decide (y ≠ '#') && !pyIsSpace y
           | none => true) = true) :
    ∀ y, k.data.head? = some y → y ≠ '#' ∧ pyIsSpace y = false := by
  intro y hy
  rw [hy] at hk
  simp only [Bool.and_eq_true, decide_eq_true_eq, Bool.not_eq_true'] at hk
  exact hk

/-- The line loop on a `target_drive` line. -/
theorem parseLine_kv_target_drive (d : List (String × String)) (v : String) :
    parseLine d (kvLine "target_drive" v)
      = pyDictSet d "target_drive" (stripQuotes v.data).asString :=
  parseLine_kv d _ v (by decide) (by decide) (keyHeadOk (by decide))

/-- The line loop on a `locale` line. -/
theorem parseLine_kv_locale (d : List (String × String)) (v : String) :
    parseLine d (kvLine "locale" v)
      = pyDictSet d "locale" (stripQuotes v.data).asString :=
  parseLine_kv d _ v (by decide) (by decide) (keyHeadOk (by decide))

/-- The line loop on a `timezone` line. -/
theorem parseLine_kv_timezone (d : List (String × String)) (v : String) :
    parseLine d (kvLine "timezone" v)
      = pyDictSet d "timezone" (stripQuotes v.data).asString :=
  parseLine_kv d _ v (by decide) (by decide) (keyHeadOk (by decide))

/-- The line loop on a `username` line. -/
theorem parseLine_kv_username (d : List (String × String)) (v : String) :
    parseLine d (kvLine "username" v)
      = pyDictSet d "username" (stripQuotes v.data).asString :=
  parseLine_kv d _ v (by decide) (by decide) (keyHeadOk (by decide))

/-- The line loop on a `hostname` line. -/
theorem parseLine_kv_hostname (d : List (String × String)) (v : String) :
    parseLine d (kvLine "hostname" v)
      = pyDictSet d "hostname" (stripQuotes v.data).asString :=
  parseLine_kv d _ v (by decide) (by decide) (keyHeadOk (by decide))

/-- The line loop on a `swap_size` line. -/
theorem parseLine_kv_swap_size (d : List (String × String)) (v : String) :
    parseLine d (kvLine "swap_size" v)
      = pyDictSet d "swap_size" (stripQuotes v.data).asString :=
  parseLine_kv d _ v (by decide) (by decide) (keyHeadOk (by decide))

/-- The line loop on a `filesystem` line. -/
theorem parseLine_kv_filesystem (d : List (String × String)) (v : String) :
    parseLine d (kvLine "filesystem" v)
      = pyDictSet d "filesystem" (stripQuotes v.data).asString :=
  parseLine_kv d _ v (by decide) (by decide) (keyHeadOk (by decide))

/-- The line loop on a `network_config` line. -/
theorem parseLine_kv_network_config (d : List (String × String)) (v : String) :
    parseLine d (kvLine "network_config" v)
      = pyDictSet d "network_config" (stripQuotes v.data).asString :=
  parseLine_kv d _ v (by decide) (by decide) (keyHeadOk (by decide))

/-- The line loop on a `static_iface` line. -/
theorem parseLine_kv_static_iface (d : List (String × String)) (v : String) :
    parseLine d (kvLine "static_iface" v)
      = pyDictSet d "static_iface" (stripQuotes v.data).asString :=
  parseLine_kv d _ v (by decide) (by decide) (keyHeadOk (by decide))

/-- The line loop on a `static_ip` line. -/
theorem parseLine_kv_static_ip (d : List (String × String)) (v : String) :
    parseLine d (kvLine "static_ip" v)
      = pyDictSet d "static_ip" (stripQuotes v.data).asString :=
  parseLine_kv d _ v (by decide) (by decide) (keyHeadOk (by decide))

/-- The line loop on a `static_netmask` line. -/
theorem parseLine_kv_static_netmask (d : List (String × String)) (v : String) :
    parseLine d (kvLine "static_netmask" v)
      = pyDictSet d "static_netmask" (stripQuotes v.data).asString :=
  parseLine_kv d _ v (by decide) (by decide) (keyHeadOk (by decide))

/-- The line loop on a `static_gateway` line. -/
theorem parseLine_kv_static_gateway (d : List (String × String)) (v : String) :
    parseLine d (kvLine "static_gateway" v)
      = pyDictSet d "static_gateway" (stripQuotes v.data).asString :=
  parseLine_kv d _ v (by decide) (by decide) (keyHeadOk (by decide))

/-- The line loop on a `static_dns` line. -/
theorem parseLine_kv_static_dns (d : List (String × String)) (v : String) :
    parseLine d (kvLine "static_dns" v)
      = pyDictSet d "static_dns" (stripQuotes v.data).asString :=
  parseLine_kv d _ v (by decide) (by decide) (keyHeadOk (by decide))

/-- The line loop on a `static_domain_search` line. -/
theorem parseLine_kv_static_domain_search (d : List (String × String))
    (v : String) :
    parseLine d (kvLine "static_domain_search" v)
      = pyDictSet d "static_domain_search" (stripQuotes v.data).asString :=
  parseLine_kv d _ v (by decide) (by decide) (keyHeadOk (by decide))

/-- The line loop on a `static_dns_suffix` line. -/
theorem parseLine_kv_static_dns_suffix (d : List (String × String))
    (v : String) :
    parseLine d (kvLine "static_dns_suffix" v)
      = pyDictSet d "static_dns_suffix" (stripQuotes v.data).asString :=
  parseLine_kv d _ v (by decide) (by decide) (keyHeadOk (by decide))

/-- The extra premises of the round trip.  The values `save_config`
writes without any validator guarding them (`swap_size`, `filesystem`
and, in a static configuration, the netmask/DNS/interface values and the
optional `domain_search`/`dns_suffix` values) must be free of line
boundaries, the interface value must not consist of quotes only -- and
`target_drive` must be free of line boundaries as well: its regex would
tolerate one trailing newline, but the `Path.exists` oracle is consulted
on the exact string, so a newline-suffixed drive path that exists would
re-parse to a chopped path the oracle may reject. -/
def freeFieldsOk (c : SystemConfig) : Bool :=
  lineFree c.target_drive.data &&
  lineFree c.swap_size.data && lineFree c.filesystem.data &&
    (c.network.network_type != "static" ||
      (lineFree (pyStr c.network.interface).data &&
        !(stripQuotes (pyStr c.network.interface).data).isEmpty &&
        lineFree (pyStr c.network.netmask).data &&
        lineFree (pyStr c.network.dns_servers).data)) &&
    (!truthyOpt c.network.domain_search ||
      lineFree (pyStr c.network.domain_search).data) &&
    (!truthyOpt c.network.dns_suffix ||
      lineFree (pyStr c.network.dns_suffix).data)

/-! ### Round-trip infrastructure: lines whose value ends in a newline -/

/-- Members of an all-good list are not line boundaries. -/
theorem good_mem_break {l : List Char} (h : l.all charGood = true) :
    ∀ x ∈ l, isLineBreak x = false := fun x hx =>
  charTame_break (charGood_tame (List.all_eq_true.mp h x hx))

/-- `chopNl` is the identity on a break-free list. -/
theorem chopNl_of_break_free {l : List Char}
    (h : ∀ x ∈ l, isLineBreak x = false) : chopNl l = l := by
  apply chopNl_of_getLast_ne
  intro he
  have hb := h '\n' (mem_of_getLast? he)
  exact Bool.noConfusion hb

/-- `chopNl` is idempotent: a chopped all-good list is already chopped. -/
theorem chopNl_of_good {l : List Char} (h : l.all charGood = true) :
    chopNl l = l := chopNl_of_break_free (good_mem_break h)

/-- A break-free list does not contain a newline. -/
theorem contains_nl_false {l : List Char}
    (h : ∀ x ∈ l, isLineBreak x = false) : l.contains '\n' = false := by
  cases hc : l.contains '\n' with
  | false => rfl
  | true =>
    exfalso
    have hm : '\n' ∈ l := by simpa using hc
    have hb := h '\n' hm
    exact Bool.noConfusion hb

/-- The physical lines a logical output line becomes after the file is
split again: a line whose value carried a trailing newline breaks into
its prefix and a lone closing-quote line. -/
def physOf (l : List Char) : List (List Char) :=
  if l.contains '\n' then
    [l.takeWhile (fun c => c != '\n'),
     (l.dropWhile (fun c => c != '\n')).drop 1]
  else [l]

/-- A newline-free line stays one physical line. -/
theorem physOf_nonl {l : List Char} (h : l.contains '\n' = false) :
    physOf l = [l] := by
  unfold physOf
  rw [h]
  rfl

/-- The line loop on a newline-free physical expansion. -/
theorem foldl_physOf_nonl (d : List (String × String)) (l : List Char)
    (h : l.contains '\n' = false) :
    List.foldl parseLine d (physOf l) = parseLine d l := by
  rw [physOf_nonl h]
  rfl

/-- The line loop skips a lone closing-quote line. -/
theorem parseLine_quote (d : List (String × String)) :
    parseLine d ['"'] = d :=
  parseLine_skip d _ (by decide)

/-- `splitlines` of newline-joined lines, where each line is break-free
or carries exactly one newline before a final quote, is the
concatenation of the physical expansions. -/
theorem pySplitlines_concat2 (lines : List (List Char))
    (h : ∀ l ∈ lines, (∀ x ∈ l, isLineBreak x = false) ∨
      ∃ A, l = A ++ '\n' :: ['"'] ∧ ∀ x ∈ A, isLineBreak x = false) :
    pySplitlines (lines.foldr (fun l acc => l ++ '\n' :: acc) [])
      = lines.flatMap physOf := by
  induction lines with
  | nil => simp [pySplitlines, splitlinesAux]
  | cons l t ih =>
    rw [List.foldr_cons, List.flatMap_cons]
    have ih2 := ih (fun l2 h2 => h l2 (List.mem_cons_of_mem _ h2))
    unfold pySplitlines at ih2
    rcases h l (List.mem_cons_self _ _) with hbf | ⟨A, hA, hAbf⟩
    · unfold pySplitlines
      rw [splitlinesAux_line l _ [] hbf]
      rw [List.reverse_nil, List.nil_append, ih2,
        physOf_nonl (contains_nl_false hbf), List.singleton_append]
    · subst hA
      have hsplit := takeWhile_append_stop (p := fun c => c != '\n') A
        ('\n' :: ['"'])
        (fun x hx => by
          have hb := hAbf x hx
          have hxn : ¬ x = '\n' := by
            intro he
            rw [he] at hb
            exact Bool.noConfusion hb
          simpa using hxn)
        (by intro y hy; injection hy with hy; rw [← hy]; decide)
      have hcont : (A ++ '\n' :: ['"']).contains '\n' = true := by
        simp
      have hphys : physOf (A ++ '\n' :: ['"']) = [A, ['"']] := by
        unfold physOf
        rw [hcont, if_pos rfl, hsplit.1, hsplit.2]
        rfl
      unfold pySplitlines
      rw [show (A ++ '\n' :: ['"']) ++ '\n'
            :: (t.foldr (fun l acc => l ++ '\n' :: acc) [])
          = A ++ '\n' :: ('"' :: '\n'
            :: (t.foldr (fun l acc => l ++ '\n' :: acc) [])) from by
        simp [List.append_assoc]]
      rw [splitlinesAux_line A _ [] hAbf]
      rw [List.reverse_nil, List.nil_append]
      rw [splitlinesAux_cons_nonbreak '"' _ _ (by decide)]
      rw [splitlinesAux_newline]
      rw [ih2, hphys]
      rfl

/-- The line loop over concatenated physical expansions is the loop over
logical lines, each processed through its own expansion. -/
theorem foldl_parseLine_bind :
    ∀ (lines : List (List Char)) (d : List (String × String)),
      List.foldl parseLine d (lines.flatMap physOf)
        = lines.foldl (fun d2 l => List.foldl parseLine d2 (physOf l)) d := by
  intro lines
  induction lines with
  | nil => intro d; rfl
  | cons l t ih =>
    intro d
    rw [List.flatMap_cons, List.foldl_append, List.foldl_cons, ih]

/-- The line loop on the opening half of a `key="value` line whose
closing quote moved to the next physical line: it stores the
quote-stripped value prefix under the key. -/
theorem parseLine_kv_open (d : List (String × String)) (k : String)
    (w : List Char)
    (hkne : k.data ≠ [])
    (hknoeq : ∀ x ∈ k.data, (x != '=') = true)
    (hkhead : ∀ y, k.data.head? = some y → y ≠ '#' ∧ pyIsSpace y = false)
    (hwne : w ≠ [])
    (hwlast : ∀ y, w.getLast? = some y → pyIsSpace y = false) :
    parseLine d (k.data ++ '=' :: '"' :: w)
      = pyDictSet d k (stripQuotes w).asString := by
  obtain ⟨c0, k1, hk⟩ : ∃ c0 k1, k.data = c0 :: k1 := by
    cases hkd : k.data with
    | nil => exact absurd hkd hkne
    | cons a b => exact ⟨a, b, rfl⟩
  have hc0 := hkhead c0 (by rw [hk]; rfl)
  have hhead : (k.data ++ '=' :: '"' :: w).head? = some c0 := by
    rw [hk, List.cons_append]
    rfl
  have htail : ('=' :: '"' :: w).getLast? = w.getLast? := by
    cases w with
    | nil => exact absurd rfl hwne
    | cons a t => rw [List.getLast?_cons_cons, List.getLast?_cons_cons]
  have hlast : (k.data ++ '=' :: '"' :: w).getLast? = w.getLast? := by
    rw [List.getLast?_append, htail]
    cases hw : w.getLast? with
    | none =>
      exfalso
      exact hwne (by simpa using hw)
    | some a => rfl
  have hstrip : pyStrip (k.data ++ '=' :: '"' :: w)
      = k.data ++ '=' :: '"' :: w := by
    apply pyStrip_eq_self
    · intro y hy
      rw [hhead] at hy
      injection hy with hy
      rw [← hy]
      exact hc0.2
    · intro y hy
      rw [hlast] at hy
      exact hwlast y hy
  have hcontains : (k.data ++ '=' :: '"' :: w).contains '=' = true := by
    simp
  have hhash : startsWithHash (k.data ++ '=' :: '"' :: w) = false := by
    unfold startsWithHash
    rw [hhead]
    simp [hc0.1]
  have hsplit := takeWhile_append_stop (p := fun c => c != '=') k.data
    ('=' :: '"' :: w) hknoeq
    (by intro y hy; injection hy with hy; rw [← hy]; simp)
  unfold parseLine
  rw [hstrip, if_pos (by rw [hcontains, hhash]; rfl)]
  rw [hsplit.1, hsplit.2]
  rw [show List.drop 1 ('=' :: '"' :: w) = '"' :: w from rfl]
  rw [stripQuotes_cons_quote, dataAsString]

/-- A `key="value"` line with a break-free key and a value that is
all-good up to an optional trailing newline is break-free, or breaks as
a prefix plus a lone closing quote. -/
theorem kvLine_phys_cases {k v : String}
    (hkbf : ∀ x ∈ k.data, isLineBreak x = false)
    (hw : (chopNl v.data).all charGood = true) :
    (∀ x ∈ kvLine k v, isLineBreak x = false) ∨
    ∃ A, kvLine k v = A ++ '\n' :: ['"'] ∧
      ∀ x ∈ A, isLineBreak x = false := by
  rcases chopNl_cases v.data with hc | hc
  · left
    exact kvLine_lineFree hkbf
      (tame_mem_break (by rw [hc]; exact all_good_tame hw))
  · right
    refine ⟨k.data ++ '=' :: '"' :: chopNl v.data, ?_, ?_⟩
    · unfold kvLine
      rw [hc]
      simp [List.append_assoc, chopNl_append_nl]
    · intro x hx
      rcases List.mem_append.mp hx with h1 | h2
      · exact hkbf x h1
      · rcases List.mem_cons.mp h2 with h3 | h4
        · subst h3; decide
        · rcases List.mem_cons.mp h4 with h5 | h6
          · subst h5; decide
          · exact charTame_break (charGood_tame
              (List.all_eq_true.mp hw x h6))

/-- The physical expansion of a `key="value"` line whose value is
all-good up to an optional trailing newline parses to one insertion of
the chopped value under the key. -/
theorem foldl_physOf_kv_good (d : List (String × String)) (k v : String)
    (hkne : k.data ≠ [])
    (hknoeq : ∀ x ∈ k.data, (x != '=') = true)
    (hkhead : ∀ y, k.data.head? = some y → y ≠ '#' ∧ pyIsSpace y = false)
    (hkbf : ∀ x ∈ k.data, isLineBreak x = false)
    (hw : (chopNl v.data).all charGood = true)
    (hwne : chopNl v.data ≠ []) :
    List.foldl parseLine d (physOf (kvLine k v))
      = pyDictSet d k (chopNl v.data).asString := by
  rcases chopNl_cases v.data with hcase | hcase
  · have hvt : v.data.all charTame = true := by
      rw [hcase]
      exact all_good_tame hw
    have hnl : (kvLine k v).contains '\n' = false :=
      contains_nl_false (kvLine_lineFree hkbf (tame_mem_break hvt))
    rw [foldl_physOf_nonl d _ hnl, parseLine_kv d k v hkne hknoeq hkhead]
    rw [stripQuotes_eq_self_of_tame hvt, ← hcase]
  · have hAbf : ∀ x ∈ (k.data ++ '=' :: '"' :: chopNl v.data),
        isLineBreak x = false := by
      intro x hx
      rcases List.mem_append.mp hx with h1 | h2
      · exact hkbf x h1
      · rcases List.mem_cons.mp h2 with h3 | h4
        · subst h3; decide
        · rcases List.mem_cons.mp h4 with h5 | h6
          · subst h5; decide
          · exact charTame_break (charGood_tame
              (List.all_eq_true.mp hw x h6))
    have hkv : kvLine k v = (k.data ++ '=' :: '"' :: chopNl v.data)
        ++ '\n' :: ['"'] := by
      unfold kvLine
      rw [hcase]
      simp [List.append_assoc, chopNl_append_nl]
    have hcont : (kvLine k v).contains '\n' = true := by
      rw [hkv]
      simp
    have hsplit := takeWhile_append_stop (p := fun c => c != '\n')
      (k.data ++ '=' :: '"' :: chopNl v.data) ('\n' :: ['"'])
      (fun x hx => by
        have hb := hAbf x hx
        have hxn : ¬ x = '\n' := by
          intro he
          rw [he] at hb
          exact Bool.noConfusion hb
        simpa using hxn)
      (by intro y hy; injection hy with hy; rw [← hy]; decide)
    have hphys : physOf (kvLine k v)
        = [k.data ++ '=' :: '"' :: chopNl v.data, ['"']] := by
      unfold physOf
      rw [hcont, if_pos rfl, hkv, hsplit.1, hsplit.2]
      rfl
    rw [hphys]
    rw [show List.foldl parseLine d
          [k.data ++ '=' :: '"' :: chopNl v.data, ['"']]
        = parseLine (parseLine d (k.data ++ '=' :: '"' :: chopNl v.data))
          ['"'] from rfl]
    rw [parseLine_quote]
    rw [parseLine_kv_open d k (chopNl v.data) hkne hknoeq hkhead hwne
      (fun y hy => charGood_space
        (List.all_eq_true.mp hw y (mem_of_getLast? hy)))]
    rw [stripQuotes_eq_self_of_tame (all_good_tame hw)]

/-- A locale accepted once is accepted after its trailing newline is
chopped. -/
theorem validate_locale_chop {v : String}
    (h : SystemConfig.validate_locale v = none) :
    SystemConfig.validate_locale (chopNl v.data).asString = none := by
  have hok := validate_locale_none h
  have hid : chopNl (chopNl v.data) = chopNl v.data :=
    chopNl_of_good (locale_tame hok)
  have hok2 : localeOk ((chopNl v.data).asString) = true := by
    unfold localeOk at hok ⊢
    rw [asString_data, hid]
    exact hok
  simp [SystemConfig.validate_locale, hok2]

/-- A timezone accepted once is accepted after its trailing newline is
chopped. -/
theorem validate_timezone_chop {v : String}
    (h : SystemConfig.validate_timezone v = none) :
    SystemConfig.validate_timezone (chopNl v.data).asString = none := by
  have hok := validate_timezone_none h
  have hid : chopNl (chopNl v.data) = chopNl v.data :=
    chopNl_of_good (timezone_tame hok)
  have hok2 : timezoneOk ((chopNl v.data).asString).data = true := by
    rw [asString_data]
    unfold timezoneOk at hok ⊢
    rw [hid]
    exact hok
  simp [SystemConfig.validate_timezone, hok2]

/-- A username accepted once is accepted after its trailing newline is
chopped. -/
theorem validate_username_chop {v : String}
    (h : SystemConfig.validate_username v = none) :
    SystemConfig.validate_username (chopNl v.data).asString = none := by
  obtain ⟨hok, hlen⟩ := validate_username_none h
  have hid : chopNl (chopNl v.data) = chopNl v.data :=
    chopNl_of_good (username_tame hok)
  have hok2 : usernamePatternOk ((chopNl v.data).asString) = true := by
    unfold usernamePatternOk at hok ⊢
    rw [asString_data, hid]
    exact hok
  have hle := chopNl_length_le v.data
  simp [SystemConfig.validate_username, hok2]
  omega

/-- A hostname accepted once is accepted after its trailing newline is
chopped. -/
theorem validate_hostname_chop {v : String}
    (h : SystemConfig.validate_hostname v = none) :
    SystemConfig.validate_hostname (chopNl v.data).asString = none := by
  obtain ⟨hok, hlen⟩ := validate_hostname_none h
  have hid : chopNl (chopNl v.data) = chopNl v.data :=
    chopNl_of_good (host_tame hok)
  have hok2 : hostnameOk ((chopNl v.data).asString).data = true := by
    rw [asString_data]
    unfold hostnameOk at hok ⊢
    rw [hid]
    exact hok
  have hle := chopNl_length_le v.data
  simp [SystemConfig.validate_hostname, hok2]
  omega

/-! ### C7: hostname validation -/

/-- Counterexample for C7 as stated: `bad_host` contains `_`, which is
neither a letter, a digit nor a hyphen, yet `validate_config_file` of
`config_simple.py` returns no error at all for a mapping carrying it --
the simple validator has no hostname format or length rule. -/
theorem c7_counterexample :
    ('_' ∈ ("bad_host" : String).data ∧ hostChar '_' = false ∧
      ¬ ("bad_host" : String).data.length > 63) ∧
    validate_config_file
      [("target_drive", "/dev/nvme0n1"), ("username", "testuser"),
       ("hostname", "bad_host"), ("network_config", "dhcp")] = [] :=
  ⟨by decide, by decide⟩

/-- C7 (amended).  The hostname rule holds for
`SystemConfig.validate_hostname` of `config_poc.py`: any hostname with a
character outside letters, digits and hyphens anywhere before its
optional single trailing newline (which the regex anchor `$` tolerates),
or longer than 63 characters, is rejected.  (`validate_config_file` of
`config_simple.py` checks only that a hostname is present -- see the
counterexample.) -/
theorem c7_hostname_validator (v : String)
    (h : (∃ x ∈ chopNl v.data, hostChar x = false) ∨ v.data.length > 63) :
    (SystemConfig.validate_hostname v).isSome = true := by
  unfold SystemConfig.validate_hostname
  cases hok : hostnameOk v.data with
  | false => simp
  | true =>
    rcases h with ⟨x, hx, hxf⟩ | hlen
    · exfalso
      unfold hostnameOk at hok
      simp only [Bool.and_eq_true, List.all_eq_true] at hok
      rw [hok.2 x hx] at hxf
      exact Bool.noConfusion hxf
    · rw [if_pos hlen]
      rfl

/-- Witness for C7 (amended) at the same hostname: `bad_host` is
rejected by the pydantic hostname validator. -/
theorem c7_hostname_validator_witness :
    (SystemConfig.validate_hostname "bad_host").isSome = true :=
  c7_hostname_validator "bad_host" (Or.inl ⟨'_', by decide, by decide⟩)

/-- The underscore of `bad_host` survives the trailing-newline chop, so
the amended hypothesis is inhabited -- and the pydantic validator indeed
also accepts a class-clean hostname with one trailing newline, which the
original claim wording ruled out. -/
theorem c7_hostname_newline_note :
    ('_' ∈ chopNl ("bad_host" : String).data) ∧
    SystemConfig.validate_hostname "kde-box\n" = none := ⟨by decide, by decide⟩

/-- C8 (amended).  For every configuration validating with zero errors
whose validator-free values (`swap_size`, `filesystem` and, when
written, the static netmask/DNS/interface and the `domain_search` /
`dns_suffix` values) contain no line-boundary characters, whose
interface value does not strip to nothing, and whose `target_drive`
contains no line boundary (the regex would tolerate one trailing
newline, but the existence oracle is consulted on the exact string):
serializing with `save_config` and re-parsing with
`_parse_shell_config` yields a configuration that again validates with
zero errors, and the serialized file carries exactly the documented key
set -- the `static_*` network keys only when `network_type` is
`static`, and the `domain_search` / `dns_suffix` keys only when those
values are truthy.  The validated locale, timezone, username and
hostname may end in a single trailing newline, which the round trip
silently chops. -/
theorem c8_round_trip (ex : String → Bool) (c : SystemConfig)
    (hvalid : systemConfigErrors ex c = [])
    (hfree : freeFieldsOk c = true) :
    systemConfigErrors ex (parse_shell_config (save_config c)) = [] ∧
    (parseShellLines (pySplitlines (save_config c))).map Prod.fst =
      ["target_drive", "locale", "timezone", "username", "hostname",
       "swap_size", "filesystem", "network_config"]
      ++ (if c.network.network_type = "static" then
          ["static_iface", "static_ip", "static_netmask", "static_gateway",
           "static_dns"] else [])
      ++ (if truthyOpt c.network.domain_search then ["static_domain_search"]
          else [])
      ++ (if truthyOpt c.network.dns_suffix then ["static_dns_suffix"]
          else []) := by
  obtain ⟨hdrv, hloc, htz, husr, hhost, hnt, hintf, hip, hgw⟩ :=
    systemConfigErrors_nil_parts hvalid
  have locG := locale_tame (validate_locale_none hloc)
  have tzG := timezone_tame (validate_timezone_none htz)
  have usrG := username_tame (validate_username_none husr).1
  have hostG := host_tame (validate_hostname_none hhost).1
  have ntG := network_type_tame hnt
  have ntT : c.network.network_type.data.all charTame = true :=
    all_good_tame ntG
  unfold freeFieldsOk at hfree
  simp only [Bool.and_eq_true, Bool.or_eq_true, Bool.not_eq_true',
    bne_iff_ne, ne_eq] at hfree
  obtain ⟨⟨⟨⟨⟨htdF, hswF⟩, hfsF⟩, hstF⟩, hdsF⟩, hsfF⟩ := hfree
  have tdT : c.target_drive.data.all charTame = true := by
    have hG := drive_tame (validate_drive_none hdrv)
    rw [chopNl_of_break_free (lineFree_mem htdF)] at hG
    exact all_good_tame hG
  have locNe : chopNl c.locale.data ≠ [] := by
    have hok := validate_locale_none hloc
    unfold localeOk at hok
    intro he
    rw [he] at hok
    exact Bool.noConfusion hok
  have tzNe : chopNl c.timezone.data ≠ [] := by
    have hok := validate_timezone_none htz
    unfold timezoneOk at hok
    intro he
    rw [he] at hok
    exact Bool.noConfusion hok
  have usrNe : chopNl c.username.data ≠ [] := by
    have hok := (validate_username_none husr).1
    unfold usernamePatternOk at hok
    intro he
    rw [he] at hok
    exact Bool.noConfusion hok
  have hostNe : chopNl c.hostname.data ≠ [] := by
    have hok := (validate_hostname_none hhost).1
    unfold hostnameOk at hok
    simp only [Bool.and_eq_true] at hok
    intro he
    have h1 := hok.1
    rw [he] at h1
    exact Bool.noConfusion h1
  have hAll2 : ∀ l ∈ saveLines c, (∀ x ∈ l, isLineBreak x = false) ∨
      ∃ A, l = A ++ '\n' :: ['"'] ∧ ∀ x ∈ A, isLineBreak x = false := by
    intro l hl
    unfold saveLines at hl
    rcases List.mem_append.mp hl with h12 | h3
    · rcases List.mem_append.mp h12 with h11 | h2
      · rcases List.mem_append.mp h11 with h0 | h1
        · simp only [List.mem_cons, List.not_mem_nil, or_false] at h0
          rcases h0 with e|e|e|e|e|e|e|e|e|e|e
          · subst e
            exact Or.inl (by decide)
          · subst e
            exact Or.inl (kvLine_lineFree (by decide) (tame_mem_break tdT))
          · subst e
            exact kvLine_phys_cases (by decide) locG
          · subst e
            exact kvLine_phys_cases (by decide) tzG
          · subst e
            exact kvLine_phys_cases (by decide) usrG
          · subst e
            exact kvLine_phys_cases (by decide) hostG
          · subst e
            exact Or.inl (kvLine_lineFree (by decide) (lineFree_mem hswF))
          · subst e
            exact Or.inl (kvLine_lineFree (by decide) (lineFree_mem hfsF))
          · subst e
            exact Or.inl (by decide)
          · subst e
            exact Or.inl (by decide)
          · subst e
            exact Or.inl (kvLine_lineFree (by decide) (tame_mem_break ntT))
        · obtain ⟨hp, hmem⟩ := mem_ite_nil h1
          have hstat : lineFree (pyStr c.network.interface).data = true ∧
              (stripQuotes (pyStr c.network.interface).data).isEmpty
                = false ∧
              lineFree (pyStr c.network.netmask).data = true ∧
              lineFree (pyStr c.network.dns_servers).data = true := by
            rcases hstF with hne | hok
            · exact absurd hp hne
            · exact ⟨hok.1.1.1, hok.1.1.2, hok.1.2, hok.2⟩
          have hip2 := hip
          rw [hp] at hip2
          obtain ⟨sip, hipEq, hipNe, hipOk⟩ := validate_ip_none_static hip2
          have hgw2 := hgw
          rw [hp] at hgw2
          obtain ⟨sgw, hgwEq, hgwNe, hgwOk⟩ :=
            validate_gateway_none_static hgw2
          simp only [List.mem_cons, List.not_mem_nil, or_false] at hmem
          rcases hmem with e|e|e|e|e
          · subst e
            exact Or.inl (kvLine_lineFree (by decide) (lineFree_mem hstat.1))
          · subst e
            rw [hipEq]
            exact Or.inl (kvLine_lineFree (by decide)
              (tame_mem_break (ipv4_tame hipOk)))
          · subst e
            exact Or.inl (kvLine_lineFree (by decide)
              (lineFree_mem hstat.2.2.1))
          · subst e
            rw [hgwEq]
            exact Or.inl (kvLine_lineFree (by decide)
              (tame_mem_break (ipv4_tame hgwOk)))
          · subst e
            exact Or.inl (kvLine_lineFree (by decide)
              (lineFree_mem hstat.2.2.2))
      · obtain ⟨hp, hmem⟩ := mem_ite_nil h2
        have hdsL : lineFree (pyStr c.network.domain_search).data
            = true := by
          rcases hdsF with hfa | hok
          · rw [hp] at hfa
            exact Bool.noConfusion hfa
          · exact hok
        simp only [List.mem_singleton] at hmem
        subst hmem
        exact Or.inl (kvLine_lineFree (by decide) (lineFree_mem hdsL))
    · obtain ⟨hp, hmem⟩ := mem_ite_nil h3
      have hsfL : lineFree (pyStr c.network.dns_suffix).data = true := by
        rcases hsfF with hfa | hok
        · rw [hp] at hfa
          exact Bool.noConfusion hfa
        · exact hok
      simp only [List.mem_singleton] at hmem
      subst hmem
      exact Or.inl (kvLine_lineFree (by decide) (lineFree_mem hsfL))
  have hsplit2 : pySplitlines (save_config c)
      = (saveLines c).flatMap physOf := by
    unfold save_config
    exact pySplitlines_concat2 (saveLines c) hAll2
  have sH1 : ∀ d : List (String × String),
      List.foldl parseLine d
        (physOf ("# KDE Neon Installation Configuration".data)) = d := by
    intro d
    rw [foldl_physOf_nonl d _ (by decide), parseLine_header1]
  have sH2 : ∀ d : List (String × String),
      List.foldl parseLine d
        (physOf ("# Network Configuration".data)) = d := by
    intro d
    rw [foldl_physOf_nonl d _ (by decide), parseLine_header2]
  have sBlank : ∀ d : List (String × String),
      List.foldl parseLine d (physOf ([] : List Char)) = d := by
    intro d
    rw [foldl_physOf_nonl d _ (by decide), parseLine_blank]
  have sTd : ∀ d : List (String × String),
      List.foldl parseLine d (physOf (kvLine "target_drive" c.target_drive))
        = pyDictSet d "target_drive" c.target_drive := by
    intro d
    rw [foldl_physOf_nonl d _
        (contains_nl_false (kvLine_lineFree (by decide) (lineFree_mem htdF))),
      parseLine_kv_target_drive, stripQuotes_asString_of_tame tdT]
  have sLoc : ∀ d : List (String × String),
      List.foldl parseLine d (physOf (kvLine "locale" c.locale))
        = pyDictSet d "locale" (chopNl c.locale.data).asString := fun d =>
    foldl_physOf_kv_good d "locale" c.locale (by decide) (by decide)
      (keyHeadOk (by decide)) (by decide) locG locNe
  have sTz : ∀ d : List (String × String),
      List.foldl parseLine d (physOf (kvLine "timezone" c.timezone))
        = pyDictSet d "timezone" (chopNl c.timezone.data).asString := fun d =>
    foldl_physOf_kv_good d "timezone" c.timezone (by decide) (by decide)
      (keyHeadOk (by decide)) (by decide) tzG tzNe
  have sUsr : ∀ d : List (String × String),
      List.foldl parseLine d (physOf (kvLine "username" c.username))
        = pyDictSet d "username" (chopNl c.username.data).asString := fun d =>
    foldl_physOf_kv_good d "username" c.username (by decide) (by decide)
      (keyHeadOk (by decide)) (by decide) usrG usrNe
  have sHost : ∀ d : List (String × String),
      List.foldl parseLine d (physOf (kvLine "hostname" c.hostname))
        = pyDictSet d "hostname" (chopNl c.hostname.data).asString := fun d =>
    foldl_physOf_kv_good d "hostname" c.hostname (by decide) (by decide)
      (keyHeadOk (by decide)) (by decide) hostG hostNe
  have sNt : ∀ d : List (String × String),
      List.foldl parseLine d
        (physOf (kvLine "network_config" c.network.network_type))
        = pyDictSet d "network_config" c.network.network_type := by
    intro d
    rw [foldl_physOf_nonl d _
        (contains_nl_false (kvLine_lineFree (by decide) (tame_mem_break ntT))),
      parseLine_kv_network_config, stripQuotes_asString_of_tame ntT]
  have sSwap : ∀ d : List (String × String),
      List.foldl parseLine d (physOf (kvLine "swap_size" c.swap_size))
        = pyDictSet d "swap_size" (stripQuotes c.swap_size.data).asString := by
    intro d
    rw [foldl_physOf_nonl d _
        (contains_nl_false (kvLine_lineFree (by decide) (lineFree_mem hswF))),
      parseLine_kv_swap_size]
  have sFs : ∀ d : List (String × String),
      List.foldl parseLine d (physOf (kvLine "filesystem" c.filesystem))
        = pyDictSet d "filesystem"
          (stripQuotes c.filesystem.data).asString := by
    intro d
    rw [foldl_physOf_nonl d _
        (contains_nl_false (kvLine_lineFree (by decide) (lineFree_mem hfsF))),
      parseLine_kv_filesystem]
  by_cases hst : c.network.network_type = "static"
  · rw [hst] at hintf hip hgw
    obtain ⟨si, hsiEq, hsiNe⟩ := validate_interface_none_static hintf
    obtain ⟨sip, hipEq, hipNe, hipOk⟩ := validate_ip_none_static hip
    obtain ⟨sgw, hgwEq, hgwNe, hgwOk⟩ := validate_gateway_none_static hgw
    have hstatP : lineFree (pyStr c.network.interface).data = true ∧
        (stripQuotes (pyStr c.network.interface).data).isEmpty = false ∧
        lineFree (pyStr c.network.netmask).data = true ∧
        lineFree (pyStr c.network.dns_servers).data = true := by
      rcases hstF with hne | hok
      · exact absurd hst hne
      · exact ⟨hok.1.1.1, hok.1.1.2, hok.1.2, hok.2⟩
    have hEmp : (stripQuotes si.data).isEmpty = false := by
      have h0 := hstatP.2.1
      rw [hsiEq] at h0
      exact h0
    have hsiNe2 : (stripQuotes si.data).asString ≠ "" := by
      intro he
      have hdat := congrArg String.data he
      rw [asString_data] at hdat
      rw [hdat] at hEmp
      exact Bool.noConfusion hEmp
    have hsave : saveLines c =
        ["# KDE Neon Installation Configuration".data,
         kvLine "target_drive" c.target_drive,
         kvLine "locale" c.locale,
         kvLine "timezone" c.timezone,
         kvLine "username" c.username,
         kvLine "hostname" c.hostname,
         kvLine "swap_size" c.swap_size,
         kvLine "filesystem" c.filesystem,
         [],
         "# Network Configuration".data,
         kvLine "network_config" c.network.network_type,
         kvLine "static_iface" si,
         kvLine "static_ip" sip,
         kvLine "static_netmask" (pyStr c.network.netmask),
         kvLine "static_gateway" sgw,
         kvLine "static_dns" (pyStr c.network.dns_servers)]
        ++ (if truthyOpt c.network.domain_search then
            [kvLine "static_domain_search" (pyStr c.network.domain_search)]
            else [])
        ++ (if truthyOpt c.network.dns_suffix then
            [kvLine "static_dns_suffix" (pyStr c.network.dns_suffix)]
            else []) := by
      unfold saveLines
      rw [if_pos hst, hsiEq, hipEq, hgwEq]
      rfl
    have sIf : ∀ d : List (String × String),
        List.foldl parseLine d (physOf (kvLine "static_iface" si))
          = pyDictSet d "static_iface" (stripQuotes si.data).asString := by
      intro d
      rw [foldl_physOf_nonl d _
          (contains_nl_false (kvLine_lineFree (by decide)
            (by
              have h0 := hstatP.1
              rw [hsiEq] at h0
              exact lineFree_mem h0))),
        parseLine_kv_static_iface]
    have sIp : ∀ d : List (String × String),
        List.foldl parseLine d (physOf (kvLine "static_ip" sip))
          = pyDictSet d "static_ip" sip := by
      intro d
      rw [foldl_physOf_nonl d _
          (contains_nl_false (kvLine_lineFree (by decide)
            (tame_mem_break (ipv4_tame hipOk)))),
        parseLine_kv_static_ip, stripQuotes_asString_of_tame (ipv4_tame hipOk)]
    have sNm : ∀ d : List (String × String),
        List.foldl parseLine d
          (physOf (kvLine "static_netmask" (pyStr c.network.netmask)))
          = pyDictSet d "static_netmask"
            (stripQuotes (pyStr c.network.netmask).data).asString := by
      intro d
      rw [foldl_physOf_nonl d _
          (contains_nl_false (kvLine_lineFree (by decide)
            (lineFree_mem hstatP.2.2.1))),
        parseLine_kv_static_netmask]
    have sGw : ∀ d : List (String × String),
        List.foldl parseLine d (physOf (kvLine "static_gateway" sgw))
          = pyDictSet d "static_gateway" sgw := by
      intro d
      rw [foldl_physOf_nonl d _
          (contains_nl_false (kvLine_lineFree (by decide)
            (tame_mem_break (ipv4_tame hgwOk)))),
        parseLine_kv_static_gateway,
        stripQuotes_asString_of_tame (ipv4_tame hgwOk)]
    have sDns : ∀ d : List (String × String),
        List.foldl parseLine d
          (physOf (kvLine "static_dns" (pyStr c.network.dns_servers)))
          = pyDictSet d "static_dns"
            (stripQuotes (pyStr c.network.dns_servers).data).asString := by
      intro d
      rw [foldl_physOf_nonl d _
          (contains_nl_false (kvLine_lineFree (by decide)
            (lineFree_mem hstatP.2.2.2))),
        parseLine_kv_static_dns]
    by_cases hds : truthyOpt c.network.domain_search = true
    · by_cases hsf : truthyOpt c.network.dns_suffix = true
      · have hdsL : lineFree (pyStr c.network.domain_search).data = true := by
          rcases hdsF with hfa | hok2
          · rw [hds] at hfa
            exact Bool.noConfusion hfa
          · exact hok2
        have sDom : ∀ d : List (String × String),
            List.foldl parseLine d (physOf (kvLine "static_domain_search"
              (pyStr c.network.domain_search)))
              = pyDictSet d "static_domain_search"
                (stripQuotes (pyStr c.network.domain_search).data).asString := by
          intro d
          rw [foldl_physOf_nonl d _
              (contains_nl_false (kvLine_lineFree (by decide)
                (lineFree_mem hdsL))),
            parseLine_kv_static_domain_search]
        have hsfL : lineFree (pyStr c.network.dns_suffix).data = true := by
          rcases hsfF with hfa | hok2
          · rw [hsf] at hfa
            exact Bool.noConfusion hfa
          · exact hok2
        have sSuf : ∀ d : List (String × String),
            List.foldl parseLine d (physOf (kvLine "static_dns_suffix"
              (pyStr c.network.dns_suffix)))
              = pyDictSet d "static_dns_suffix"
                (stripQuotes (pyStr c.network.dns_suffix).data).asString := by
          intro d
          rw [foldl_physOf_nonl d _
              (contains_nl_false (kvLine_lineFree (by decide)
                (lineFree_mem hsfL))),
            parseLine_kv_static_dns_suffix]
        have hD : parseShellLines (pySplitlines (save_config c)) =
            [("target_drive", c.target_drive),
             ("locale", (chopNl c.locale.data).asString),
             ("timezone", (chopNl c.timezone.data).asString),
             ("username", (chopNl c.username.data).asString),
             ("hostname", (chopNl c.hostname.data).asString),
             ("swap_size", (stripQuotes c.swap_size.data).asString),
             ("filesystem", (stripQuotes c.filesystem.data).asString),
             ("network_config", c.network.network_type),
             ("static_iface", (stripQuotes si.data).asString),
             ("static_ip", sip),
             ("static_netmask", (stripQuotes (pyStr c.network.netmask).data).asString),
             ("static_gateway", sgw),
             ("static_dns", (stripQuotes (pyStr c.network.dns_servers).data).asString),
             ("static_domain_search", (stripQuotes (pyStr c.network.domain_search).data).asString),
             ("static_dns_suffix", (stripQuotes (pyStr c.network.dns_suffix).data).asString)] := by
          rw [hsplit2]
          unfold parseShellLines
          rw [foldl_parseLine_bind]
          rw [hsave, if_pos hds, if_pos hsf]
          simp only [List.cons_append, List.nil_append, List.append_nil]
          simp [List.foldl_cons, List.foldl_nil, sH1, sH2, sBlank, sTd, sLoc,
            sTz, sUsr, sHost, sSwap, sFs, sNt, sIf, sIp, sNm, sGw, sDns, sDom, sSuf, pyDictSet]
        have hP : parse_shell_config (save_config c) =
            { target_drive := c.target_drive,
              locale := (chopNl c.locale.data).asString,
              timezone := (chopNl c.timezone.data).asString,
              username := (chopNl c.username.data).asString,
              hostname := (chopNl c.hostname.data).asString,
              swap_size := (stripQuotes c.swap_size.data).asString,
              filesystem := (stripQuotes c.filesystem.data).asString,
              network := ⟨c.network.network_type,
                some ((stripQuotes si.data).asString), some sip,
                some ((stripQuotes (pyStr c.network.netmask).data).asString),
                some sgw,
                some ((stripQuotes (pyStr c.network.dns_servers).data).asString),
                some ((stripQuotes (pyStr c.network.domain_search).data).asString),
                some ((stripQuotes (pyStr c.network.dns_suffix).data).asString)⟩ } := by
          simp only [parse_shell_config]
          rw [hD]
          simp [cfgGet]
        refine ⟨?_, ?_⟩
        · rw [hP]
          simp [systemConfigErrors, networkConfigErrors, hdrv,
            validate_locale_chop hloc, validate_timezone_chop htz,
            validate_username_chop husr, validate_hostname_chop hhost,
            hnt, validate_interface_some hsiNe2,
            validate_ip_some_ok hipNe hipOk,
            validate_gateway_some_ok hgwNe hgwOk]
        · rw [hD]
          simp [hst, hds, hsf]
      · have hdsL : lineFree (pyStr c.network.domain_search).data = true := by
          rcases hdsF with hfa | hok2
          · rw [hds] at hfa
            exact Bool.noConfusion hfa
          · exact hok2
        have sDom : ∀ d : List (String × String),
            List.foldl parseLine d (physOf (kvLine "static_domain_search"
              (pyStr c.network.domain_search)))
              = pyDictSet d "static_domain_search"
                (stripQuotes (pyStr c.network.domain_search).data).asString := by
          intro d
          rw [foldl_physOf_nonl d _
              (contains_nl_false (kvLine_lineFree (by decide)
                (lineFree_mem hdsL))),
            parseLine_kv_static_domain_search]
        have hD : parseShellLines (pySplitlines (save_config c)) =
            [("target_drive", c.target_drive),
             ("locale", (chopNl c.locale.data).asString),
             ("timezone", (chopNl c.timezone.data).asString),
             ("username", (chopNl c.username.data).asString),
             ("hostname", (chopNl c.hostname.data).asString),
             ("swap_size", (stripQuotes c.swap_size.data).asString),
             ("filesystem", (stripQuotes c.filesystem.data).asString),
             ("network_config", c.network.network_type),
             ("static_iface", (stripQuotes si.data).asString),
             ("static_ip", sip),
             ("static_netmask", (stripQuotes (pyStr c.network.netmask).data).asString),
             ("static_gateway", sgw),
             ("static_dns", (stripQuotes (pyStr c.network.dns_servers).data).asString),
             ("static_domain_search", (stripQuotes (pyStr c.network.domain_search).data).asString)] := by
          rw [hsplit2]
          unfold parseShellLines
          rw [foldl_parseLine_bind]
          rw [hsave, if_pos hds, if_neg hsf]
          simp only [List.cons_append, List.nil_append, List.append_nil]
          simp [List.foldl_cons, List.foldl_nil, sH1, sH2, sBlank, sTd, sLoc,
            sTz, sUsr, sHost, sSwap, sFs, sNt, sIf, sIp, sNm, sGw, sDns, sDom, pyDictSet]
        have hP : parse_shell_config (save_config c) =
            { target_drive := c.target_drive,
              locale := (chopNl c.locale.data).asString,
              timezone := (chopNl c.timezone.data).asString,
              username := (chopNl c.username.data).asString,
              hostname := (chopNl c.hostname.data).asString,
              swap_size := (stripQuotes c.swap_size.data).asString,
              filesystem := (stripQuotes c.filesystem.data).asString,
              network := ⟨c.network.network_type,
                some ((stripQuotes si.data).asString), some sip,
                some ((stripQuotes (pyStr c.network.netmask).data).asString),
                some sgw,
                some ((stripQuotes (pyStr c.network.dns_servers).data).asString),
                some ((stripQuotes (pyStr c.network.domain_search).data).asString),
                none⟩ } := by
          simp only [parse_shell_config]
          rw [hD]
          simp [cfgGet]
        refine ⟨?_, ?_⟩
        · rw [hP]
          simp [systemConfigErrors, networkConfigErrors, hdrv,
            validate_locale_chop hloc, validate_timezone_chop htz,
            validate_username_chop husr, validate_hostname_chop hhost,
            hnt, validate_interface_some hsiNe2,
            validate_ip_some_ok hipNe hipOk,
            validate_gateway_some_ok hgwNe hgwOk]
        · rw [hD]
          simp [hst, hds, hsf]
    · by_cases hsf : truthyOpt c.network.dns_suffix = true
      · have hsfL : lineFree (pyStr c.network.dns_suffix).data = true := by
          rcases hsfF with hfa | hok2
          · rw [hsf] at hfa
            exact Bool.noConfusion hfa
          · exact hok2
        have sSuf : ∀ d : List (String × String),
            List.foldl parseLine d (physOf (kvLine "static_dns_suffix"
              (pyStr c.network.dns_suffix)))
              = pyDictSet d "static_dns_suffix"
                (stripQuotes (pyStr c.network.dns_suffix).data).asString := by
          intro d
          rw [foldl_physOf_nonl d _
              (contains_nl_false (kvLine_lineFree (by decide)
                (lineFree_mem hsfL))),
            parseLine_kv_static_dns_suffix]
        have hD : parseShellLines (pySplitlines (save_config c)) =
            [("target_drive", c.target_drive),
             ("locale", (chopNl c.locale.data).asString),
             ("timezone", (chopNl c.timezone.data).asString),
             ("username", (chopNl c.username.data).asString),
             ("hostname", (chopNl c.hostname.data).asString),
             ("swap_size", (stripQuotes c.swap_size.data).asString),
             ("filesystem", (stripQuotes c.filesystem.data).asString),
             ("network_config", c.network.network_type),
             ("static_iface", (stripQuotes si.data).asString),
             ("static_ip", sip),
             ("static_netmask", (stripQuotes (pyStr c.network.netmask).data).asString),
             ("static_gateway", sgw),
             ("static_dns", (stripQuotes (pyStr c.network.dns_servers).data).asString),
             ("static_dns_suffix", (stripQuotes (pyStr c.network.dns_suffix).data).asString)] := by
          rw [hsplit2]
          unfold parseShellLines
          rw [foldl_parseLine_bind]
          rw [hsave, if_neg hds, if_pos hsf]
          simp only [List.cons_append, List.nil_append, List.append_nil]
          simp [List.foldl_cons, List.foldl_nil, sH1, sH2, sBlank, sTd, sLoc,
            sTz, sUsr, sHost, sSwap, sFs, sNt, sIf, sIp, sNm, sGw, sDns, sSuf, pyDictSet]
        have hP : parse_shell_config (save_config c) =
            { target_drive := c.target_drive,
              locale := (chopNl c.locale.data).asString,
              timezone := (chopNl c.timezone.data).asString,
              username := (chopNl c.username.data).asString,
              hostname := (chopNl c.hostname.data).asString,
              swap_size := (stripQuotes c.swap_size.data).asString,
              filesystem := (stripQuotes c.filesystem.data).asString,
              network := ⟨c.network.network_type,
                some ((stripQuotes si.data).asString), some sip,
                some ((stripQuotes (pyStr c.network.netmask).data).asString),
                some sgw,
                some ((stripQuotes (pyStr c.network.dns_servers).data).asString),
                none,
                some ((stripQuotes (pyStr c.network.dns_suffix).data).asString)⟩ } := by
          simp only [parse_shell_config]
          rw [hD]
          simp [cfgGet]
        refine ⟨?_, ?_⟩
        · rw [hP]
          simp [systemConfigErrors, networkConfigErrors, hdrv,
            validate_locale_chop hloc, validate_timezone_chop htz,
            validate_username_chop husr, validate_hostname_chop hhost,
            hnt, validate_interface_some hsiNe2,
            validate_ip_some_ok hipNe hipOk,
            validate_gateway_some_ok hgwNe hgwOk]
        · rw [hD]
          simp [hst, hds, hsf]
      · have hD : parseShellLines (pySplitlines (save_config c)) =
            [("target_drive", c.target_drive),
             ("locale", (chopNl c.locale.data).asString),
             ("timezone", (chopNl c.timezone.data).asString),
             ("username", (chopNl c.username.data).asString),
             ("hostname", (chopNl c.hostname.data).asString),
             ("swap_size", (stripQuotes c.swap_size.data).asString),
             ("filesystem", (stripQuotes c.filesystem.data).asString),
             ("network_config", c.network.network_type),
             ("static_iface", (stripQuotes si.data).asString),
             ("static_ip", sip),
             ("static_netmask", (stripQuotes (pyStr c.network.netmask).data).asString),
             ("static_gateway", sgw),
             ("static_dns", (stripQuotes (pyStr c.network.dns_servers).data).asString)] := by
          rw [hsplit2]
          unfold parseShellLines
          rw [foldl_parseLine_bind]
          rw [hsave, if_neg hds, if_neg hsf]
          simp only [List.cons_append, List.nil_append, List.append_nil]
          simp [List.foldl_cons, List.foldl_nil, sH1, sH2, sBlank, sTd, sLoc,
            sTz, sUsr, sHost, sSwap, sFs, sNt, sIf, sIp, sNm, sGw, sDns, pyDictSet]
        have hP : parse_shell_config (save_config c) =
            { target_drive := c.target_drive,
              locale := (chopNl c.locale.data).asString,
              timezone := (chopNl c.timezone.data).asString,
              username := (chopNl c.username.data).asString,
              hostname := (chopNl c.hostname.data).asString,
              swap_size := (stripQuotes c.swap_size.data).asString,
              filesystem := (stripQuotes c.filesystem.data).asString,
              network := ⟨c.network.network_type,
                some ((stripQuotes si.data).asString), some sip,
                some ((stripQuotes (pyStr c.network.netmask).data).asString),
                some sgw,
                some ((stripQuotes (pyStr c.network.dns_servers).data).asString),
                none,
                none⟩ } := by
          simp only [parse_shell_config]
          rw [hD]
          simp [cfgGet]
        refine ⟨?_, ?_⟩
        · rw [hP]
          simp [systemConfigErrors, networkConfigErrors, hdrv,
            validate_locale_chop hloc, validate_timezone_chop htz,
            validate_username_chop husr, validate_hostname_chop hhost,
            hnt, validate_interface_some hsiNe2,
            validate_ip_some_ok hipNe hipOk,
            validate_gateway_some_ok hgwNe hgwOk]
        · rw [hD]
          simp [hst, hds, hsf]
  · have hne : (some c.network.network_type : Option String)
        ≠ some "static" := by
      simp [hst]
    have hsave : saveLines c =
        ["# KDE Neon Installation Configuration".data,
         kvLine "target_drive" c.target_drive,
         kvLine "locale" c.locale,
         kvLine "timezone" c.timezone,
         kvLine "username" c.username,
         kvLine "hostname" c.hostname,
         kvLine "swap_size" c.swap_size,
         kvLine "filesystem" c.filesystem,
         [],
         "# Network Configuration".data,
         kvLine "network_config" c.network.network_type]
        ++ (if truthyOpt c.network.domain_search then
            [kvLine "static_domain_search" (pyStr c.network.domain_search)]
            else [])
        ++ (if truthyOpt c.network.dns_suffix then
            [kvLine "static_dns_suffix" (pyStr c.network.dns_suffix)]
            else []) := by
      unfold saveLines
      rw [if_neg hst]
      rfl
    by_cases hds : truthyOpt c.network.domain_search = true
    · by_cases hsf : truthyOpt c.network.dns_suffix = true
      · have hdsL : lineFree (pyStr c.network.domain_search).data = true := by
          rcases hdsF with hfa | hok2
          · rw [hds] at hfa
            exact Bool.noConfusion hfa
          · exact hok2
        have sDom : ∀ d : List (String × String),
            List.foldl parseLine d (physOf (kvLine "static_domain_search"
              (pyStr c.network.domain_search)))
              = pyDictSet d "static_domain_search"
                (stripQuotes (pyStr c.network.domain_search).data).asString := by
          intro d
          rw [foldl_physOf_nonl d _
              (contains_nl_false (kvLine_lineFree (by decide)
                (lineFree_mem hdsL))),
            parseLine_kv_static_domain_search]
        have hsfL : lineFree (pyStr c.network.dns_suffix).data = true := by
          rcases hsfF with hfa | hok2
          · rw [hsf] at hfa
            exact Bool.noConfusion hfa
          · exact hok2
        have sSuf : ∀ d : List (String × String),
            List.foldl parseLine d (physOf (kvLine "static_dns_suffix"
              (pyStr c.network.dns_suffix)))
              = pyDictSet d "static_dns_suffix"
                (stripQuotes (pyStr c.network.dns_suffix).data).asString := by
          intro d
          rw [foldl_physOf_nonl d _
              (contains_nl_false (kvLine_lineFree (by decide)
                (lineFree_mem hsfL))),
            parseLine_kv_static_dns_suffix]
        have hD : parseShellLines (pySplitlines (save_config c)) =
            [("target_drive", c.target_drive),
             ("locale", (chopNl c.locale.data).asString),
             ("timezone", (chopNl c.timezone.data).asString),
             ("username", (chopNl c.username.data).asString),
             ("hostname", (chopNl c.hostname.data).asString),
             ("swap_size", (stripQuotes c.swap_size.data).asString),
             ("filesystem", (stripQuotes c.filesystem.data).asString),
             ("network_config", c.network.network_type),
             ("static_domain_search", (stripQuotes (pyStr c.network.domain_search).data).asString),
             ("static_dns_suffix", (stripQuotes (pyStr c.network.dns_suffix).data).asString)] := by
          rw [hsplit2]
          unfold parseShellLines
          rw [foldl_parseLine_bind]
          rw [hsave, if_pos hds, if_pos hsf]
          simp only [List.cons_append, List.nil_append, List.append_nil]
          simp [List.foldl_cons, List.foldl_nil, sH1, sH2, sBlank, sTd, sLoc,
            sTz, sUsr, sHost, sSwap, sFs, sNt, sDom, sSuf, pyDictSet]
        have hP : parse_shell_config (save_config c) =
            { target_drive := c.target_drive,
              locale := (chopNl c.locale.data).asString,
              timezone := (chopNl c.timezone.data).asString,
              username := (chopNl c.username.data).asString,
              hostname := (chopNl c.hostname.data).asString,
              swap_size := (stripQuotes c.swap_size.data).asString,
              filesystem := (stripQuotes c.filesystem.data).asString,
              network := ⟨c.network.network_type,
                none, none, none, none, none,
                some ((stripQuotes (pyStr c.network.domain_search).data).asString),
                some ((stripQuotes (pyStr c.network.dns_suffix).data).asString)⟩ } := by
          simp only [parse_shell_config]
          rw [hD]
          simp [cfgGet]
        refine ⟨?_, ?_⟩
        · rw [hP]
          simp [systemConfigErrors, networkConfigErrors, hdrv,
            validate_locale_chop hloc, validate_timezone_chop htz,
            validate_username_chop husr, validate_hostname_chop hhost,
            hnt, validate_interface_none_arg hne,
            validate_ip_none_arg hne, validate_gateway_none_arg hne]
        · rw [hD]
          simp [hst, hds, hsf]
      · have hdsL : lineFree (pyStr c.network.domain_search).data = true := by
          rcases hdsF with hfa | hok2
          · rw [hds] at hfa
            exact Bool.noConfusion hfa
          · exact hok2
        have sDom : ∀ d : List (String × String),
            List.foldl parseLine d (physOf (kvLine "static_domain_search"
              (pyStr c.network.domain_search)))
              = pyDictSet d "static_domain_search"
                (stripQuotes (pyStr c.network.domain_search).data).asString := by
          intro d
          rw [foldl_physOf_nonl d _
              (contains_nl_false (kvLine_lineFree (by decide)
                (lineFree_mem hdsL))),
            parseLine_kv_static_domain_search]
        have hD : parseShellLines (pySplitlines (save_config c)) =
            [("target_drive", c.target_drive),
             ("locale", (chopNl c.locale.data).asString),
             ("timezone", (chopNl c.timezone.data).asString),
             ("username", (chopNl c.username.data).asString),
             ("hostname", (chopNl c.hostname.data).asString),
             ("swap_size", (stripQuotes c.swap_size.data).asString),
             ("filesystem", (stripQuotes c.filesystem.data).asString),
             ("network_config", c.network.network_type),
             ("static_domain_search", (stripQuotes (pyStr c.network.domain_search).data).asString)] := by
          rw [hsplit2]
          unfold parseShellLines
          rw [foldl_parseLine_bind]
          rw [hsave, if_pos hds, if_neg hsf]
          simp only [List.cons_append, List.nil_append, List.append_nil]
          simp [List.foldl_cons, List.foldl_nil, sH1, sH2, sBlank, sTd, sLoc,
            sTz, sUsr, sHost, sSwap, sFs, sNt, sDom, pyDictSet]
        have hP : parse_shell_config (save_config c) =
            { target_drive := c.target_drive,
              locale := (chopNl c.locale.data).asString,
              timezone := (chopNl c.timezone.data).asString,
              username := (chopNl c.username.data).asString,
              hostname := (chopNl c.hostname.data).asString,
              swap_size := (stripQuotes c.swap_size.data).asString,
              filesystem := (stripQuotes c.filesystem.data).asString,
              network := ⟨c.network.network_type,
                none, none, none, none, none,
                some ((stripQuotes (pyStr c.network.domain_search).data).asString),
                none⟩ } := by
          simp only [parse_shell_config]
          rw [hD]
          simp [cfgGet]
        refine ⟨?_, ?_⟩
        · rw [hP]
          simp [systemConfigErrors, networkConfigErrors, hdrv,
            validate_locale_chop hloc, validate_timezone_chop htz,
            validate_username_chop husr, validate_hostname_chop hhost,
            hnt, validate_interface_none_arg hne,
            validate_ip_none_arg hne, validate_gateway_none_arg hne]
        · rw [hD]
          simp [hst, hds, hsf]
    · by_cases hsf : truthyOpt c.network.dns_suffix = true
      · have hsfL : lineFree (pyStr c.network.dns_suffix).data = true := by
          rcases hsfF with hfa | hok2
          · rw [hsf] at hfa
            exact Bool.noConfusion hfa
          · exact hok2
        have sSuf : ∀ d : List (String × String),
            List.foldl parseLine d (physOf (kvLine "static_dns_suffix"
              (pyStr c.network.dns_suffix)))
              = pyDictSet d "static_dns_suffix"
                (stripQuotes (pyStr c.network.dns_suffix).data).asString := by
          intro d
          rw [foldl_physOf_nonl d _
              (contains_nl_false (kvLine_lineFree (by decide)
                (lineFree_mem hsfL))),
            parseLine_kv_static_dns_suffix]
        have hD : parseShellLines (pySplitlines (save_config c)) =
            [("target_drive", c.target_drive),
             ("locale", (chopNl c.locale.data).asString),
             ("timezone", (chopNl c.timezone.data).asString),
             ("username", (chopNl c.username.data).asString),
             ("hostname", (chopNl c.hostname.data).asString),
             ("swap_size", (stripQuotes c.swap_size.data).asString),
             ("filesystem", (stripQuotes c.filesystem.data).asString),
             ("network_config", c.network.network_type),
             ("static_dns_suffix", (stripQuotes (pyStr c.network.dns_suffix).data).asString)] := by
          rw [hsplit2]
          unfold parseShellLines
          rw [foldl_parseLine_bind]
          rw [hsave, if_neg hds, if_pos hsf]
          simp only [List.cons_append, List.nil_append, List.append_nil]
          simp [List.foldl_cons, List.foldl_nil, sH1, sH2, sBlank, sTd, sLoc,
            sTz, sUsr, sHost, sSwap, sFs, sNt, sSuf, pyDictSet]
        have hP : parse_shell_config (save_config c) =
            { target_drive := c.target_drive,
              locale := (chopNl c.locale.data).asString,
              timezone := (chopNl c.timezone.data).asString,
              username := (chopNl c.username.data).asString,
              hostname := (chopNl c.hostname.data).asString,
              swap_size := (stripQuotes c.swap_size.data).asString,
              filesystem := (stripQuotes c.filesystem.data).asString,
              network := ⟨c.network.network_type,
                none, none, none, none, none,
                none,
                some ((stripQuotes (pyStr c.network.dns_suffix).data).asString)⟩ } := by
          simp only [parse_shell_config]
          rw [hD]
          simp [cfgGet]
        refine ⟨?_, ?_⟩
        · rw [hP]
          simp [systemConfigErrors, networkConfigErrors, hdrv,
            validate_locale_chop hloc, validate_timezone_chop htz,
            validate_username_chop husr, validate_hostname_chop hhost,
            hnt, validate_interface_none_arg hne,
            validate_ip_none_arg hne, validate_gateway_none_arg hne]
        · rw [hD]
          simp [hst, hds, hsf]
      · have hD : parseShellLines (pySplitlines (save_config c)) =
            [("target_drive", c.target_drive),
             ("locale", (chopNl c.locale.data).asString),
             ("timezone", (chopNl c.timezone.data).asString),
             ("username", (chopNl c.username.data).asString),
             ("hostname", (chopNl c.hostname.data).asString),
             ("swap_size", (stripQuotes c.swap_size.data).asString),
             ("filesystem", (stripQuotes c.filesystem.data).asString),
             ("network_config", c.network.network_type)] := by
          rw [hsplit2]
          unfold parseShellLines
          rw [foldl_parseLine_bind]
          rw [hsave, if_neg hds, if_neg hsf]
          simp only [List.cons_append, List.nil_append, List.append_nil]
          simp [List.foldl_cons, List.foldl_nil, sH1, sH2, sBlank, sTd, sLoc,
            sTz, sUsr, sHost, sSwap, sFs, sNt, pyDictSet]
        have hP : parse_shell_config (save_config c) =
            { target_drive := c.target_drive,
              locale := (chopNl c.locale.data).asString,
              timezone := (chopNl c.timezone.data).asString,
              username := (chopNl c.username.data).asString,
              hostname := (chopNl c.hostname.data).asString,
              swap_size := (stripQuotes c.swap_size.data).asString,
              filesystem := (stripQuotes c.filesystem.data).asString,
              network := ⟨c.network.network_type,
                none, none, none, none, none,
                none,
                none⟩ } := by
          simp only [parse_shell_config]
          rw [hD]
          simp [cfgGet]
        refine ⟨?_, ?_⟩
        · rw [hP]
          simp [systemConfigErrors, networkConfigErrors, hdrv,
            validate_locale_chop hloc, validate_timezone_chop htz,
            validate_username_chop husr, validate_hostname_chop hhost,
            hnt, validate_interface_none_arg hne,
            validate_ip_none_arg hne, validate_gateway_none_arg hne]
        · rw [hD]
          simp [hst, hds, hsf]

/-- A concrete valid configuration used to exercise the round trip. -/
def c8demo : SystemConfig :=
  { target_drive := "/dev/nvme0n1", locale := "en_US.UTF-8",
    timezone := "America/Chicago", username := "user",
    hostname := "kde-box", swap_size := "auto", filesystem := "ext4",
    network := { network_type := "dhcp" } }

/-- Witness for C8 (amended): the round trip holds at a concrete valid
configuration. -/
theorem c8_round_trip_witness :
    systemConfigErrors (fun _ => true)
      (parse_shell_config (save_config c8demo)) = [] ∧
    (parseShellLines (pySplitlines (save_config c8demo))).map Prod.fst =
      ["target_drive", "locale", "timezone", "username", "hostname",
       "swap_size", "filesystem", "network_config"]
      ++ (if c8demo.network.network_type = "static" then
          ["static_iface", "static_ip", "static_netmask", "static_gateway",
           "static_dns"] else [])
      ++ (if truthyOpt c8demo.network.domain_search then
          ["static_domain_search"] else [])
      ++ (if truthyOpt c8demo.network.dns_suffix then ["static_dns_suffix"]
          else []) :=
  c8_round_trip (fun _ => true) c8demo (by decide) (by decide)

/-- A validated configuration whose unvalidated `swap_size` carries a
newline: serialization writes the tail as its own line. -/
def c8bad : SystemConfig :=
  { target_drive := "/dev/nvme0n1", locale := "en_US.UTF-8",
    timezone := "America/Chicago", username := "user",
    hostname := "kde-box", swap_size := "auto\nstatic_ip=bad",
    filesystem := "ext4", network := { network_type := "dhcp" } }

/-- Counterexample for C8 as stated: with no restriction on the values no
validator guards, the round trip can break.  `c8bad` validates with zero
errors, yet saving and re-parsing it reads the injected line back as a
`static_ip` setting and fails validation. -/
theorem c8_counterexample :
    systemConfigErrors (fun _ => true) c8bad = [] ∧
    systemConfigErrors (fun _ => true)
      (parse_shell_config (save_config c8bad))
      = ["Invalid IP address format"] :=
  ⟨by decide, by decide⟩

end KdeInstall
